import Mathlib

/-!
# BLIS level-3 front end: operand checks and thread-info paths

A shallow embedding of `frame/3/bli_l3_thrinfo.c` and `frame/3/bli_l3_check.c`.

Conventions of the embedding.

* `dim_t` is the signed 64-bit integer type of BLIS.  Its values are `Int`s; the
  arithmetic of the code is `dim_mul` and `dim_add`, which wrap around modulo
  `2^64`.
* Heap objects carry an identity: a communicator its `uid`, a `thrinfo_t` node
  its `addr`.  Allocation hands out identities in allocation order.
* A `for ( int i = 0; i < n; i++ )` loop is `for_int n body`: the counter is an
  `int`, and a bound above `INT_MAX` makes the increment overflow, after which
  the call has no result.  A loop with a `dim_t` counter is `for_range n body`.
* The same construction is also written over unbounded integers (`ideal_...`);
  it is the reference the code is compared with where nothing overflows.
* Compile-time switches (`BLIS_ENABLE_MULTITHREADING`, `BLIS_ENABLE_GEMM_MD`)
  are boolean parameters.
-/

namespace Blis

/-! ## Thread-info paths: data model -/

/-- Modelled from the spec: the signed dimension type of BLIS (`dim_t`), whose
declaration is not part of the sources at hand: a signed 64-bit integer.  A value
is an `Int`; see `dim_wrap` for the arithmetic. -/
abbrev dim_t := Int

/-- Modelled from the spec: the level-3 operation kinds (`opid_t`), whose
declaration is not part of the sources at hand;
`bli_l3_thrinfo_create_paths` tells `BLIS_TRMM` and `BLIS_TRSM` from all others. -/
inductive opid_t where
  | BLIS_GEMM
  | BLIS_GEMMT
  | BLIS_HEMM
  | BLIS_HERK
  | BLIS_HER2K
  | BLIS_SYMM
  | BLIS_SYRK
  | BLIS_SYR2K
  | BLIS_TRMM3
  | BLIS_TRMM
  | BLIS_TRSM
deriving DecidableEq, Repr

/-- Modelled from the spec: the side of the structured operand (`side_t`),
left or right. -/
inductive side_t where
  | BLIS_LEFT
  | BLIS_RIGHT
deriving DecidableEq, Repr

/-- Modelled from the spec: the query `bli_is_left( side )`. -/
def bli_is_left (side : side_t) : Bool := side = side_t.BLIS_LEFT

/-- Modelled from the spec: the query `bli_is_right( side )`. -/
def bli_is_right (side : side_t) : Bool := side = side_t.BLIS_RIGHT

/-- Modelled from the spec: a communication group (`thrcomm_t`), an opaque
handle created with a participant count; `uid` is the identity of the object. -/
structure thrcomm_t where
  uid : Nat
  n_threads : dim_t
deriving DecidableEq, Repr

/-- Addresses of `thrinfo_t` structs: the two global single-threaded structs
and the structs obtained from `bli_malloc_intl`. -/
inductive addr_t where
  | BLIS_PACKM_SINGLE_THREADED
  | BLIS_GEMM_SINGLE_THREADED
  | heap (n : Nat)
deriving DecidableEq, Repr

/-- Modelled from the spec: the thread-assignment node (`thrinfo_t`) with its
eight fields.  A value is what a `thrinfo_t*` points to: `NULL`, or a struct at
`addr` with its fields and, through `sub_node`, the chain below it. -/
inductive thrinfo_t where
  | NULL
  | node (addr : addr_t) (ocomm : thrcomm_t) (ocomm_id : dim_t)
      (icomm : thrcomm_t) (icomm_id : dim_t) (n_way : dim_t) (work_id : dim_t)
      (free_comms : Bool) (sub_node : thrinfo_t)
deriving DecidableEq, Repr

namespace thrinfo_t

/-- Modelled from the spec: the accessor `bli_thrinfo_ocomm`. -/
def ocomm? : thrinfo_t → Option thrcomm_t
  | NULL => none
  | node _ oc _ _ _ _ _ _ _ => some oc

/-- Modelled from the spec: the accessor `bli_thrinfo_ocomm_id`. -/
def ocomm_id? : thrinfo_t → Option dim_t
  | NULL => none
  | node _ _ oid _ _ _ _ _ _ => some oid

/-- Modelled from the spec: the accessor `bli_thrinfo_icomm`. -/
def icomm? : thrinfo_t → Option thrcomm_t
  | NULL => none
  | node _ _ _ ic _ _ _ _ _ => some ic

/-- Modelled from the spec: the accessor `bli_thrinfo_icomm_id`. -/
def icomm_id? : thrinfo_t → Option dim_t
  | NULL => none
  | node _ _ _ _ iid _ _ _ _ => some iid

/-- Modelled from the spec: the accessor `bli_thrinfo_n_way`. -/
def n_way? : thrinfo_t → Option dim_t
  | NULL => none
  | node _ _ _ _ _ nw _ _ _ => some nw

/-- Modelled from the spec: the accessor `bli_thrinfo_work_id`. -/
def work_id? : thrinfo_t → Option dim_t
  | NULL => none
  | node _ _ _ _ _ _ wid _ _ => some wid

/-- Modelled from the spec: the accessor `bli_thrinfo_needs_free_comms`. -/
def free_comms? : thrinfo_t → Option Bool
  | NULL => none
  | node _ _ _ _ _ _ _ fc _ => some fc

/-- Modelled from the spec: the accessor `bli_thrinfo_sub_node`. -/
def sub_node? : thrinfo_t → Option thrinfo_t
  | NULL => none
  | node _ _ _ _ _ _ _ _ sub => some sub

end thrinfo_t

/-- The five per-loop factors `jc`, `kc`, `ic`, `jr`, `ir`
(the locals `xx_in`, resp. `xx_way`, of `bli_l3_thrinfo_create_paths`). -/
structure nways_t where
  jc : dim_t
  kc : dim_t
  ic : dim_t
  jr : dim_t
  ir : dim_t
deriving DecidableEq, Repr

/-- Allocation state and store trace while the paths are built. -/
structure build_t where
  /-- communicators created so far, in creation order (`uid` = position) -/
  comms : List thrcomm_t
  /-- number of `thrinfo_t` structs allocated so far -/
  n_nodes : Nat
  /-- the stores `paths[index] = root`, in program order -/
  stores : List (dim_t × thrinfo_t)
deriving DecidableEq, Repr

/-- The loop `for ( i = 0; i < n; ++i ) body( i )` with a `dim_t` counter, on a
state. -/
def for_range {σ : Type} (n : dim_t) (body : dim_t → σ → σ) (s : σ) : σ :=
  (List.range n.toNat).foldl (fun st i => body (i : Int) st) s

/-! ## Machine integers -/

/-- The largest value of an `int`. -/
def INT_MAX : Int := 2147483647

/-- Modelled from the spec: the value a `dim_t` holds after an operation whose
exact result is `x`: the representative of `x` modulo `2^64` in the range
`-2^63 .. 2^63 - 1`. -/
def dim_wrap (x : Int) : dim_t :=
  ((x + 9223372036854775808) % 18446744073709551616 - 9223372036854775808 : Int)

/-- The product `x * y` in `dim_t`. -/
def dim_mul (x y : dim_t) : dim_t := dim_wrap (x * y)

/-- The sum `x + y` in `dim_t`. -/
def dim_add (x y : dim_t) : dim_t := dim_wrap (x + y)

/-- Why a call does not return. -/
inductive stop_t where
  /-- The assertion `assert( global_num_threads != 0 )` failed. -/
  | assertion_failed
  /-- An `int` loop counter was incremented past `INT_MAX`. -/
  | counter_overflow
deriving DecidableEq, Repr

/-- The loop `for ( int i = 0; i < n; i++ ) body( i )` on a state, where `n` is a
`dim_t`.  For `n` above `INT_MAX` the counter reaches `INT_MAX` with the condition
still true and is incremented once more. -/
def for_int {σ : Type} (n : dim_t) (body : dim_t → σ → Except stop_t σ) (s : σ) :
    Except stop_t σ :=
  if INT_MAX < n then Except.error stop_t.counter_overflow
  else (List.range n.toNat).foldlM (fun st (i : Nat) => body (i : Int) st) s

/-! ## Thread-info paths: operations -/

/-- Modelled from the spec: `bli_thrcomm_create` is not part of the sources at
hand; it creates a communication group with the given participant count and
returns a handle to the new object. -/
def bli_thrcomm_create (n_threads : dim_t) (s : build_t) : thrcomm_t × build_t :=
  let comm : thrcomm_t := { uid := s.comms.length, n_threads := n_threads }
  (comm, { s with comms := s.comms ++ [comm] })

/-- Modelled from the spec: `bli_thrinfo_create` is not part of the sources at
hand; it allocates a node and sets its eight fields from the arguments. -/
def bli_thrinfo_create (ocomm : thrcomm_t) (ocomm_id : dim_t) (icomm : thrcomm_t)
    (icomm_id : dim_t) (n_way : dim_t) (work_id : dim_t) (free_comms : Bool)
    (sub_node : thrinfo_t) (s : build_t) : thrinfo_t × build_t :=
  (thrinfo_t.node (addr_t.heap s.n_nodes) ocomm ocomm_id icomm icomm_id n_way work_id
      free_comms sub_node,
    { s with n_nodes := s.n_nodes + 1 })

/-- The function `bli_l3_thrinfo_create`: a node that frees its communicators. -/
def bli_l3_thrinfo_create (ocomm : thrcomm_t) (ocomm_id : dim_t) (icomm : thrcomm_t)
    (icomm_id : dim_t) (n_way : dim_t) (work_id : dim_t)
    (sub_node : thrinfo_t) (s : build_t) : thrinfo_t × build_t :=
  bli_thrinfo_create ocomm ocomm_id icomm icomm_id n_way work_id true sub_node s

/-- Modelled from the spec: `bli_packm_thrinfo_create` is not part of the
sources at hand; a packing-placeholder node holds the communicators and ids it
is given and is marked as not needing to free communicators on teardown. -/
def bli_packm_thrinfo_create (ocomm : thrcomm_t) (ocomm_id : dim_t) (icomm : thrcomm_t)
    (icomm_id : dim_t) (n_way : dim_t) (work_id : dim_t)
    (sub_node : thrinfo_t) (s : build_t) : thrinfo_t × build_t :=
  bli_thrinfo_create ocomm ocomm_id icomm icomm_id n_way work_id false sub_node s

/-- The requested factors `jc_in .. ir_in` (lines 141-154).  `multithreading`
is `BLIS_ENABLE_MULTITHREADING`; `bli_env_read_nway` is the environment lookup,
which is not part of the sources at hand and is a parameter. -/
def nways_in (multithreading : Bool) (bli_env_read_nway : String → dim_t) : nways_t :=
  if multithreading then
    { jc := bli_env_read_nway "BLIS_JC_NT"
      kc := 1
      ic := bli_env_read_nway "BLIS_IC_NT"
      jr := bli_env_read_nway "BLIS_JR_NT"
      ir := bli_env_read_nway "BLIS_IR_NT" }
  else
    { jc := 1, kc := 1, ic := 1, jr := 1, ir := 1 }

/-- The effective factors `jc_way .. ir_way` (lines 156-204). -/
def nways_eff (l3_op : opid_t) (side : side_t) (w_in : nways_t) : nways_t :=
  if l3_op = opid_t.BLIS_TRMM then
    if bli_is_right side then
      { jc := 1
        kc := w_in.kc
        ic := w_in.ic
        jr := dim_mul w_in.jr w_in.jc
        ir := w_in.ir }
    else
      { jc := w_in.jc
        kc := w_in.kc
        ic := w_in.ic
        jr := w_in.jr
        ir := w_in.ir }
  else if l3_op = opid_t.BLIS_TRSM then
    if bli_is_right side then
      { jc := 1
        kc := 1
        ic := dim_mul (dim_mul w_in.jc w_in.ic) w_in.jr
        jr := 1
        ir := 1 }
    else
      { jc := 1
        kc := 1
        ic := 1
        jr := dim_mul (dim_mul w_in.ic w_in.jr) w_in.ir
        ir := 1 }
  else
    { jc := w_in.jc
      kc := w_in.kc
      ic := w_in.ic
      jr := w_in.jr
      ir := w_in.ir }

/-- The local `global_num_threads` (line 207). -/
def global_num_threads (w : nways_t) : dim_t :=
  dim_mul (dim_mul (dim_mul (dim_mul w.jc w.kc) w.ic) w.jr) w.ir

/-- The local `jc_nt` (line 210). -/
def jc_nt (w : nways_t) : dim_t := dim_mul (dim_mul (dim_mul w.kc w.ic) w.jr) w.ir

/-- The local `kc_nt` (line 211). -/
def kc_nt (w : nways_t) : dim_t := dim_mul (dim_mul w.ic w.jr) w.ir

/-- The local `ic_nt` (line 212). -/
def ic_nt (w : nways_t) : dim_t := dim_mul w.jr w.ir

/-- The local `jr_nt` (line 213). -/
def jr_nt (w : nways_t) : dim_t := w.ir

/-- The local `ir_nt` (line 214). -/
def ir_nt (_w : nways_t) : dim_t := 1

/-- The local `jr_comm_id` of the innermost loop body (lines 251-252), as a
function of the loop index. -/
def jr_comm_id (w : nways_t) (e : dim_t) : dim_t :=
  let ir_comm_id : dim_t := 0
  dim_add (dim_mul e (ir_nt w)) ir_comm_id

/-- The local `ic_comm_id` of the innermost loop body (line 253). -/
def ic_comm_id (w : nways_t) (d e : dim_t) : dim_t :=
  dim_add (dim_mul d (jr_nt w)) (jr_comm_id w e)

/-- The local `kc_comm_id` of the innermost loop body (line 254). -/
def kc_comm_id (w : nways_t) (c d e : dim_t) : dim_t :=
  dim_add (dim_mul c (ic_nt w)) (ic_comm_id w d e)

/-- The local `jc_comm_id` of the innermost loop body (line 255). -/
def jc_comm_id (w : nways_t) (b c d e : dim_t) : dim_t :=
  dim_add (dim_mul b (kc_nt w)) (kc_comm_id w c d e)

/-- The local `global_comm_id` of the innermost loop body (line 256), as a
function of the five loop indices. -/
def global_comm_id (w : nways_t) (a b c d e : dim_t) : dim_t :=
  dim_add (dim_mul a (jc_nt w)) (jc_comm_id w b c d e)

/-- Body of the innermost loop (lines 249-307): one communicator, the seven
nodes of one chain, and the store of the root into `paths`. -/
def path_body (w : nways_t) (global_comm jc_comm kc_comm ic_comm jr_comm : thrcomm_t)
    (a b c d e : dim_t) (s0 : build_t) : build_t :=
  let r0 := bli_thrcomm_create (ir_nt w) s0
  let ir_comm := r0.1
  let ir_comm_id : dim_t := 0
  let jr_comm_id := dim_add (dim_mul e (ir_nt w)) ir_comm_id
  let ic_comm_id := dim_add (dim_mul d (jr_nt w)) jr_comm_id
  let kc_comm_id := dim_add (dim_mul c (ic_nt w)) ic_comm_id
  let jc_comm_id := dim_add (dim_mul b (kc_nt w)) kc_comm_id
  let global_comm_id := dim_add (dim_mul a (jc_nt w)) jc_comm_id
  -- macro-kernel loops
  let r1 := bli_l3_thrinfo_create jr_comm jr_comm_id ir_comm ir_comm_id w.ir e
    thrinfo_t.NULL r0.2
  let ir_info := r1.1
  let r2 := bli_l3_thrinfo_create ic_comm ic_comm_id jr_comm jr_comm_id w.jr d ir_info r1.2
  let jr_info := r2.1
  -- packa
  let r3 := bli_packm_thrinfo_create ic_comm ic_comm_id jr_comm jr_comm_id (ic_nt w)
    ic_comm_id jr_info r2.2
  let pack_ic_in := r3.1
  -- blk_var1
  let r4 := bli_l3_thrinfo_create kc_comm kc_comm_id ic_comm ic_comm_id w.ic c pack_ic_in r3.2
  let ic_info := r4.1
  -- packb
  let r5 := bli_packm_thrinfo_create kc_comm kc_comm_id ic_comm ic_comm_id (kc_nt w)
    kc_comm_id ic_info r4.2
  let pack_kc_in := r5.1
  -- blk_var3
  let r6 := bli_l3_thrinfo_create jc_comm jc_comm_id kc_comm kc_comm_id w.kc b pack_kc_in r5.2
  let kc_info := r6.1
  -- blk_var2
  let r7 := bli_l3_thrinfo_create global_comm global_comm_id jc_comm jc_comm_id w.jc a
    kc_info r6.2
  let jc_info := r7.1
  { r7.2 with stores := r7.2.stores ++ [(global_comm_id, jc_info)] }

/-- The `jr` loop body (lines 245-319). -/
def jr_body (w : nways_t) (global_comm jc_comm kc_comm ic_comm : thrcomm_t)
    (a b c d : dim_t) (s : build_t) : Except stop_t build_t :=
  let r := bli_thrcomm_create (jr_nt w) s
  for_int w.ir
    (fun e s1 => Except.ok (path_body w global_comm jc_comm kc_comm ic_comm r.1 a b c d e s1))
    r.2

/-- The `ic` loop body (lines 241-320). -/
def ic_body (w : nways_t) (global_comm jc_comm kc_comm : thrcomm_t)
    (a b c : dim_t) (s : build_t) : Except stop_t build_t :=
  let r := bli_thrcomm_create (ic_nt w) s
  for_int w.jr (fun d => jr_body w global_comm jc_comm kc_comm r.1 a b c d) r.2

/-- The `kc` loop body (lines 237-321). -/
def kc_body (w : nways_t) (global_comm jc_comm : thrcomm_t)
    (a b : dim_t) (s : build_t) : Except stop_t build_t :=
  let r := bli_thrcomm_create (kc_nt w) s
  for_int w.ic (fun c => ic_body w global_comm jc_comm r.1 a b c) r.2

/-- The `jc` loop body (lines 233-322). -/
def jc_body (w : nways_t) (global_comm : thrcomm_t) (a : dim_t) (s : build_t) :
    Except stop_t build_t :=
  let r := bli_thrcomm_create (jc_nt w) s
  for_int w.kc (fun b => kc_body w global_comm r.1 a b) r.2

/-- Modelled from the spec: the number of `thrinfo_t*` slots of the block that
`bli_malloc_intl( num * sizeof( thrinfo_t* ) )` returns (line 229).  The byte
count is computed in the unsigned 64-bit `siz_t`, and a pointer takes 8 bytes. -/
def paths_slots (num : dim_t) : dim_t := (num * 8) % 18446744073709551616 / 8

/-- The array `paths` after the stores of a trace, starting from the
`num`-slot array returned by `bli_malloc_intl` (`none` is a slot that was never
assigned).  A store outside the array is undefined in C and is dropped. -/
def paths_of (num : dim_t) (stores : List (dim_t × thrinfo_t)) : List (Option thrinfo_t) :=
  stores.foldl
    (fun arr st => if 0 ≤ st.1 ∧ st.1 < num then arr.set st.1.toNat (some st.2) else arr)
    (List.replicate num.toNat none)

/-- Result of `bli_l3_thrinfo_create_paths`: the returned array and the
allocation state and store trace after the call. -/
structure paths_t where
  paths : List (Option thrinfo_t)
  global_comm : thrcomm_t
  final : build_t
deriving DecidableEq, Repr

/-- Lines 207-328 of `bli_l3_thrinfo_create_paths`, from the effective factors
on. -/
def create_paths_from (w : nways_t) : Except stop_t paths_t :=
  if global_num_threads w = 0 then Except.error stop_t.assertion_failed
  else
    let r := bli_thrcomm_create (global_num_threads w) { comms := [], n_nodes := 0, stores := [] }
    let global_comm := r.1
    match for_int w.jc (fun a => jc_body w global_comm a) r.2 with
    | Except.error stop => Except.error stop
    | Except.ok s =>
      Except.ok { paths := paths_of (paths_slots (global_num_threads w)) s.stores
                  global_comm := global_comm
                  final := s }

/-- The function `bli_l3_thrinfo_create_paths( l3_op, side )`. -/
def bli_l3_thrinfo_create_paths (multithreading : Bool) (bli_env_read_nway : String → dim_t)
    (l3_op : opid_t) (side : side_t) : Except stop_t paths_t :=
  create_paths_from (nways_eff l3_op side (nways_in multithreading bli_env_read_nway))

/-- Nothing overflows while the paths are built: every effective factor is at
least 1 and at most `INT_MAX`, and the exact product of the factors is below
`2^61`, so that no loop counter, no product in `dim_t` and no byte count in
`siz_t` wraps around. -/
def no_overflow (w : nways_t) : Prop :=
  (1 ≤ w.jc ∧ w.jc ≤ INT_MAX) ∧ (1 ≤ w.kc ∧ w.kc ≤ INT_MAX) ∧ (1 ≤ w.ic ∧ w.ic ≤ INT_MAX) ∧
    (1 ≤ w.jr ∧ w.jr ≤ INT_MAX) ∧ (1 ≤ w.ir ∧ w.ir ≤ INT_MAX) ∧
    w.jc * w.kc * w.ic * w.jr * w.ir < 2305843009213693952

instance (w : nways_t) : Decidable (no_overflow w) := by
  unfold no_overflow
  infer_instance

/-! ## The construction over unbounded integers

The definitions of this section repeat the loop nest of
`bli_l3_thrinfo_create_paths` with the arithmetic of `Int`.  They are not the
code; `create_paths_refines` shows that the code computes the same value when
`no_overflow` holds. -/

/-- The exact product of the five factors: `global_num_threads` without
wrap-around. -/
def ideal_global_num_threads (w : nways_t) : dim_t := w.jc * w.kc * w.ic * w.jr * w.ir

/-- The exact product behind `jc_nt`. -/
def ideal_jc_nt (w : nways_t) : dim_t := w.kc * w.ic * w.jr * w.ir

/-- The exact product behind `kc_nt`. -/
def ideal_kc_nt (w : nways_t) : dim_t := w.ic * w.jr * w.ir

/-- The exact product behind `ic_nt`. -/
def ideal_ic_nt (w : nways_t) : dim_t := w.jr * w.ir

/-- The exact value behind `global_comm_id`: the mixed-radix number with the
digits `a, b, c, d, e`. -/
def ideal_global_comm_id (w : nways_t) (a b c d e : dim_t) : dim_t :=
  let ir_comm_id : dim_t := 0
  let jr_comm_id := e * ir_nt w + ir_comm_id
  let ic_comm_id := d * jr_nt w + jr_comm_id
  let kc_comm_id := c * ideal_ic_nt w + ic_comm_id
  let jc_comm_id := b * ideal_kc_nt w + kc_comm_id
  a * ideal_jc_nt w + jc_comm_id

/-- The loop body `path_body` with exact arithmetic. -/
def ideal_path_body (w : nways_t) (global_comm jc_comm kc_comm ic_comm jr_comm : thrcomm_t)
    (a b c d e : dim_t) (s0 : build_t) : build_t :=
  let r0 := bli_thrcomm_create (ir_nt w) s0
  let ir_comm := r0.1
  let ir_comm_id : dim_t := 0
  let jr_comm_id := e * ir_nt w + ir_comm_id
  let ic_comm_id := d * jr_nt w + jr_comm_id
  let kc_comm_id := c * ideal_ic_nt w + ic_comm_id
  let jc_comm_id := b * ideal_kc_nt w + kc_comm_id
  let global_comm_id := a * ideal_jc_nt w + jc_comm_id
  -- macro-kernel loops
  let r1 := bli_l3_thrinfo_create jr_comm jr_comm_id ir_comm ir_comm_id w.ir e
    thrinfo_t.NULL r0.2
  let ir_info := r1.1
  let r2 := bli_l3_thrinfo_create ic_comm ic_comm_id jr_comm jr_comm_id w.jr d ir_info r1.2
  let jr_info := r2.1
  -- packa
  let r3 := bli_packm_thrinfo_create ic_comm ic_comm_id jr_comm jr_comm_id (ideal_ic_nt w)
    ic_comm_id jr_info r2.2
  let pack_ic_in := r3.1
  -- blk_var1
  let r4 := bli_l3_thrinfo_create kc_comm kc_comm_id ic_comm ic_comm_id w.ic c pack_ic_in r3.2
  let ic_info := r4.1
  -- packb
  let r5 := bli_packm_thrinfo_create kc_comm kc_comm_id ic_comm ic_comm_id (ideal_kc_nt w)
    kc_comm_id ic_info r4.2
  let pack_kc_in := r5.1
  -- blk_var3
  let r6 := bli_l3_thrinfo_create jc_comm jc_comm_id kc_comm kc_comm_id w.kc b pack_kc_in r5.2
  let kc_info := r6.1
  -- blk_var2
  let r7 := bli_l3_thrinfo_create global_comm global_comm_id jc_comm jc_comm_id w.jc a
    kc_info r6.2
  let jc_info := r7.1
  { r7.2 with stores := r7.2.stores ++ [(global_comm_id, jc_info)] }

/-- The loop body `jr_body` with exact arithmetic and an unbounded counter. -/
def ideal_jr_body (w : nways_t) (global_comm jc_comm kc_comm ic_comm : thrcomm_t)
    (a b c d : dim_t) (s : build_t) : build_t :=
  let r := bli_thrcomm_create (jr_nt w) s
  for_range w.ir (fun e => ideal_path_body w global_comm jc_comm kc_comm ic_comm r.1 a b c d e) r.2

/-- The loop body `ic_body` with exact arithmetic and an unbounded counter. -/
def ideal_ic_body (w : nways_t) (global_comm jc_comm kc_comm : thrcomm_t)
    (a b c : dim_t) (s : build_t) : build_t :=
  let r := bli_thrcomm_create (ideal_ic_nt w) s
  for_range w.jr (fun d => ideal_jr_body w global_comm jc_comm kc_comm r.1 a b c d) r.2

/-- The loop body `kc_body` with exact arithmetic and an unbounded counter. -/
def ideal_kc_body (w : nways_t) (global_comm jc_comm : thrcomm_t)
    (a b : dim_t) (s : build_t) : build_t :=
  let r := bli_thrcomm_create (ideal_kc_nt w) s
  for_range w.ic (fun c => ideal_ic_body w global_comm jc_comm r.1 a b c) r.2

/-- The loop body `jc_body` with exact arithmetic and an unbounded counter. -/
def ideal_jc_body (w : nways_t) (global_comm : thrcomm_t) (a : dim_t) (s : build_t) : build_t :=
  let r := bli_thrcomm_create (ideal_jc_nt w) s
  for_range w.kc (fun b => ideal_kc_body w global_comm r.1 a b) r.2

/-- The construction `create_paths_from` with exact arithmetic, unbounded
counters and an array of exactly `ideal_global_num_threads` slots; `none` if the
exact product is 0. -/
def ideal_create_paths_from (w : nways_t) : Option paths_t :=
  if ideal_global_num_threads w = 0 then none
  else
    let r := bli_thrcomm_create (ideal_global_num_threads w) { comms := [], n_nodes := 0, stores := [] }
    let global_comm := r.1
    let s := for_range w.jc (fun a => ideal_jc_body w global_comm a) r.2
    some { paths := paths_of (ideal_global_num_threads w) s.stores
           global_comm := global_comm
           final := s }

/-! ## Operand checks: data model -/

/-- Modelled from the spec: the element datatype tag of an operand (`num_t`),
whose declaration is not part of the sources at hand: the floating-point and
complex kinds, the integer kind, and the kind of the constant scalars, which
is neither integer nor floating-point. -/
inductive num_t where
  | BLIS_FLOAT
  | BLIS_SCOMPLEX
  | BLIS_DOUBLE
  | BLIS_DCOMPLEX
  | BLIS_INT
  | BLIS_CONSTANT
deriving DecidableEq, Repr

/-- Modelled from the spec: precision tags (storage and computation
precision of an operand). -/
inductive prec_t where
  | BLIS_SINGLE_PREC
  | BLIS_DOUBLE_PREC
deriving DecidableEq, Repr

/-- Modelled from the spec: structure tags of an operand. -/
inductive struc_t where
  | BLIS_GENERAL
  | BLIS_HERMITIAN
  | BLIS_SYMMETRIC
  | BLIS_TRIANGULAR
deriving DecidableEq, Repr

/-- Modelled from the spec: the operand descriptor (`obj_t`), as far as the
checks read it: datatype tag, storage and computation precision, structure
tag, the two dimensions, the transposition flag, whether the data buffer is
null, and the answer of the zero-imaginary-part query on a scalar. -/
structure obj_t where
  dt : num_t
  prec : prec_t
  comp_prec : prec_t
  struc : struc_t
  length : dim_t
  width : dim_t
  has_trans : Bool
  buffer_is_null : Bool
  imag_is_zero : Bool
deriving DecidableEq, Repr

/-- Modelled from the spec: the context (`cntx_t`), as far as the checks read
it: for each datatype, whether the configured stack buffer capacity suffices
for it. -/
structure cntx_t where
  stack_buf_suffices : num_t → Bool

/-- Modelled from the spec: the classified outcomes of the atomic checks
(`err_t`): success, or one named violation. -/
inductive err_t where
  | BLIS_SUCCESS
  | DatatypeNotFloating
  | DatatypeNotNonInteger
  | InconsistentDatatypes
  | NotScalarObject
  | NotMatrixObject
  | NullBuffer
  | InsufficientStackBuffer
  | NotSquare
  | WrongStructureTag (expected : struc_t)
  | DimensionMismatch
deriving DecidableEq, Repr

/-- How a check ends when it does not return: with the classified violation
passed to `bli_check_error_code`, or with the `bli_abort()` of the
mixed-datatype branch of `bli_gemm_basic_check`. -/
inductive fault_t where
  | error_code (e_val : err_t)
  | complex_alpha_abort
deriving DecidableEq, Repr

/-- Outcome of a check: `ok ()` when it returns, `error f` when it ends the
process with fault `f`. -/
abbrev check_t := Except fault_t Unit

instance : DecidableEq check_t := fun x y =>
  match x, y with
  | Except.ok _, Except.ok _ => isTrue rfl
  | Except.error f, Except.error g =>
    if h : f = g then isTrue (by rw [h]) else isFalse (fun hne => h (Except.error.inj hne))
  | Except.ok _, Except.error _ => isFalse (fun h => by cases h)
  | Except.error _, Except.ok _ => isFalse (fun h => by cases h)

/-! ## Operand checks: the atomic checks and queries (not in the sources at hand) -/

/-- Modelled from the spec: the query `bli_obj_length_after_trans`, the number
of rows with the transposition flag taken into account. -/
def bli_obj_length_after_trans (x : obj_t) : dim_t := if x.has_trans then x.width else x.length

/-- Modelled from the spec: the query `bli_obj_width_after_trans`, the number
of columns with the transposition flag taken into account. -/
def bli_obj_width_after_trans (x : obj_t) : dim_t := if x.has_trans then x.length else x.width

/-- Modelled from the spec: `bli_check_noninteger_object`; the datatype of a
scaling scalar must be a non-integer kind. -/
def bli_check_noninteger_object (x : obj_t) : err_t :=
  if x.dt = num_t.BLIS_INT then err_t.DatatypeNotNonInteger else err_t.BLIS_SUCCESS

/-- Modelled from the spec: `bli_check_floating_object`; the datatype of a
matrix operand must be a floating-point or complex kind. -/
def bli_check_floating_object (x : obj_t) : err_t :=
  if x.dt = num_t.BLIS_FLOAT ∨ x.dt = num_t.BLIS_SCOMPLEX ∨ x.dt = num_t.BLIS_DOUBLE
      ∨ x.dt = num_t.BLIS_DCOMPLEX then err_t.BLIS_SUCCESS
  else err_t.DatatypeNotFloating

/-- Modelled from the spec: `bli_check_scalar_object`; the operand must
structurally be a scalar, that is, 1 x 1. -/
def bli_check_scalar_object (x : obj_t) : err_t :=
  if x.length = 1 ∧ x.width = 1 then err_t.BLIS_SUCCESS else err_t.NotScalarObject

/-- Modelled from the spec: `bli_check_matrix_object`; the operand must
structurally be a 2-D matrix, that is, have two non-negative dimensions. -/
def bli_check_matrix_object (x : obj_t) : err_t :=
  if 0 ≤ x.length ∧ 0 ≤ x.width then err_t.BLIS_SUCCESS else err_t.NotMatrixObject

/-- Modelled from the spec: `bli_check_object_buffer`; the data buffer must be
non-null. -/
def bli_check_object_buffer (x : obj_t) : err_t :=
  if x.buffer_is_null then err_t.NullBuffer else err_t.BLIS_SUCCESS

/-- Modelled from the spec: `bli_check_sufficient_stack_buf_size`; the stack
buffer capacity of the context must suffice for the datatype. -/
def bli_check_sufficient_stack_buf_size (dt : num_t) (cntx : cntx_t) : err_t :=
  if cntx.stack_buf_suffices dt then err_t.BLIS_SUCCESS else err_t.InsufficientStackBuffer

/-- Modelled from the spec: `bli_check_level3_dims( a, b, c )`; with the
transposition flags taken into account, rows(a) = rows(c), cols(b) = cols(c)
and cols(a) = rows(b). -/
def bli_check_level3_dims (a b c : obj_t) : err_t :=
  if bli_obj_length_after_trans a = bli_obj_length_after_trans c
      ∧ bli_obj_width_after_trans b = bli_obj_width_after_trans c
      ∧ bli_obj_width_after_trans a = bli_obj_length_after_trans b then err_t.BLIS_SUCCESS
  else err_t.DimensionMismatch

/-- Modelled from the spec: `bli_check_square_object`; the two dimensions must
be equal. -/
def bli_check_square_object (x : obj_t) : err_t :=
  if x.length = x.width then err_t.BLIS_SUCCESS else err_t.NotSquare

/-- Modelled from the spec: `bli_check_consistent_object_datatypes`; the two
operands must have the same datatype. -/
def bli_check_consistent_object_datatypes (x y : obj_t) : err_t :=
  if x.dt = y.dt then err_t.BLIS_SUCCESS else err_t.InconsistentDatatypes

/-- Modelled from the spec: `bli_check_hermitian_object`; the operand must be
tagged Hermitian. -/
def bli_check_hermitian_object (x : obj_t) : err_t :=
  if x.struc = struc_t.BLIS_HERMITIAN then err_t.BLIS_SUCCESS
  else err_t.WrongStructureTag struc_t.BLIS_HERMITIAN

/-- Modelled from the spec: `bli_check_symmetric_object`; the operand must be
tagged symmetric. -/
def bli_check_symmetric_object (x : obj_t) : err_t :=
  if x.struc = struc_t.BLIS_SYMMETRIC then err_t.BLIS_SUCCESS
  else err_t.WrongStructureTag struc_t.BLIS_SYMMETRIC

/-- Modelled from the spec: `bli_check_triangular_object`; the operand must be
tagged triangular. -/
def bli_check_triangular_object (x : obj_t) : err_t :=
  if x.struc = struc_t.BLIS_TRIANGULAR then err_t.BLIS_SUCCESS
  else err_t.WrongStructureTag struc_t.BLIS_TRIANGULAR

/-- Modelled from the spec: `bli_check_error_code`; any outcome other than
success ends the process with a diagnostic for that violation. -/
def bli_check_error_code (e_val : err_t) : check_t :=
  if e_val = err_t.BLIS_SUCCESS then Except.ok () else Except.error (fault_t.error_code e_val)

/-! ## Operand checks: `bli_l3_check.c` -/

/-- The function `bli_l3_basic_check` (lines 298-365). -/
def bli_l3_basic_check (alpha a b beta c : obj_t) (cntx : cntx_t) : check_t := do
  -- Check object datatypes.
  bli_check_error_code (bli_check_noninteger_object alpha)
  bli_check_error_code (bli_check_noninteger_object beta)
  bli_check_error_code (bli_check_floating_object a)
  bli_check_error_code (bli_check_floating_object b)
  bli_check_error_code (bli_check_floating_object c)
  -- Check object dimensions.
  bli_check_error_code (bli_check_scalar_object alpha)
  bli_check_error_code (bli_check_scalar_object beta)
  bli_check_error_code (bli_check_matrix_object a)
  bli_check_error_code (bli_check_matrix_object b)
  bli_check_error_code (bli_check_matrix_object c)
  -- Check object buffers (for non-NULLness).
  bli_check_error_code (bli_check_object_buffer alpha)
  bli_check_error_code (bli_check_object_buffer a)
  bli_check_error_code (bli_check_object_buffer b)
  bli_check_error_code (bli_check_object_buffer beta)
  bli_check_error_code (bli_check_object_buffer c)
  -- Check for sufficiently sized stack buffers
  bli_check_error_code (bli_check_sufficient_stack_buf_size a.dt cntx)

/-- The function `bli_gemm_basic_check` (lines 182-230); `gemm_md` is
`BLIS_ENABLE_GEMM_MD`. -/
def bli_gemm_basic_check (gemm_md : Bool) (alpha a b beta c : obj_t) (cntx : cntx_t) :
    check_t := do
  -- Perform standard checks.
  bli_l3_basic_check alpha a b beta c cntx
  -- Check object dimensions.
  bli_check_error_code (bli_check_level3_dims a b c)
  if gemm_md then
    -- When mixing datatypes, make sure that alpha does not have a non-zero
    -- imaginary component.
    if c.dt ≠ a.dt ∨ c.dt ≠ b.dt ∨ c.comp_prec ≠ c.prec then
      if ¬ alpha.imag_is_zero then
        throw fault_t.complex_alpha_abort
  else
    -- Check for consistent datatypes.
    bli_check_error_code (bli_check_consistent_object_datatypes c a)
    bli_check_error_code (bli_check_consistent_object_datatypes c b)

/-- The function `bli_gemmt_basic_check` (lines 232-252). -/
def bli_gemmt_basic_check (alpha a b beta c : obj_t) (cntx : cntx_t) : check_t := do
  -- Perform standard checks.
  bli_l3_basic_check alpha a b beta c cntx
  -- Check object dimensions.
  bli_check_error_code (bli_check_level3_dims a b c)

/-- The function `bli_hemm_basic_check` (lines 254-296). -/
def bli_hemm_basic_check (side : side_t) (alpha a b beta c : obj_t) (cntx : cntx_t) :
    check_t := do
  -- Perform standard checks.
  bli_l3_basic_check alpha a b beta c cntx
  -- Check object dimensions.
  if bli_is_left side then
    bli_check_error_code (bli_check_level3_dims a b c)
  else
    bli_check_error_code (bli_check_level3_dims b a c)
  -- Check matrix squareness.
  bli_check_error_code (bli_check_square_object a)
  -- Check for consistent datatypes.
  bli_check_error_code (bli_check_consistent_object_datatypes c a)
  bli_check_error_code (bli_check_consistent_object_datatypes c b)

/-- The function `bli_gemm_check` (lines 37-64). -/
def bli_gemm_check (gemm_md : Bool) (alpha a b beta c : obj_t) (cntx : cntx_t) : check_t := do
  -- Check basic properties of the operation.
  bli_gemm_basic_check gemm_md alpha a b beta c cntx

/-- The function `bli_gemmt_check` (lines 66-86). -/
def bli_gemmt_check (alpha a b beta c : obj_t) (cntx : cntx_t) : check_t := do
  -- Check basic properties of the operation.
  bli_gemmt_basic_check alpha a b beta c cntx
  -- Check matrix squareness.
  bli_check_error_code (bli_check_square_object c)

/-- The function `bli_hemm_check` (lines 88-109). -/
def bli_hemm_check (side : side_t) (alpha a b beta c : obj_t) (cntx : cntx_t) : check_t := do
  bli_hemm_basic_check side alpha a b beta c cntx
  -- Check object structure.
  bli_check_error_code (bli_check_hermitian_object a)

/-- The function `bli_symm_check` (lines 111-132). -/
def bli_symm_check (side : side_t) (alpha a b beta c : obj_t) (cntx : cntx_t) : check_t := do
  bli_hemm_basic_check side alpha a b beta c cntx
  -- Check object structure.
  bli_check_error_code (bli_check_symmetric_object a)

/-- The function `bli_trmm_check` (lines 134-155). -/
def bli_trmm_check (side : side_t) (alpha a b beta c : obj_t) (cntx : cntx_t) : check_t := do
  bli_hemm_basic_check side alpha a b beta c cntx
  -- Check object structure.
  bli_check_error_code (bli_check_triangular_object a)

/-- The function `bli_trsm_check` (lines 157-178). -/
def bli_trsm_check (side : side_t) (alpha a b beta c : obj_t) (cntx : cntx_t) : check_t := do
  bli_hemm_basic_check side alpha a b beta c cntx
  -- Check object structure.
  bli_check_error_code (bli_check_triangular_object a)

/-! ## Auxiliary definitions for the statements -/

/-- The store indices of a trace, in program order. -/
def store_indices (s : build_t) : List dim_t := s.stores.map Prod.fst

/-- The five loop indices lie in the ranges of the five loops. -/
def in_ranges (w : nways_t) (a b c d e : dim_t) : Prop :=
  (0 ≤ a ∧ a < w.jc) ∧ (0 ≤ b ∧ b < w.kc) ∧ (0 ≤ c ∧ c < w.ic) ∧
    (0 ≤ d ∧ d < w.jr) ∧ (0 ≤ e ∧ e < w.ir)

instance (w : nways_t) (a b c d e : dim_t) : Decidable (in_ranges w a b c d e) := by
  unfold in_ranges
  infer_instance

/-- Every root stored so far sits in communicator `gc` with the store index
as its outer id. -/
def roots_ok (gc : thrcomm_t) (s : build_t) : Prop :=
  ∀ p ∈ s.stores, p.2.ocomm? = some gc ∧ p.2.ocomm_id? = some p.1

instance (gc : thrcomm_t) (s : build_t) : Decidable (roots_ok gc s) := by
  unfold roots_ok
  infer_instance

/-- The six checks of `bli_l3_check.c`, named by operation. -/
inductive check_op_t where
  | gemm
  | gemmt
  | hemm
  | symm
  | trmm
  | trsm
deriving DecidableEq, Repr

/-- The check of `bli_l3_check.c` for an operation (`bli_gemm_check`,
`bli_gemmt_check`, `bli_hemm_check`, `bli_symm_check`, `bli_trmm_check`,
`bli_trsm_check`); `side` is not an argument of the first two. -/
def l3_check_of (op : check_op_t) (gemm_md : Bool) (side : side_t)
    (alpha a b beta c : obj_t) (cntx : cntx_t) : check_t :=
  match op with
  | check_op_t.gemm => bli_gemm_check gemm_md alpha a b beta c cntx
  | check_op_t.gemmt => bli_gemmt_check alpha a b beta c cntx
  | check_op_t.hemm => bli_hemm_check side alpha a b beta c cntx
  | check_op_t.symm => bli_symm_check side alpha a b beta c cntx
  | check_op_t.trmm => bli_trmm_check side alpha a b beta c cntx
  | check_op_t.trsm => bli_trsm_check side alpha a b beta c cntx

/-- The one-sided operations: those whose check takes a `side`. -/
def one_sided (op : check_op_t) : Bool :=
  op = check_op_t.hemm || op = check_op_t.symm || op = check_op_t.trmm || op = check_op_t.trsm

/-- The outcomes of the sixteen atomic checks of `bli_l3_basic_check`, in the
order of the source (the common check set). -/
def common_checks (alpha a b beta c : obj_t) (cntx : cntx_t) : List err_t :=
  [ bli_check_noninteger_object alpha,
    bli_check_noninteger_object beta,
    bli_check_floating_object a,
    bli_check_floating_object b,
    bli_check_floating_object c,
    bli_check_scalar_object alpha,
    bli_check_scalar_object beta,
    bli_check_matrix_object a,
    bli_check_matrix_object b,
    bli_check_matrix_object c,
    bli_check_object_buffer alpha,
    bli_check_object_buffer a,
    bli_check_object_buffer b,
    bli_check_object_buffer beta,
    bli_check_object_buffer c,
    bli_check_sufficient_stack_buf_size a.dt cntx ]

/-- The complex-alpha test of the mixed-datatype branch of
`bli_gemm_basic_check` (lines 209-216), as one atomic check. -/
def gemm_md_alpha_check (alpha a b c : obj_t) : check_t :=
  if (c.dt ≠ a.dt ∨ c.dt ≠ b.dt ∨ c.comp_prec ≠ c.prec) ∧ alpha.imag_is_zero = false then
    Except.error fault_t.complex_alpha_abort
  else Except.ok ()

/-- The dimension check of `bli_hemm_basic_check`, in the order the side
selects (lines 273-282). -/
def side_dims_check (side : side_t) (a b c : obj_t) : err_t :=
  if bli_is_left side then bli_check_level3_dims a b c else bli_check_level3_dims b a c

/-- The structure-tag check that follows `bli_hemm_basic_check` in the check
of a one-sided operation. -/
def struc_check (op : check_op_t) (a : obj_t) : err_t :=
  match op with
  | check_op_t.hemm => bli_check_hermitian_object a
  | check_op_t.symm => bli_check_symmetric_object a
  | check_op_t.trmm => bli_check_triangular_object a
  | check_op_t.trsm => bli_check_triangular_object a
  | _ => err_t.BLIS_SUCCESS

/-- The atomic checks that follow the common check set in the check of an
operation, in the order of the source. -/
def specific_checks (op : check_op_t) (gemm_md : Bool) (side : side_t)
    (alpha a b c : obj_t) : List check_t :=
  match op with
  | check_op_t.gemm =>
    bli_check_error_code (bli_check_level3_dims a b c) ::
      (if gemm_md then [gemm_md_alpha_check alpha a b c]
       else [bli_check_error_code (bli_check_consistent_object_datatypes c a),
             bli_check_error_code (bli_check_consistent_object_datatypes c b)])
  | check_op_t.gemmt =>
    [bli_check_error_code (bli_check_level3_dims a b c),
     bli_check_error_code (bli_check_square_object c)]
  | _ =>
    [bli_check_error_code (side_dims_check side a b c),
     bli_check_error_code (bli_check_square_object a),
     bli_check_error_code (bli_check_consistent_object_datatypes c a),
     bli_check_error_code (bli_check_consistent_object_datatypes c b),
     bli_check_error_code (struc_check op a)]

/-- The sequence of atomic checks of an operation, in the order of the
source: the common check set, then the checks specific to the operation. -/
def check_sequence (op : check_op_t) (gemm_md : Bool) (side : side_t)
    (alpha a b beta c : obj_t) (cntx : cntx_t) : List check_t :=
  (common_checks alpha a b beta c cntx).map bli_check_error_code
    ++ specific_checks op gemm_md side alpha a b c

/-- Outcome of running a sequence of checks in order: the first fault ends
the run. -/
def first_failure : List check_t → check_t
  | [] => Except.ok ()
  | Except.ok _ :: rest => first_failure rest
  | Except.error f :: _ => Except.error f

/-! ## Sample operands -/

/-- A 1 x 1 double-precision complex scalar with non-zero imaginary part. -/
def sample_alpha : obj_t :=
  { dt := num_t.BLIS_DCOMPLEX, prec := prec_t.BLIS_DOUBLE_PREC,
    comp_prec := prec_t.BLIS_DOUBLE_PREC, struc := struc_t.BLIS_GENERAL,
    length := 1, width := 1, has_trans := false, buffer_is_null := false,
    imag_is_zero := false }

/-- A 1 x 1 double-precision real scalar. -/
def sample_beta : obj_t :=
  { dt := num_t.BLIS_DOUBLE, prec := prec_t.BLIS_DOUBLE_PREC,
    comp_prec := prec_t.BLIS_DOUBLE_PREC, struc := struc_t.BLIS_GENERAL,
    length := 1, width := 1, has_trans := false, buffer_is_null := false,
    imag_is_zero := true }

/-- A general double-precision real `m x n` matrix with a buffer. -/
def sample_matrix (m n : dim_t) : obj_t :=
  { dt := num_t.BLIS_DOUBLE, prec := prec_t.BLIS_DOUBLE_PREC,
    comp_prec := prec_t.BLIS_DOUBLE_PREC, struc := struc_t.BLIS_GENERAL,
    length := m, width := n, has_trans := false, buffer_is_null := false,
    imag_is_zero := true }

/-- A general double-precision complex `m x n` matrix with a buffer. -/
def sample_zmatrix (m n : dim_t) : obj_t :=
  { dt := num_t.BLIS_DCOMPLEX, prec := prec_t.BLIS_DOUBLE_PREC,
    comp_prec := prec_t.BLIS_DOUBLE_PREC, struc := struc_t.BLIS_GENERAL,
    length := m, width := n, has_trans := false, buffer_is_null := false,
    imag_is_zero := false }

/-- A context whose stack buffer suffices for every datatype. -/
def sample_cntx : cntx_t := { stack_buf_suffices := fun _ => true }

/-- An environment that requests `BLIS_JC_NT=2`, `BLIS_IC_NT=3`, `BLIS_JR_NT=2`
and `BLIS_IR_NT=1`. -/
def sample_env (name : String) : dim_t :=
  if name = "BLIS_JC_NT" then 2
  else if name = "BLIS_IC_NT" then 3
  else if name = "BLIS_JR_NT" then 2
  else 1

/-- The structure tag that the check of a one-sided operation expects of A
(lines 107, 130, 153, 176). -/
def expected_struc (op : check_op_t) : struc_t :=
  match op with
  | check_op_t.hemm => struc_t.BLIS_HERMITIAN
  | check_op_t.symm => struc_t.BLIS_SYMMETRIC
  | check_op_t.trmm => struc_t.BLIS_TRIANGULAR
  | check_op_t.trsm => struc_t.BLIS_TRIANGULAR
  | _ => struc_t.BLIS_GENERAL

/-! ## Thread-info paths: reading a chain -/

/-- The fields of one `thrinfo_t` struct, without its child link. -/
structure node_t where
  addr : addr_t
  ocomm : thrcomm_t
  ocomm_id : dim_t
  icomm : thrcomm_t
  icomm_id : dim_t
  n_way : dim_t
  work_id : dim_t
  free_comms : Bool
deriving DecidableEq, Repr

/-- The structs met when following the child links from a `thrinfo_t*` down to
the `NULL` child, in this order. -/
def chain_nodes : thrinfo_t → List node_t
  | thrinfo_t.NULL => []
  | thrinfo_t.node addr ocomm ocomm_id icomm icomm_id n_way work_id free_comms sub_node =>
    { addr := addr, ocomm := ocomm, ocomm_id := ocomm_id, icomm := icomm, icomm_id := icomm_id,
      n_way := n_way, work_id := work_id, free_comms := free_comms } :: chain_nodes sub_node

/-- The chain that the innermost loop body builds (lines 259-305), written as
one term: from the six communicators, the five loop indices and the address
`heap n` of its first struct. -/
def chain_of (w : nways_t) (global_comm jc_comm kc_comm ic_comm jr_comm ir_comm : thrcomm_t)
    (a b c d e : dim_t) (n : Nat) : thrinfo_t :=
  let ir_info := thrinfo_t.node (addr_t.heap n) jr_comm (jr_comm_id w e) ir_comm 0
    w.ir e true thrinfo_t.NULL
  let jr_info := thrinfo_t.node (addr_t.heap (n + 1)) ic_comm (ic_comm_id w d e)
    jr_comm (jr_comm_id w e) w.jr d true ir_info
  let pack_ic_in := thrinfo_t.node (addr_t.heap (n + 2)) ic_comm (ic_comm_id w d e)
    jr_comm (jr_comm_id w e) (ic_nt w) (ic_comm_id w d e) false jr_info
  let ic_info := thrinfo_t.node (addr_t.heap (n + 3)) kc_comm (kc_comm_id w c d e)
    ic_comm (ic_comm_id w d e) w.ic c true pack_ic_in
  let pack_kc_in := thrinfo_t.node (addr_t.heap (n + 4)) kc_comm (kc_comm_id w c d e)
    ic_comm (ic_comm_id w d e) (kc_nt w) (kc_comm_id w c d e) false ic_info
  let kc_info := thrinfo_t.node (addr_t.heap (n + 5)) jc_comm (jc_comm_id w b c d e)
    kc_comm (kc_comm_id w c d e) w.kc b true pack_kc_in
  thrinfo_t.node (addr_t.heap (n + 6)) global_comm (global_comm_id w a b c d e)
    jc_comm (jc_comm_id w b c d e) w.jc a true kc_info

/-- The chain `chain_of` with exact arithmetic. -/
def ideal_chain_of (w : nways_t) (global_comm jc_comm kc_comm ic_comm jr_comm ir_comm : thrcomm_t)
    (a b c d e : dim_t) (n : Nat) : thrinfo_t :=
  let ir_comm_id : dim_t := 0
  let jr_comm_id := e * ir_nt w + ir_comm_id
  let ic_comm_id := d * jr_nt w + jr_comm_id
  let kc_comm_id := c * ideal_ic_nt w + ic_comm_id
  let jc_comm_id := b * ideal_kc_nt w + kc_comm_id
  let global_comm_id := a * ideal_jc_nt w + jc_comm_id
  let ir_info := thrinfo_t.node (addr_t.heap n) jr_comm jr_comm_id ir_comm ir_comm_id
    w.ir e true thrinfo_t.NULL
  let jr_info := thrinfo_t.node (addr_t.heap (n + 1)) ic_comm ic_comm_id jr_comm jr_comm_id
    w.jr d true ir_info
  let pack_ic_in := thrinfo_t.node (addr_t.heap (n + 2)) ic_comm ic_comm_id jr_comm jr_comm_id
    (ideal_ic_nt w) ic_comm_id false jr_info
  let ic_info := thrinfo_t.node (addr_t.heap (n + 3)) kc_comm kc_comm_id ic_comm ic_comm_id
    w.ic c true pack_ic_in
  let pack_kc_in := thrinfo_t.node (addr_t.heap (n + 4)) kc_comm kc_comm_id ic_comm ic_comm_id
    (ideal_kc_nt w) kc_comm_id false ic_info
  let kc_info := thrinfo_t.node (addr_t.heap (n + 5)) jc_comm jc_comm_id kc_comm kc_comm_id
    w.kc b true pack_kc_in
  thrinfo_t.node (addr_t.heap (n + 6)) global_comm global_comm_id jc_comm jc_comm_id
    w.jc a true kc_info

/-! ## Thread-info paths: teardown -/

/-- The memory the teardown works on: what it has released so far, and the
`thrinfo_t` structs that are allocated, with their fields. -/
structure free_t where
  /-- communicators passed to `bli_thrcomm_free`, in order -/
  freed_comms : List thrcomm_t
  /-- addresses of the `thrinfo_t` structs passed to `bli_free_intl`, in order -/
  freed_nodes : List addr_t
  /-- number of `paths` arrays passed to `bli_free_intl` -/
  freed_arrays : Nat
  /-- the allocated `thrinfo_t` structs: address and fields -/
  structs : List (addr_t × node_t)
deriving DecidableEq, Repr

/-- Modelled from the spec: `bli_thrcomm_free` is not part of the sources at
hand; it releases the communication group behind the handle. -/
def bli_thrcomm_free (comm : thrcomm_t) (s : free_t) : free_t :=
  { s with freed_comms := s.freed_comms ++ [comm] }

/-- Modelled from the spec: `bli_free_intl` applied to a `thrinfo_t` struct is
not part of the sources at hand; it releases the struct at that address, which
is no longer allocated afterwards. -/
def bli_free_intl (addr : addr_t) (s : free_t) : free_t :=
  { s with freed_nodes := s.freed_nodes ++ [addr]
           structs := s.structs.filter (fun p => p.1 ≠ addr) }

/-- The fields of the struct allocated at an address, if there is one. -/
def fields_at (s : free_t) (addr : addr_t) : Option node_t :=
  (s.structs.find? (fun p => p.1 = addr)).map Prod.snd

/-- Modelled from the spec: the chief of a communication group is its one
designated member, the participant with id 0 (`bli_thread_am_ochief` tests the
outer id, `bli_thread_am_ichief` the inner id; neither is part of the sources at
hand). -/
def am_chief (comm_id : dim_t) : Bool := comm_id = 0

/-- The function `bli_l3_thrinfo_free` (lines 92-123). -/
def bli_l3_thrinfo_free : thrinfo_t → free_t → free_t
  | thrinfo_t.NULL, s => s
  | thrinfo_t.node addr ocomm ocomm_id icomm icomm_id _ _ free_comms thrinfo_sub_node, s =>
    if addr = addr_t.BLIS_PACKM_SINGLE_THREADED ∨ addr = addr_t.BLIS_GEMM_SINGLE_THREADED then s
    else
      -- Free the communicators, but only if the current struct is marked as
      -- needing them to be freed.
      let s1 :=
        if free_comms then
          let s0 := if am_chief ocomm_id then bli_thrcomm_free ocomm s else s
          if thrinfo_sub_node = thrinfo_t.NULL ∧ am_chief icomm_id then bli_thrcomm_free icomm s0
          else s0
        else s
      -- Free all children of the current thrinfo_t.
      let s2 := bli_l3_thrinfo_free thrinfo_sub_node s1
      -- Free the thrinfo_t struct.
      bli_free_intl addr s2

/-- One iteration `bli_l3_thrinfo_free( threads[i] )` of the loop of
`bli_l3_thrinfo_free_paths` (line 340).  Reading `threads[i]` outside the array
or from a slot that was never assigned is undefined in C; the result is then
`none`. -/
def free_paths_step (threads : List (Option thrinfo_t)) (i : dim_t) (acc : Option free_t) :
    Option free_t :=
  match acc, threads[i.toNat]? with
  | some st, some (some thread) => some (bli_l3_thrinfo_free thread st)
  | _, _ => none

/-- The function `bli_l3_thrinfo_free_paths( threads, num )` (lines 331-343);
`none` stands for undefined behaviour. -/
def bli_l3_thrinfo_free_paths (threads : List (Option thrinfo_t)) (num : dim_t) (s : free_t) :
    Option free_t :=
  let after_loop : Option free_t := for_range num (free_paths_step threads) (some s)
  after_loop.map (fun st => { st with freed_arrays := st.freed_arrays + 1 })

/-- The state in which nothing has been released, without the contents of the
memory. -/
def free_init : free_t :=
  { freed_comms := [], freed_nodes := [], freed_arrays := 0, structs := [] }

/-- The chains of a returned `paths` array: the contents of its assigned
slots. -/
def chains_of (paths : List (Option thrinfo_t)) : List thrinfo_t :=
  paths.filterMap id

/-- Every reference of a chain to a communicator, with the id the referring
struct holds for it: outer and inner communicator of every struct, root first. -/
def chain_refs (t : thrinfo_t) : List (thrcomm_t × dim_t) :=
  (chain_nodes t).flatMap (fun nd => [(nd.ocomm, nd.ocomm_id), (nd.icomm, nd.icomm_id)])

/-- The id a chain holds for a communicator: that of its first reference to
it; `none` if the chain does not reference the communicator. -/
def holds_id (t : thrinfo_t) (comm : thrcomm_t) : Option dim_t :=
  ((chain_refs t).find? (fun p => p.1 = comm)).map Prod.snd

/-- The communicators of a chain by level, with the ids held for them: level 0
is the outer communicator of the root, level `k + 1` the inner communicator of
the `k`-th struct that frees its communicators (jc, kc, ic, jr, ir). -/
def level_refs (t : thrinfo_t) : List (Nat × thrcomm_t × dim_t) :=
  match chain_nodes t with
  | [] => []
  | root :: rest =>
    (0, root.ocomm, root.ocomm_id) ::
      (((root :: rest).filter (fun nd => nd.free_comms)).enum.map
        (fun p => (p.1 + 1, p.2.icomm, p.2.icomm_id)))

/-- The level and id under which the chains of a list of stores hold a
communicator, in the order of the stores. -/
def refs_for (comm : thrcomm_t) (sts : List (dim_t × thrinfo_t)) : List (Nat × dim_t) :=
  sts.flatMap (fun st =>
    (level_refs st.2).filterMap (fun e => if e.2.1 = comm then some (e.1, e.2.2) else none))

/-- The communicators released when the chains of a list of stores are torn
down one after the other, in order. -/
def frees_of (sts : List (dim_t × thrinfo_t)) : List thrcomm_t :=
  sts.flatMap (fun st => (bli_l3_thrinfo_free st.2 free_init).freed_comms)

/-- The structs released when the chains of a list of stores are torn down one
after the other, in order. -/
def node_frees_of (sts : List (dim_t × thrinfo_t)) : List addr_t :=
  sts.flatMap (fun st => (bli_l3_thrinfo_free st.2 free_init).freed_nodes)

/-- The participant count of the communicators of a level (lines 207-214):
global, jc, kc, ic, jr, ir. -/
def level_nt (w : nways_t) : Nat → dim_t
  | 0 => global_num_threads w
  | 1 => jc_nt w
  | 2 => kc_nt w
  | 3 => ic_nt w
  | 4 => jr_nt w
  | _ => ir_nt w

/-- The exact participant counts behind `level_nt`. -/
def ideal_level_nt (w : nways_t) : Nat → dim_t
  | 0 => ideal_global_num_threads w
  | 1 => ideal_jc_nt w
  | 2 => ideal_kc_nt w
  | 3 => ideal_ic_nt w
  | 4 => jr_nt w
  | _ => ir_nt w

/-- A store of the innermost loop body in exact arithmetic: the chain for loop
indices within the loop ranges, stored at its `ideal_global_comm_id`, over six distinct
communicators with the participant counts of their levels. -/
def ideal_store_ok (w : nways_t) (st : dim_t × thrinfo_t) : Prop :=
  ∃ (gc jc kc ic jr ir : thrcomm_t) (a b c d e : dim_t) (n : Nat),
    st = (ideal_global_comm_id w a b c d e, ideal_chain_of w gc jc kc ic jr ir a b c d e n) ∧
    in_ranges w a b c d e ∧
    [gc, jc, kc, ic, jr, ir].Nodup ∧
    gc.n_threads = ideal_global_num_threads w ∧ jc.n_threads = ideal_jc_nt w ∧ kc.n_threads = ideal_kc_nt w ∧
    ic.n_threads = ideal_ic_nt w ∧ jr.n_threads = jr_nt w ∧ ir.n_threads = ir_nt w

/-- Bookkeeping of the allocation state: the `uid` of a communicator is its
position in `comms`, and the chains stored so far reference communicators
created so far. -/
def book_ok (s : build_t) : Prop :=
  (∀ (k : Nat) (cm : thrcomm_t), s.comms[k]? = some cm → cm.uid = k) ∧
  (∀ st ∈ s.stores, ∀ e ∈ level_refs st.2, e.2.1.uid < s.comms.length)

/-- What one body of the loop nest does to the allocation state, for the
communicators `tracked` it is given (level, handle, id of the first chain of
the body): it appends communicators `cs` and `n` stores `sts`; the stores are as
`Q` says; tearing them down releases the tracked communicators whose first id is
0 and then `cs`; the chains hold the ids `id .. id + n - 1` for a tracked
communicator, reference no other old communicator, and hold `0 .. count - 1` for
each new one. -/
def level_spec (cnt : Nat → dim_t) (Q : dim_t × thrinfo_t → Prop) (n : Nat)
    (tracked : List (Nat × thrcomm_t × dim_t)) (body : build_t → build_t) : Prop :=
  ∀ s : build_t, book_ok s → (∀ e ∈ tracked, e.2.1.uid < s.comms.length) →
    (tracked.map (fun e => e.2.1)).Nodup →
    book_ok (body s) ∧
    ∃ (cs : List thrcomm_t) (sts : List (dim_t × thrinfo_t)),
      (body s).comms = s.comms ++ cs ∧ (body s).stores = s.stores ++ sts ∧
      sts.length = n ∧ (∀ st ∈ sts, Q st) ∧
      (1 ≤ n → (∀ e ∈ tracked, 0 ≤ e.2.2) →
        frees_of sts
          = (tracked.filter (fun e => e.2.2 = 0)).map (fun e => e.2.1) ++ cs) ∧
      (∀ e ∈ tracked,
        refs_for e.2.1 sts = (List.range n).map (fun x : Nat => (e.1, e.2.2 + (x : Int)))) ∧
      (∀ cm : thrcomm_t, cm.uid < s.comms.length → (∀ e ∈ tracked, e.2.1 ≠ cm) →
        refs_for cm sts = []) ∧
      (∀ cm ∈ cs, ∃ lv : Nat, cm.n_threads = cnt lv ∧
        refs_for cm sts
          = (List.range cm.n_threads.toNat).map (fun x : Nat => (lv, (x : Int))))

/-- The chains stored so far and the communicators `tr` reference only
communicators that were created so far. -/
def refs_in (tr : List thrcomm_t) (s : build_t) : Prop :=
  (∀ st ∈ s.stores, ∀ e ∈ level_refs st.2, e.2.1 ∈ s.comms) ∧ (∀ cm ∈ tr, cm ∈ s.comms)

/-- The work ids of the packing structs of a chain whose outer communicator is
`comm`: the structs that do not free their communicators, root first. -/
def packm_work_ids (t : thrinfo_t) (comm : thrcomm_t) : List dim_t :=
  ((chain_nodes t).filter (fun nd => !nd.free_comms && decide (nd.ocomm = comm))).map
    (fun nd => nd.work_id)

/-- The value returned for the sample environment, gemm, 12 threads. -/
def sample_paths : paths_t :=
  match bli_l3_thrinfo_create_paths true sample_env opid_t.BLIS_GEMM side_t.BLIS_LEFT with
  | Except.ok r => r
  | Except.error _ =>
    { paths := [], global_comm := { uid := 0, n_threads := 0 },
      final := { comms := [], n_nodes := 0, stores := [] } }

/-- The last chain of the sample array: the chain of thread 11. -/
def sample_chain : thrinfo_t := (chains_of sample_paths.paths).getLastD thrinfo_t.NULL

/-- An environment that asks for `2^32` ways in the jc and in the ic loop. -/
def overflow_env (name : String) : dim_t :=
  if name = "BLIS_JC_NT" then 4294967296
  else if name = "BLIS_IC_NT" then 4294967296
  else 1

/-- An environment that asks for `-1` ways in the jc and in the ic loop. -/
def negative_env (name : String) : dim_t :=
  if name = "BLIS_JC_NT" then -1
  else if name = "BLIS_IC_NT" then -1
  else 1

/-- An environment whose factors are below `INT_MAX` and whose product
`2 * (2^21 + 1) * 2^21 * 2^21 = 2^64 + 2^43` is above `2^64`. -/
def wrap_env (name : String) : dim_t :=
  if name = "BLIS_JC_NT" then 2
  else if name = "BLIS_IC_NT" then 2097153
  else if name = "BLIS_JR_NT" then 2097152
  else if name = "BLIS_IR_NT" then 2097152
  else 1
/-! ## Loops and the store trace -/

theorem for_range_succ {σ : Type} (n : Nat) (body : dim_t → σ → σ) (s : σ) :
    for_range ((n + 1 : Nat) : Int) body s = body (n : Int) (for_range (n : Int) body s) := by
  simp [for_range, List.range_succ, List.foldl_append]

theorem for_range_zero {σ : Type} (body : dim_t → σ → σ) (s : σ) :
    for_range ((0 : Nat) : Int) body s = s := by
  simp [for_range]

theorem for_range_inv {σ : Type} (I : σ → Prop) (n : dim_t) (body : dim_t → σ → σ)
    (hbody : ∀ i s, I s → I (body i s)) (s : σ) (hs : I s) : I (for_range n body s) := by
  unfold for_range
  generalize List.range n.toNat = l
  induction l generalizing s with
  | nil => simpa using hs
  | cons x xs ih => exact ih _ (hbody _ _ hs)

theorem range_block (base : Int) (m n : Nat) :
    (List.range (m * n)).map (fun x : Nat => base + (x : Int))
        ++ (List.range n).map (fun x : Nat => base + (m : Int) * (n : Int) + (x : Int))
      = (List.range ((m + 1) * n)).map (fun x : Nat => base + (x : Int)) := by
  have h : (m + 1) * n = m * n + n := by ring
  rw [h, List.range_add, List.map_append, List.map_map]
  congr 1
  apply List.map_congr_left
  intro x _
  simp only [Function.comp]
  push_cast
  ring

theorem for_range_indices (m n : Nat) (base : Int) (body : dim_t → build_t → build_t)
    (hbody : ∀ (i : Nat) (s : build_t), store_indices (body (i : Int) s)
      = store_indices s
          ++ (List.range n).map (fun x : Nat => base + (i : Int) * (n : Int) + (x : Int)))
    (s : build_t) :
    store_indices (for_range (m : Int) body s)
      = store_indices s ++ (List.range (m * n)).map (fun x : Nat => base + (x : Int)) := by
  induction m with
  | zero => simp [for_range]
  | succ k ih =>
    rw [for_range_succ, hbody, ih, List.append_assoc, range_block]


@[simp] theorem store_indices_thrcomm_create (n : dim_t) (s : build_t) :
    store_indices (bli_thrcomm_create n s).2 = store_indices s := rfl

theorem store_indices_path_body (w : nways_t) (gc jc kc ic jr : thrcomm_t)
    (a b c d e : dim_t) (s : build_t) :
    store_indices (ideal_path_body w gc jc kc ic jr a b c d e s)
      = store_indices s ++ [ideal_global_comm_id w a b c d e] := by
  simp [store_indices, ideal_path_body, ideal_global_comm_id, bli_l3_thrinfo_create,
    bli_packm_thrinfo_create, bli_thrinfo_create, bli_thrcomm_create]

theorem store_indices_jr_body (w : nways_t) (q : Nat) (hq : w.ir = (q : Int))
    (gc jc kc ic : thrcomm_t) (a b c d : dim_t) (s : build_t) :
    store_indices (ideal_jr_body w gc jc kc ic a b c d s)
      = store_indices s ++ (List.range q).map
          (fun x : Nat => a * ideal_jc_nt w + b * ideal_kc_nt w + c * ideal_ic_nt w + d * (q : Int) + (x : Int)) := by
  unfold ideal_jr_body
  simp only [hq]
  have h := for_range_indices q 1 (a * ideal_jc_nt w + b * ideal_kc_nt w + c * ideal_ic_nt w + d * (q : Int))
    (fun e => ideal_path_body w gc jc kc ic (bli_thrcomm_create (jr_nt w) s).1 a b c d e)
    (by
      intro i s1
      rw [store_indices_path_body]
      have h1 : List.range 1 = [0] := rfl
      simp [ideal_global_comm_id, ir_nt, jr_nt, hq, h1]
      ring)
    (bli_thrcomm_create (jr_nt w) s).2
  simpa using h


theorem store_indices_ic_body (w : nways_t) (r q : Nat) (hr : w.jr = (r : Int))
    (hq : w.ir = (q : Int)) (gc jc kc : thrcomm_t) (a b c : dim_t) (s : build_t) :
    store_indices (ideal_ic_body w gc jc kc a b c s)
      = store_indices s ++ (List.range (r * q)).map
          (fun x : Nat => a * ideal_jc_nt w + b * ideal_kc_nt w + c * ((r * q : Nat) : Int) + (x : Int)) := by
  unfold ideal_ic_body
  simp only [hr]
  have h := for_range_indices r q (a * ideal_jc_nt w + b * ideal_kc_nt w + c * ((r * q : Nat) : Int))
    (fun d => ideal_jr_body w gc jc kc (bli_thrcomm_create (ideal_ic_nt w) s).1 a b c d)
    (by
      intro i s1
      rw [store_indices_jr_body w q hq]
      have hic : ideal_ic_nt w = ((r * q : Nat) : Int) := by simp [ideal_ic_nt, hr, hq]
      rw [hic])
    (bli_thrcomm_create (ideal_ic_nt w) s).2
  simpa using h

theorem store_indices_kc_body (w : nways_t) (i r q : Nat) (hi : w.ic = (i : Int))
    (hr : w.jr = (r : Int)) (hq : w.ir = (q : Int)) (gc jc : thrcomm_t) (a b : dim_t)
    (s : build_t) :
    store_indices (ideal_kc_body w gc jc a b s)
      = store_indices s ++ (List.range (i * (r * q))).map
          (fun x : Nat => a * ideal_jc_nt w + b * ((i * (r * q) : Nat) : Int) + (x : Int)) := by
  unfold ideal_kc_body
  simp only [hi]
  have h := for_range_indices i (r * q) (a * ideal_jc_nt w + b * ((i * (r * q) : Nat) : Int))
    (fun c => ideal_ic_body w gc jc (bli_thrcomm_create (ideal_kc_nt w) s).1 a b c)
    (by
      intro n s1
      rw [store_indices_ic_body w r q hr hq]
      have hkc : ideal_kc_nt w = ((i * (r * q) : Nat) : Int) := by
        simp [ideal_kc_nt, hi, hr, hq]; ring
      rw [hkc])
    (bli_thrcomm_create (ideal_kc_nt w) s).2
  simpa using h

theorem store_indices_jc_body (w : nways_t) (k i r q : Nat) (hk : w.kc = (k : Int))
    (hi : w.ic = (i : Int)) (hr : w.jr = (r : Int)) (hq : w.ir = (q : Int))
    (gc : thrcomm_t) (a : dim_t) (s : build_t) :
    store_indices (ideal_jc_body w gc a s)
      = store_indices s ++ (List.range (k * (i * (r * q)))).map
          (fun x : Nat => 0 + a * ((k * (i * (r * q)) : Nat) : Int) + (x : Int)) := by
  unfold ideal_jc_body
  simp only [hk]
  have h := for_range_indices k (i * (r * q)) (a * ((k * (i * (r * q)) : Nat) : Int))
    (fun b => ideal_kc_body w gc (bli_thrcomm_create (ideal_jc_nt w) s).1 a b)
    (by
      intro n s1
      rw [store_indices_kc_body w i r q hi hr hq]
      have hjc : ideal_jc_nt w = ((k * (i * (r * q)) : Nat) : Int) := by
        simp [ideal_jc_nt, hk, hi, hr, hq]; ring
      rw [hjc])
    (bli_thrcomm_create (ideal_jc_nt w) s).2
  simpa using h

theorem store_indices_loops (w : nways_t) (j k i r q : Nat) (hj : w.jc = (j : Int))
    (hk : w.kc = (k : Int)) (hi : w.ic = (i : Int)) (hr : w.jr = (r : Int))
    (hq : w.ir = (q : Int)) (gc : thrcomm_t) (s : build_t) :
    store_indices (for_range w.jc (fun a => ideal_jc_body w gc a) s)
      = store_indices s ++ (List.range (j * (k * (i * (r * q))))).map Int.ofNat := by
  simp only [hj]
  have h := for_range_indices j (k * (i * (r * q))) 0 (fun a => ideal_jc_body w gc a)
    (by
      intro n s1
      rw [store_indices_jc_body w k i r q hk hi hr hq])
    s
  simpa using h


theorem roots_ok_path_body (w : nways_t) (gc jc kc ic jr : thrcomm_t)
    (a b c d e : dim_t) (s : build_t) (hs : roots_ok gc s) :
    roots_ok gc (ideal_path_body w gc jc kc ic jr a b c d e s) := by
  intro p hp
  simp only [ideal_path_body, bli_l3_thrinfo_create, bli_packm_thrinfo_create, bli_thrinfo_create,
    bli_thrcomm_create, List.mem_append, List.mem_singleton] at hp
  rcases hp with hp | hp
  · exact hs p hp
  · subst hp
    simp [thrinfo_t.ocomm?, thrinfo_t.ocomm_id?]

theorem roots_ok_thrcomm_create (gc : thrcomm_t) (n : dim_t) (s : build_t)
    (hs : roots_ok gc s) : roots_ok gc (bli_thrcomm_create n s).2 := hs

theorem roots_ok_jr_body (w : nways_t) (gc jc kc ic : thrcomm_t) (a b c d : dim_t)
    (s : build_t) (hs : roots_ok gc s) : roots_ok gc (ideal_jr_body w gc jc kc ic a b c d s) := by
  unfold ideal_jr_body
  apply for_range_inv (roots_ok gc) _ _ _ _ (roots_ok_thrcomm_create gc _ s hs)
  intro e s1 h1
  exact roots_ok_path_body w gc _ _ _ _ _ _ _ _ _ s1 h1

theorem roots_ok_ic_body (w : nways_t) (gc jc kc : thrcomm_t) (a b c : dim_t)
    (s : build_t) (hs : roots_ok gc s) : roots_ok gc (ideal_ic_body w gc jc kc a b c s) := by
  unfold ideal_ic_body
  apply for_range_inv (roots_ok gc) _ _ _ _ (roots_ok_thrcomm_create gc _ s hs)
  intro d s1 h1
  exact roots_ok_jr_body w gc _ _ _ _ _ _ _ s1 h1

theorem roots_ok_kc_body (w : nways_t) (gc jc : thrcomm_t) (a b : dim_t)
    (s : build_t) (hs : roots_ok gc s) : roots_ok gc (ideal_kc_body w gc jc a b s) := by
  unfold ideal_kc_body
  apply for_range_inv (roots_ok gc) _ _ _ _ (roots_ok_thrcomm_create gc _ s hs)
  intro c s1 h1
  exact roots_ok_ic_body w gc _ _ _ _ _ s1 h1

theorem roots_ok_jc_body (w : nways_t) (gc : thrcomm_t) (a : dim_t)
    (s : build_t) (hs : roots_ok gc s) : roots_ok gc (ideal_jc_body w gc a s) := by
  unfold ideal_jc_body
  apply for_range_inv (roots_ok gc) _ _ _ _ (roots_ok_thrcomm_create gc _ s hs)
  intro b s1 h1
  exact roots_ok_kc_body w gc _ _ _ s1 h1

theorem roots_ok_loops (w : nways_t) (gc : thrcomm_t) (s : build_t) (hs : roots_ok gc s) :
    roots_ok gc (for_range w.jc (fun a => ideal_jc_body w gc a) s) := by
  apply for_range_inv (roots_ok gc) _ _ _ _ hs
  intro a s1 h1
  exact roots_ok_jc_body w gc a s1 h1

theorem paths_of_fold (n : Nat) (l : List (dim_t × thrinfo_t)) :
    ∀ k : Nat, k ≤ n → l.map Prod.fst = (List.range k).map Int.ofNat →
      l.foldl
          (fun arr st =>
            if 0 ≤ st.1 ∧ st.1 < (n : Int) then arr.set st.1.toNat (some st.2) else arr)
          (List.replicate n none)
        = l.map (fun st => some st.2) ++ List.replicate (n - k) none := by
  induction l using List.reverseRecOn with
  | nil =>
    intro k _ h
    have hk : k = 0 := by
      have := congrArg List.length h
      simpa using this.symm
    subst hk
    simp
  | append_singleton l x ih =>
    intro k hk h
    have hlen : l.length + 1 = k := by
      have := congrArg List.length h
      simpa using this
    subst hlen
    rw [List.range_succ, List.map_append, List.map_append] at h
    have h1 : l.map Prod.fst = (List.range l.length).map Int.ofNat := by
      have := List.append_inj_left h (by simp)
      exact this
    have h2 : x.1 = (l.length : Int) := by
      have := List.append_inj_right h (by simp)
      simpa using this
    rw [List.foldl_append, ih l.length (by omega) h1]
    have hlt : (l.length : Int) < (n : Int) := by exact_mod_cast (by omega : l.length < n)
    simp only [List.foldl_cons, List.foldl_nil, h2, Int.toNat_ofNat, hlt, and_true,
      Int.ofNat_nonneg, if_true]
    have hsplit : n - l.length = (n - (l.length + 1)) + 1 := by omega
    rw [hsplit, List.replicate_succ, List.set_append_right _ _ (by simp)]
    simp

theorem paths_of_eq (n : Nat) (stores : List (dim_t × thrinfo_t))
    (h : stores.map Prod.fst = (List.range n).map Int.ofNat) :
    paths_of (n : Int) stores = stores.map (fun st => some st.2) := by
  unfold paths_of
  rw [Int.toNat_ofNat, paths_of_fold n stores n (le_refl n) h]
  simp


theorem digit_bound (m n a r : Int) (ha : 0 ≤ a ∧ a < m) (hr : 0 ≤ r ∧ r < n) :
    0 ≤ a * n + r ∧ a * n + r < m * n := by
  obtain ⟨ha0, ha1⟩ := ha
  obtain ⟨hr0, hr1⟩ := hr
  have hn : 0 < n := by omega
  constructor
  · have := mul_nonneg ha0 hn.le
    omega
  · have h1 : (a + 1) * n ≤ m * n := mul_le_mul_of_nonneg_right (by omega) hn.le
    have h2 : (a + 1) * n = a * n + n := by ring
    omega

theorem digit_inj (n a r a2 r2 : Int) (hr : 0 ≤ r ∧ r < n) (hr2 : 0 ≤ r2 ∧ r2 < n)
    (h : a * n + r = a2 * n + r2) : a = a2 ∧ r = r2 := by
  have hn : 0 < n := by omega
  have ha : a = a2 := by
    rcases lt_trichotomy a a2 with hlt | heq | hgt
    · exfalso
      have h1 : (a + 1) * n ≤ a2 * n := mul_le_mul_of_nonneg_right (by omega) hn.le
      have h2 : (a + 1) * n = a * n + n := by ring
      omega
    · exact heq
    · exfalso
      have h1 : (a2 + 1) * n ≤ a * n := mul_le_mul_of_nonneg_right (by omega) hn.le
      have h2 : (a2 + 1) * n = a2 * n + n := by ring
      omega
  subst ha
  exact ⟨rfl, by omega⟩

theorem digit_split (m n g : Int) (hn : 0 < n) (hg : 0 ≤ g ∧ g < m * n) :
    ∃ a r : Int, (0 ≤ a ∧ a < m) ∧ (0 ≤ r ∧ r < n) ∧ g = a * n + r := by
  refine ⟨g / n, g % n, ⟨Int.ediv_nonneg hg.1 hn.le, ?_⟩,
    ⟨Int.emod_nonneg g (ne_of_gt hn), Int.emod_lt_of_pos g hn⟩, ?_⟩
  · exact Int.ediv_lt_of_lt_mul hn hg.2
  · have := Int.ediv_add_emod g n
    rw [mul_comm] at this
    exact this.symm

theorem global_comm_id_bound (w : nways_t) (a b c d e : dim_t)
    (h : in_ranges w a b c d e) :
    0 ≤ ideal_global_comm_id w a b c d e ∧ ideal_global_comm_id w a b c d e < ideal_global_num_threads w := by
  obtain ⟨ha, hb, hc, hd, he⟩ := h
  have h5 := digit_bound w.ir 1 e 0 he (by omega)
  have h4 := digit_bound w.jr (w.ir * 1) d (e * 1 + 0) hd h5
  have h3 := digit_bound w.ic (w.jr * (w.ir * 1)) c (d * (w.ir * 1) + (e * 1 + 0)) hc h4
  have h2 := digit_bound w.kc (w.ic * (w.jr * (w.ir * 1))) b _ hb h3
  have h1 := digit_bound w.jc (w.kc * (w.ic * (w.jr * (w.ir * 1)))) a _ ha h2
  have e1 : ideal_global_comm_id w a b c d e
      = a * (w.kc * (w.ic * (w.jr * (w.ir * 1))))
        + (b * (w.ic * (w.jr * (w.ir * 1)))
          + (c * (w.jr * (w.ir * 1)) + (d * (w.ir * 1) + (e * 1 + 0)))) := by
    simp only [ideal_global_comm_id, ideal_jc_nt, ideal_kc_nt, ideal_ic_nt, jr_nt, ir_nt]; ring
  have e2 : ideal_global_num_threads w = w.jc * (w.kc * (w.ic * (w.jr * (w.ir * 1)))) := by
    simp only [ideal_global_num_threads]; ring
  rw [e1, e2]
  exact h1


theorem global_comm_id_nested (w : nways_t) (a b c d e : dim_t) :
    ideal_global_comm_id w a b c d e
      = a * (w.kc * (w.ic * (w.jr * w.ir)))
        + (b * (w.ic * (w.jr * w.ir)) + (c * (w.jr * w.ir) + (d * w.ir + e))) := by
  simp only [ideal_global_comm_id, ideal_jc_nt, ideal_kc_nt, ideal_ic_nt, jr_nt, ir_nt]; ring

theorem global_comm_id_inj (w : nways_t) (a b c d e a2 b2 c2 d2 e2 : dim_t)
    (h : in_ranges w a b c d e) (h2 : in_ranges w a2 b2 c2 d2 e2)
    (heq : ideal_global_comm_id w a b c d e = ideal_global_comm_id w a2 b2 c2 d2 e2) :
    a = a2 ∧ b = b2 ∧ c = c2 ∧ d = d2 ∧ e = e2 := by
  obtain ⟨_, hb, hc, hd, he⟩ := h
  obtain ⟨_, hb2, hc2, hd2, he2⟩ := h2
  rw [global_comm_id_nested, global_comm_id_nested] at heq
  have l4 := digit_bound w.jr w.ir d e hd he
  have l4' := digit_bound w.jr w.ir d2 e2 hd2 he2
  have l3 := digit_bound w.ic (w.jr * w.ir) c _ hc l4
  have l3' := digit_bound w.ic (w.jr * w.ir) c2 _ hc2 l4'
  have l2 := digit_bound w.kc (w.ic * (w.jr * w.ir)) b _ hb l3
  have l2' := digit_bound w.kc (w.ic * (w.jr * w.ir)) b2 _ hb2 l3'
  obtain ⟨ea, r1⟩ := digit_inj _ _ _ _ _ l2 l2' heq
  obtain ⟨eb, r2⟩ := digit_inj _ _ _ _ _ l3 l3' r1
  obtain ⟨ec, r3⟩ := digit_inj _ _ _ _ _ l4 l4' r2
  obtain ⟨ed, ee⟩ := digit_inj _ _ _ _ _ he he2 r3
  exact ⟨ea, eb, ec, ed, ee⟩

theorem global_comm_id_surj (w : nways_t)
    (hw : 1 ≤ w.jc ∧ 1 ≤ w.kc ∧ 1 ≤ w.ic ∧ 1 ≤ w.jr ∧ 1 ≤ w.ir)
    (g : dim_t) (hg : 0 ≤ g ∧ g < ideal_global_num_threads w) :
    ∃ a b c d e : dim_t, in_ranges w a b c d e ∧ ideal_global_comm_id w a b c d e = g := by
  obtain ⟨_, hk, hi, hr, hq⟩ := hw
  have p4 : 0 < w.ir := lt_of_lt_of_le Int.one_pos hq
  have p3 : 0 < w.jr * w.ir := mul_pos (lt_of_lt_of_le Int.one_pos hr) p4
  have p2 : 0 < w.ic * (w.jr * w.ir) := mul_pos (lt_of_lt_of_le Int.one_pos hi) p3
  have p1 : 0 < w.kc * (w.ic * (w.jr * w.ir)) := mul_pos (lt_of_lt_of_le Int.one_pos hk) p2
  have eN : ideal_global_num_threads w = w.jc * (w.kc * (w.ic * (w.jr * w.ir))) := by
    simp only [ideal_global_num_threads]; ring
  rw [eN] at hg
  obtain ⟨a, r1, ha, hr1, e1⟩ := digit_split _ _ g p1 hg
  obtain ⟨b, r2, hb, hr2, e2⟩ := digit_split _ _ r1 p2 hr1
  obtain ⟨c, r3, hc, hr3, e3⟩ := digit_split _ _ r2 p3 hr2
  obtain ⟨d, e, hd, he, e4⟩ := digit_split _ _ r3 p4 hr3
  refine ⟨a, b, c, d, e, ⟨ha, hb, hc, hd, he⟩, ?_⟩
  rw [global_comm_id_nested, ← e4, ← e3, ← e2, ← e1]


theorem global_num_threads_pos (w : nways_t)
    (hw : 1 ≤ w.jc ∧ 1 ≤ w.kc ∧ 1 ≤ w.ic ∧ 1 ≤ w.jr ∧ 1 ≤ w.ir) :
    1 ≤ ideal_global_num_threads w := by
  obtain ⟨hj, hk, hi, hr, hq⟩ := hw
  have p1 : 0 < w.jc * w.kc := mul_pos (lt_of_lt_of_le Int.one_pos hj) (lt_of_lt_of_le Int.one_pos hk)
  have p2 : 0 < w.jc * w.kc * w.ic := mul_pos p1 (lt_of_lt_of_le Int.one_pos hi)
  have p3 : 0 < w.jc * w.kc * w.ic * w.jr := mul_pos p2 (lt_of_lt_of_le Int.one_pos hr)
  have p4 : 0 < w.jc * w.kc * w.ic * w.jr * w.ir := mul_pos p3 (lt_of_lt_of_le Int.one_pos hq)
  exact p4

theorem create_paths_from_spec (w : nways_t)
    (hw : 1 ≤ w.jc ∧ 1 ≤ w.kc ∧ 1 ≤ w.ic ∧ 1 ≤ w.jr ∧ 1 ≤ w.ir) :
    ∃ r, ideal_create_paths_from w = some r ∧
      r.global_comm = { uid := 0, n_threads := ideal_global_num_threads w } ∧
      store_indices r.final = (List.range (ideal_global_num_threads w).toNat).map Int.ofNat ∧
      r.paths = r.final.stores.map (fun st => some st.2) ∧
      roots_ok r.global_comm r.final := by
  have hN := global_num_threads_pos w hw
  have hN0 : ideal_global_num_threads w ≠ 0 := by
    intro h0; rw [h0] at hN; exact absurd hN (by decide)
  obtain ⟨hj, hk, hi, hr, hq⟩ := hw
  obtain ⟨j, ej⟩ := Int.eq_ofNat_of_zero_le (le_trans Int.one_nonneg hj)
  obtain ⟨k, ek⟩ := Int.eq_ofNat_of_zero_le (le_trans Int.one_nonneg hk)
  obtain ⟨i, ei⟩ := Int.eq_ofNat_of_zero_le (le_trans Int.one_nonneg hi)
  obtain ⟨r, er⟩ := Int.eq_ofNat_of_zero_le (le_trans Int.one_nonneg hr)
  obtain ⟨q, eq⟩ := Int.eq_ofNat_of_zero_le (le_trans Int.one_nonneg hq)
  have eN : ideal_global_num_threads w = ((j * (k * (i * (r * q))) : Nat) : Int) := by
    simp only [ideal_global_num_threads, ej, ek, ei, er, eq]; push_cast; ring
  have hidx := store_indices_loops w j k i r q ej ek ei er eq
    { uid := 0, n_threads := ideal_global_num_threads w }
    (bli_thrcomm_create (ideal_global_num_threads w) { comms := [], n_nodes := 0, stores := [] }).2
  have hidx2 : store_indices (for_range w.jc
        (fun a => ideal_jc_body w { uid := 0, n_threads := ideal_global_num_threads w } a)
        (bli_thrcomm_create (ideal_global_num_threads w) { comms := [], n_nodes := 0, stores := [] }).2)
      = (List.range (ideal_global_num_threads w).toNat).map Int.ofNat := by
    rw [hidx, eN, Int.toNat_ofNat]
    simp [store_indices, bli_thrcomm_create]
  unfold ideal_create_paths_from
  rw [if_neg hN0]
  refine ⟨_, rfl, ?_, ?_, ?_, ?_⟩
  · simp [bli_thrcomm_create]
  · exact hidx2
  · show paths_of (ideal_global_num_threads w) _ = _
    have h3 := paths_of_eq (ideal_global_num_threads w).toNat _ hidx2
    rw [Int.toNat_of_nonneg (le_trans Int.one_nonneg hN)] at h3
    exact h3
  · apply roots_ok_loops
    intro p hp
    simp [bli_thrcomm_create] at hp


theorem count_range_cast (n : Nat) (g : Int) (h0 : 0 ≤ g) (h1 : g < (n : Int)) :
    ((List.range n).map Int.ofNat).count g = 1 := by
  apply List.count_eq_one_of_mem
  · exact (List.nodup_range n).map (fun a b h => Int.ofNat.inj h)
  · rw [List.mem_map]
    refine ⟨g.toNat, ?_, ?_⟩
    · rw [List.mem_range]; omega
    · show ((g.toNat : Nat) : Int) = g
      omega

/-! ## Effective factors -/

/-! ## Operand checks: running a check sequence -/

theorem first_failure_cons_bind (x : check_t) (l : List check_t) :
    (x >>= fun _ => first_failure l) = first_failure (x :: l) := by
  cases x <;> rfl

theorem first_failure_single (x : check_t) : first_failure [x] = x := by
  cases x <;> rfl

theorem first_failure_append (l1 l2 : List check_t) :
    first_failure (l1 ++ l2) = (first_failure l1 >>= fun _ => first_failure l2) := by
  induction l1 with
  | nil => rfl
  | cons x xs ih =>
    cases x with
    | ok u => simpa [first_failure] using ih
    | error f => rfl

theorem first_failure_eq_ok_iff (l : List check_t) :
    first_failure l = Except.ok () ↔ ∀ x ∈ l, x = Except.ok () := by
  induction l with
  | nil => simp [first_failure]
  | cons x xs ih =>
    cases x with
    | ok u => simp [first_failure, ih]
    | error f => simp [first_failure]

theorem first_failure_of_first (l : List check_t) (i : Nat) (f : fault_t)
    (hi : l[i]? = some (Except.error f))
    (hbefore : ∀ j, j < i → l[j]? = some (Except.ok ())) :
    first_failure l = Except.error f := by
  induction l generalizing i with
  | nil => simp at hi
  | cons x xs ih =>
    cases i with
    | zero =>
      simp at hi
      subst hi
      rfl
    | succ n =>
      have h0 := hbefore 0 (Nat.succ_pos n)
      simp at h0
      subst h0
      simp only [first_failure]
      apply ih n
      · simpa using hi
      · intro j hj
        have := hbefore (j + 1) (Nat.succ_lt_succ hj)
        simpa using this

theorem l3_basic_check_eq (alpha a b beta c : obj_t) (cntx : cntx_t) :
    bli_l3_basic_check alpha a b beta c cntx
      = first_failure ((common_checks alpha a b beta c cntx).map bli_check_error_code) := by
  unfold bli_l3_basic_check common_checks
  simp only [List.map_cons, List.map_nil]
  rw [← first_failure_single (bli_check_error_code (bli_check_sufficient_stack_buf_size a.dt cntx))]
  simp only [first_failure_cons_bind]
  rw [first_failure_single]

theorem bind_first_failure (l1 l2 : List check_t) :
    (first_failure l1 >>= fun _ => first_failure l2) = first_failure (l1 ++ l2) :=
  (first_failure_append l1 l2).symm

theorem first_failure_nest (l1 l2 : List check_t) :
    first_failure (first_failure l1 :: l2) = first_failure (l1 ++ l2) := by
  rw [← first_failure_cons_bind, bind_first_failure]

theorem gemmt_check_eq (alpha a b beta c : obj_t) (cntx : cntx_t) :
    bli_gemmt_check alpha a b beta c cntx
      = first_failure ((common_checks alpha a b beta c cntx).map bli_check_error_code
          ++ [bli_check_error_code (bli_check_level3_dims a b c),
              bli_check_error_code (bli_check_square_object c)]) := by
  unfold bli_gemmt_check bli_gemmt_basic_check
  rw [l3_basic_check_eq]
  simp only [bind_assoc]
  rw [← first_failure_single (bli_check_error_code (bli_check_square_object c))]
  simp only [first_failure_cons_bind, first_failure_nest]
  rw [first_failure_single]

theorem hemm_basic_check_eq (side : side_t) (alpha a b beta c : obj_t) (cntx : cntx_t)
    (x : check_t) :
    (bli_hemm_basic_check side alpha a b beta c cntx >>= fun _ => x)
      = first_failure ((common_checks alpha a b beta c cntx).map bli_check_error_code
          ++ [bli_check_error_code (side_dims_check side a b c),
              bli_check_error_code (bli_check_square_object a),
              bli_check_error_code (bli_check_consistent_object_datatypes c a),
              bli_check_error_code (bli_check_consistent_object_datatypes c b),
              x]) := by
  unfold bli_hemm_basic_check side_dims_check
  rw [l3_basic_check_eq]
  cases side <;>
    · simp only [bli_is_left, decide_True, decide_False, if_true, if_false, bind_assoc,
        Bool.false_eq_true, reduceCtorEq]
      rw [← first_failure_single x]
      simp only [first_failure_cons_bind, first_failure_nest]
      rw [first_failure_single]

theorem gemm_check_eq (gemm_md : Bool) (alpha a b beta c : obj_t) (cntx : cntx_t) :
    bli_gemm_check gemm_md alpha a b beta c cntx
      = first_failure ((common_checks alpha a b beta c cntx).map bli_check_error_code
          ++ (bli_check_error_code (bli_check_level3_dims a b c) ::
              (if gemm_md then [gemm_md_alpha_check alpha a b c]
               else [bli_check_error_code (bli_check_consistent_object_datatypes c a),
                     bli_check_error_code (bli_check_consistent_object_datatypes c b)]))) := by
  unfold bli_gemm_check bli_gemm_basic_check
  rw [l3_basic_check_eq]
  cases gemm_md with
  | false =>
    simp only [Bool.false_eq_true, if_false, bind_assoc]
    rw [← first_failure_single
      (bli_check_error_code (bli_check_consistent_object_datatypes c b))]
    simp only [first_failure_cons_bind, first_failure_nest]
    rw [first_failure_single]
  | true =>
    simp only [if_true]
    have hmd : (if c.dt ≠ a.dt ∨ c.dt ≠ b.dt ∨ c.comp_prec ≠ c.prec then
          if ¬ alpha.imag_is_zero = true then
            (throw fault_t.complex_alpha_abort : check_t)
          else pure PUnit.unit
        else pure PUnit.unit) = first_failure [gemm_md_alpha_check alpha a b c] := by
      rw [first_failure_single]
      unfold gemm_md_alpha_check
      by_cases h1 : c.dt ≠ a.dt ∨ c.dt ≠ b.dt ∨ c.comp_prec ≠ c.prec <;>
        by_cases h2 : alpha.imag_is_zero = true <;> simp [h1, h2] <;> rfl
    rw [hmd]
    simp only [bind_assoc, first_failure_cons_bind, first_failure_nest]

/-- The check of an operation runs its check sequence in order, up to the first
fault. -/
theorem l3_check_of_eq (op : check_op_t) (gemm_md : Bool) (side : side_t)
    (alpha a b beta c : obj_t) (cntx : cntx_t) :
    l3_check_of op gemm_md side alpha a b beta c cntx
      = first_failure (check_sequence op gemm_md side alpha a b beta c cntx) := by
  unfold check_sequence
  cases op with
  | gemm => exact gemm_check_eq gemm_md alpha a b beta c cntx
  | gemmt => exact gemmt_check_eq alpha a b beta c cntx
  | hemm => exact hemm_basic_check_eq side alpha a b beta c cntx _
  | symm => exact hemm_basic_check_eq side alpha a b beta c cntx _
  | trmm => exact hemm_basic_check_eq side alpha a b beta c cntx _
  | trsm => exact hemm_basic_check_eq side alpha a b beta c cntx _


theorem check_error_code_ok_iff (e_val : err_t) :
    bli_check_error_code e_val = Except.ok () ↔ e_val = err_t.BLIS_SUCCESS := by
  unfold bli_check_error_code
  by_cases h : e_val = err_t.BLIS_SUCCESS <;> simp [h]

theorem check_error_code_success : bli_check_error_code err_t.BLIS_SUCCESS = Except.ok () := rfl

theorem check_error_code_of_ne (e_val : err_t) (h : e_val ≠ err_t.BLIS_SUCCESS) :
    bli_check_error_code e_val = Except.error (fault_t.error_code e_val) := by
  simp [bli_check_error_code, h]

theorem common_map_ok (alpha a b beta c : obj_t) (cntx : cntx_t)
    (hcommon : ∀ e ∈ common_checks alpha a b beta c cntx, e = err_t.BLIS_SUCCESS) :
    first_failure ((common_checks alpha a b beta c cntx).map bli_check_error_code)
      = Except.ok () := by
  rw [first_failure_eq_ok_iff]
  intro x hx
  rw [List.mem_map] at hx
  obtain ⟨e, he, rfl⟩ := hx
  rw [hcommon e he]
  rfl

theorem first_failure_after_ok (l1 l2 : List check_t) (h : first_failure l1 = Except.ok ()) :
    first_failure (l1 ++ l2) = first_failure l2 := by
  rw [first_failure_append, h]
  rfl

/-- After a passing common check set, the check of an operation is decided by
its specific checks. -/
theorem l3_check_of_common_ok (op : check_op_t) (gemm_md : Bool) (side : side_t)
    (alpha a b beta c : obj_t) (cntx : cntx_t)
    (hcommon : ∀ e ∈ common_checks alpha a b beta c cntx, e = err_t.BLIS_SUCCESS) :
    l3_check_of op gemm_md side alpha a b beta c cntx
      = first_failure (specific_checks op gemm_md side alpha a b c) := by
  rw [l3_check_of_eq, check_sequence,
    first_failure_after_ok _ _ (common_map_ok alpha a b beta c cntx hcommon)]

/-! ## Operand checks: valid operands -/

/-- C5, counterexample.  With mixed-datatype support enabled, operands that pass
all common checks, have compatible dimensions and one common datatype still make
`bli_gemm_check` abort: `alpha` has a non-zero imaginary part and the computation
precision of C differs from its storage precision. -/
theorem gemm_md_valid_operands_abort :
    (∀ e ∈ common_checks sample_alpha (sample_zmatrix 2 3) (sample_zmatrix 3 4) sample_beta
        { sample_zmatrix 2 4 with comp_prec := prec_t.BLIS_SINGLE_PREC } sample_cntx,
      e = err_t.BLIS_SUCCESS) ∧
    bli_check_level3_dims (sample_zmatrix 2 3) (sample_zmatrix 3 4)
        { sample_zmatrix 2 4 with comp_prec := prec_t.BLIS_SINGLE_PREC } = err_t.BLIS_SUCCESS ∧
    bli_check_consistent_object_datatypes
        { sample_zmatrix 2 4 with comp_prec := prec_t.BLIS_SINGLE_PREC } (sample_zmatrix 2 3)
      = err_t.BLIS_SUCCESS ∧
    bli_check_consistent_object_datatypes
        { sample_zmatrix 2 4 with comp_prec := prec_t.BLIS_SINGLE_PREC } (sample_zmatrix 3 4)
      = err_t.BLIS_SUCCESS ∧
    bli_gemm_check true sample_alpha (sample_zmatrix 2 3) (sample_zmatrix 3 4) sample_beta
        { sample_zmatrix 2 4 with comp_prec := prec_t.BLIS_SINGLE_PREC } sample_cntx
      = Except.error fault_t.complex_alpha_abort ∧
    bli_gemm_check false sample_alpha (sample_zmatrix 2 3) (sample_zmatrix 3 4) sample_beta
        { sample_zmatrix 2 4 with comp_prec := prec_t.BLIS_SINGLE_PREC } sample_cntx
      = Except.ok () := by
  decide

/-- C5, amended.  Operands that pass all common checks, have compatible
dimensions in the side-appropriate order and consistent datatypes of C with A and
with B, and satisfy the squareness and structure-tag conditions where they apply,
pass the check of every operation; for gemm with mixed-datatype support enabled
this needs in addition that `alpha` has a zero imaginary part or that the
computation precision of C equals its storage precision. -/
theorem valid_operands_pass (gemm_md : Bool) (side : side_t) (alpha a b beta c : obj_t)
    (cntx : cntx_t)
    (hcommon : ∀ e ∈ common_checks alpha a b beta c cntx, e = err_t.BLIS_SUCCESS)
    (hca : bli_check_consistent_object_datatypes c a = err_t.BLIS_SUCCESS)
    (hcb : bli_check_consistent_object_datatypes c b = err_t.BLIS_SUCCESS) :
    (bli_check_level3_dims a b c = err_t.BLIS_SUCCESS →
      (gemm_md = true → alpha.imag_is_zero = true ∨ c.comp_prec = c.prec) →
      bli_gemm_check gemm_md alpha a b beta c cntx = Except.ok ()) ∧
    (bli_check_level3_dims a b c = err_t.BLIS_SUCCESS →
      bli_check_square_object c = err_t.BLIS_SUCCESS →
      bli_gemmt_check alpha a b beta c cntx = Except.ok ()) ∧
    (side_dims_check side a b c = err_t.BLIS_SUCCESS →
      bli_check_square_object a = err_t.BLIS_SUCCESS →
      (bli_check_hermitian_object a = err_t.BLIS_SUCCESS →
        bli_hemm_check side alpha a b beta c cntx = Except.ok ()) ∧
      (bli_check_symmetric_object a = err_t.BLIS_SUCCESS →
        bli_symm_check side alpha a b beta c cntx = Except.ok ()) ∧
      (bli_check_triangular_object a = err_t.BLIS_SUCCESS →
        bli_trmm_check side alpha a b beta c cntx = Except.ok () ∧
        bli_trsm_check side alpha a b beta c cntx = Except.ok ())) := by
  have hdt1 : c.dt = a.dt := by
    unfold bli_check_consistent_object_datatypes at hca
    by_contra hne
    simp [hne] at hca
  have hdt2 : c.dt = b.dt := by
    unfold bli_check_consistent_object_datatypes at hcb
    by_contra hne
    simp [hne] at hcb
  have key := fun op => l3_check_of_common_ok op gemm_md side alpha a b beta c cntx hcommon
  refine ⟨?_, ?_, ?_⟩
  · intro hdims hmd
    have h := key check_op_t.gemm
    simp only [l3_check_of] at h
    rw [h]
    cases gemm_md with
    | false =>
      simp [specific_checks, hdims, hca, hcb, check_error_code_success, first_failure]
    | true =>
      have hal : gemm_md_alpha_check alpha a b c = Except.ok () := by
        unfold gemm_md_alpha_check
        rcases hmd rfl with h1 | h1
        · simp [h1]
        · have hcond : ¬ (c.dt ≠ a.dt ∨ c.dt ≠ b.dt ∨ c.comp_prec ≠ c.prec) := by
            intro h
            rcases h with h | h | h
            · exact h hdt1
            · exact h hdt2
            · exact h h1
          rw [if_neg (fun h => hcond h.1)]
      simp [specific_checks, hdims, hal, check_error_code_success, first_failure]
  · intro hdims hsq
    have h := key check_op_t.gemmt
    simp only [l3_check_of] at h
    rw [h]
    simp [specific_checks, hdims, hsq, check_error_code_success, first_failure]
  · intro hdims hsq
    refine ⟨?_, ?_, ?_⟩
    · intro hs
      have h := key check_op_t.hemm
      simp only [l3_check_of] at h
      rw [h]
      simp [specific_checks, struc_check, hdims, hsq, hca, hcb, hs, check_error_code_success,
        first_failure]
    · intro hs
      have h := key check_op_t.symm
      simp only [l3_check_of] at h
      rw [h]
      simp [specific_checks, struc_check, hdims, hsq, hca, hcb, hs, check_error_code_success,
        first_failure]
    · intro hs
      have h := key check_op_t.trmm
      have h2 := key check_op_t.trsm
      simp only [l3_check_of] at h h2
      rw [h, h2]
      simp [specific_checks, struc_check, hdims, hsq, hca, hcb, hs, check_error_code_success,
        first_failure]


theorem valid_operands_pass_witness :
    (∀ e ∈ common_checks sample_alpha { sample_matrix 2 2 with struc := struc_t.BLIS_HERMITIAN }
        (sample_matrix 2 3) sample_beta (sample_matrix 2 3) sample_cntx,
      e = err_t.BLIS_SUCCESS) ∧
    bli_check_consistent_object_datatypes (sample_matrix 2 3)
        { sample_matrix 2 2 with struc := struc_t.BLIS_HERMITIAN } = err_t.BLIS_SUCCESS ∧
    bli_check_consistent_object_datatypes (sample_matrix 2 3) (sample_matrix 2 3)
      = err_t.BLIS_SUCCESS ∧
    bli_gemm_check true sample_alpha { sample_matrix 2 2 with struc := struc_t.BLIS_HERMITIAN }
        (sample_matrix 2 3) sample_beta (sample_matrix 2 3) sample_cntx = Except.ok () ∧
    bli_hemm_check side_t.BLIS_LEFT sample_alpha
        { sample_matrix 2 2 with struc := struc_t.BLIS_HERMITIAN }
        (sample_matrix 2 3) sample_beta (sample_matrix 2 3) sample_cntx = Except.ok () := by
  have h := valid_operands_pass true side_t.BLIS_LEFT sample_alpha
    { sample_matrix 2 2 with struc := struc_t.BLIS_HERMITIAN }
    (sample_matrix 2 3) sample_beta (sample_matrix 2 3) sample_cntx
    (by decide) (by decide) (by decide)
  exact ⟨by decide, by decide, by decide, h.1 (by decide) (fun _ => Or.inr rfl),
    (h.2.2 (by decide) (by decide)).1 (by decide)⟩

/-! ## Operand checks: which violation is reported -/

/-- C6. If exactly one atomic check of the check sequence of an operation fails
and all others succeed, the check of that operation ends with the fault of the
failing check. -/
theorem exactly_one_failing_check (op : check_op_t) (gemm_md : Bool) (side : side_t)
    (alpha a b beta c : obj_t) (cntx : cntx_t) (i : Nat) (f : fault_t)
    (hi : (check_sequence op gemm_md side alpha a b beta c cntx)[i]? = some (Except.error f))
    (hothers : ∀ j, j < (check_sequence op gemm_md side alpha a b beta c cntx).length → j ≠ i →
      (check_sequence op gemm_md side alpha a b beta c cntx)[j]? = some (Except.ok ())) :
    l3_check_of op gemm_md side alpha a b beta c cntx = Except.error f := by
  rw [l3_check_of_eq]
  apply first_failure_of_first _ i f hi
  intro j hj
  have hilt : i < (check_sequence op gemm_md side alpha a b beta c cntx).length := by
    by_contra hge
    rw [List.getElem?_eq_none (by omega)] at hi
    cases hi
  exact hothers j (by omega) (by omega)

theorem exactly_one_failing_check_witness :
    (check_sequence check_op_t.gemm false side_t.BLIS_LEFT sample_alpha (sample_matrix 2 3)
        (sample_matrix 3 4) sample_beta (sample_matrix 5 4) sample_cntx)[16]?
      = some (Except.error (fault_t.error_code err_t.DimensionMismatch)) ∧
    (∀ j, j < (check_sequence check_op_t.gemm false side_t.BLIS_LEFT sample_alpha
          (sample_matrix 2 3) (sample_matrix 3 4) sample_beta (sample_matrix 5 4)
          sample_cntx).length → j ≠ 16 →
      (check_sequence check_op_t.gemm false side_t.BLIS_LEFT sample_alpha (sample_matrix 2 3)
        (sample_matrix 3 4) sample_beta (sample_matrix 5 4) sample_cntx)[j]?
        = some (Except.ok ())) ∧
    bli_gemm_check false sample_alpha (sample_matrix 2 3) (sample_matrix 3 4) sample_beta
        (sample_matrix 5 4) sample_cntx
      = Except.error (fault_t.error_code err_t.DimensionMismatch) :=
  ⟨by decide, by decide,
    exactly_one_failing_check check_op_t.gemm false side_t.BLIS_LEFT sample_alpha
      (sample_matrix 2 3) (sample_matrix 3 4) sample_beta (sample_matrix 5 4) sample_cntx 16
      (fault_t.error_code err_t.DimensionMismatch) (by decide) (by decide)⟩


theorem level3_dims_of_ne (a b c : obj_t) (h : bli_check_level3_dims a b c ≠ err_t.BLIS_SUCCESS) :
    bli_check_level3_dims a b c = err_t.DimensionMismatch := by
  unfold bli_check_level3_dims at h ⊢
  split
  · rename_i hc
    simp [hc] at h
  · rfl

theorem side_dims_of_ne (side : side_t) (a b c : obj_t)
    (h : side_dims_check side a b c ≠ err_t.BLIS_SUCCESS) :
    side_dims_check side a b c = err_t.DimensionMismatch := by
  unfold side_dims_check at h ⊢
  split
  · rename_i hs
    rw [if_pos hs] at h
    exact level3_dims_of_ne a b c h
  · rename_i hs
    rw [if_neg hs] at h
    exact level3_dims_of_ne b a c h

theorem square_object_eq (x : obj_t) :
    (x.length = x.width → bli_check_square_object x = err_t.BLIS_SUCCESS) ∧
    (x.length ≠ x.width → bli_check_square_object x = err_t.NotSquare) := by
  unfold bli_check_square_object
  constructor <;> intro h <;> simp [h]

theorem consistent_datatypes_eq (x y : obj_t) :
    (x.dt = y.dt → bli_check_consistent_object_datatypes x y = err_t.BLIS_SUCCESS) ∧
    (x.dt ≠ y.dt → bli_check_consistent_object_datatypes x y = err_t.InconsistentDatatypes) := by
  unfold bli_check_consistent_object_datatypes
  constructor <;> intro h <;> simp [h]

theorem first_failure_common_fails (l1 l2 : List check_t) (f : fault_t)
    (h : first_failure l1 = Except.error f) : first_failure (l1 ++ l2) = Except.error f := by
  rw [first_failure_append, h]
  rfl

/-- C7. The first failing check in the order of the source decides the fault.
(1) If a common check fails, the check of every operation ends with the violation
of the first failing common check, whatever the later checks would say.  (2) If
all common checks pass and the dimension check fails, it ends with the dimension
mismatch, whatever squareness, datatypes and structure tag are.  (3) For the
one-sided operations, after passing common and dimension checks, a non-square A
is reported whatever datatypes and tag are; with a square A, inconsistent
datatypes are reported whatever the tag is; and the wrong structure tag is
reported when all of these pass.  (4) A sample: for hemm with a non-square A of
the wrong tag and a C of another datatype, the non-square violation is
reported. -/
theorem first_failing_check_wins :
    (∀ (op : check_op_t) (gemm_md : Bool) (side : side_t) (alpha a b beta c : obj_t)
        (cntx : cntx_t) (i : Nat) (e : err_t),
      (common_checks alpha a b beta c cntx)[i]? = some e → e ≠ err_t.BLIS_SUCCESS →
      (∀ j, j < i → (common_checks alpha a b beta c cntx)[j]? = some err_t.BLIS_SUCCESS) →
      l3_check_of op gemm_md side alpha a b beta c cntx
        = Except.error (fault_t.error_code e)) ∧
    (∀ (gemm_md : Bool) (side : side_t) (alpha a b beta c : obj_t) (cntx : cntx_t),
      (∀ e ∈ common_checks alpha a b beta c cntx, e = err_t.BLIS_SUCCESS) →
      (bli_check_level3_dims a b c ≠ err_t.BLIS_SUCCESS →
        bli_gemm_check gemm_md alpha a b beta c cntx
          = Except.error (fault_t.error_code err_t.DimensionMismatch) ∧
        bli_gemmt_check alpha a b beta c cntx
          = Except.error (fault_t.error_code err_t.DimensionMismatch)) ∧
      (side_dims_check side a b c ≠ err_t.BLIS_SUCCESS →
        ∀ op, one_sided op = true →
          l3_check_of op gemm_md side alpha a b beta c cntx
            = Except.error (fault_t.error_code err_t.DimensionMismatch))) ∧
    (∀ (op : check_op_t) (gemm_md : Bool) (side : side_t) (alpha a b beta c : obj_t)
        (cntx : cntx_t),
      one_sided op = true →
      (∀ e ∈ common_checks alpha a b beta c cntx, e = err_t.BLIS_SUCCESS) →
      side_dims_check side a b c = err_t.BLIS_SUCCESS →
      (a.length ≠ a.width →
        l3_check_of op gemm_md side alpha a b beta c cntx
          = Except.error (fault_t.error_code err_t.NotSquare)) ∧
      (a.length = a.width → c.dt ≠ a.dt ∨ c.dt ≠ b.dt →
        l3_check_of op gemm_md side alpha a b beta c cntx
          = Except.error (fault_t.error_code err_t.InconsistentDatatypes)) ∧
      (a.length = a.width → c.dt = a.dt → c.dt = b.dt →
        struc_check op a ≠ err_t.BLIS_SUCCESS →
        l3_check_of op gemm_md side alpha a b beta c cntx
          = Except.error (fault_t.error_code (struc_check op a)))) ∧
    bli_hemm_check side_t.BLIS_LEFT sample_alpha (sample_matrix 2 3) (sample_matrix 3 4)
        sample_beta { sample_matrix 2 4 with dt := num_t.BLIS_FLOAT } sample_cntx
      = Except.error (fault_t.error_code err_t.NotSquare) := by
  refine ⟨?_, ?_, ?_, by decide⟩
  · intro op gemm_md side alpha a b beta c cntx i e hi hne hbefore
    rw [l3_check_of_eq, check_sequence]
    apply first_failure_common_fails
    apply first_failure_of_first _ i
    · rw [List.getElem?_map, hi]
      simp [check_error_code_of_ne e hne]
    · intro j hj
      rw [List.getElem?_map, hbefore j hj]
      rfl
  · intro gemm_md side alpha a b beta c cntx hcommon
    have key := fun op => l3_check_of_common_ok op gemm_md side alpha a b beta c cntx hcommon
    constructor
    · intro hd
      have h1 := key check_op_t.gemm
      have h2 := key check_op_t.gemmt
      simp only [l3_check_of] at h1 h2
      rw [h1, h2]
      have hd2 := level3_dims_of_ne a b c hd
      constructor <;>
        simp [specific_checks, hd2, bli_check_error_code, first_failure]
    · intro hd op hop
      rw [key op]
      have hd2 := side_dims_of_ne side a b c hd
      cases op <;> simp [one_sided] at hop <;>
        simp [specific_checks, hd2, bli_check_error_code, first_failure]
  · intro op gemm_md side alpha a b beta c cntx hop hcommon hd
    rw [l3_check_of_common_ok op gemm_md side alpha a b beta c cntx hcommon]
    refine ⟨?_, ?_, ?_⟩
    · intro hsq
      have h := (square_object_eq a).2 hsq
      cases op <;> simp [one_sided] at hop <;>
        simp [specific_checks, hd, h, bli_check_error_code, first_failure]
    · intro hsq hdt
      have h := (square_object_eq a).1 hsq
      rcases hdt with hdt | hdt
      · have h2 := (consistent_datatypes_eq c a).2 hdt
        cases op <;> simp [one_sided] at hop <;>
          simp [specific_checks, hd, h, h2, bli_check_error_code, first_failure]
      · have h3 := (consistent_datatypes_eq c b).2 hdt
        by_cases hca : c.dt = a.dt
        · have h2 := (consistent_datatypes_eq c a).1 hca
          cases op <;> simp [one_sided] at hop <;>
            simp [specific_checks, hd, h, h2, h3, bli_check_error_code, first_failure]
        · have h2 := (consistent_datatypes_eq c a).2 hca
          cases op <;> simp [one_sided] at hop <;>
            simp [specific_checks, hd, h, h2, bli_check_error_code, first_failure]
    · intro hsq h1 h2 hs
      have h := (square_object_eq a).1 hsq
      have hca := (consistent_datatypes_eq c a).1 h1
      have hcb := (consistent_datatypes_eq c b).1 h2
      cases op <;> simp [one_sided] at hop <;>
        simp [specific_checks, hd, h, hca, hcb, check_error_code_of_ne _ hs,
          check_error_code_success, first_failure]


theorem first_failure_error_mem (l : List check_t) (f : fault_t)
    (h : first_failure l = Except.error f) : Except.error f ∈ l := by
  induction l with
  | nil => cases h
  | cons x xs ih =>
    cases x with
    | ok u => exact List.mem_cons_of_mem _ (ih h)
    | error g =>
      simp only [first_failure] at h
      rw [h]
      exact List.mem_cons_self _ _

theorem check_error_code_error (e_val e : err_t)
    (h : bli_check_error_code e_val = Except.error (fault_t.error_code e)) : e_val = e := by
  unfold bli_check_error_code at h
  split at h
  · cases h
  · injection h with h1
    injection h1

theorem common_checks_not_square (alpha a b beta c : obj_t) (cntx : cntx_t) :
    err_t.NotSquare ∉ common_checks alpha a b beta c cntx := by
  intro h
  simp only [common_checks, List.mem_cons, List.mem_singleton, List.not_mem_nil, or_false] at h
  unfold bli_check_noninteger_object bli_check_floating_object bli_check_scalar_object
    bli_check_matrix_object bli_check_object_buffer bli_check_sufficient_stack_buf_size at h
  rcases h with h | h | h | h | h | h | h | h | h | h | h | h | h | h | h | h <;>
    (split at h <;> cases h)

/-- C8. (1) For each one-sided operation and either side, operands whose A has
unequal dimensions are rejected, and when the common and dimension checks pass
the fault is the non-square violation.  (2) `bli_gemm_check` never reports the
non-square violation, and (3) it accepts operands that pass the common checks,
the dimension check and the datatype checks of its configuration, whatever the
shapes of A, B and C are; (4) for instance a 2 x 3 A, a 3 x 4 B and a 2 x 4 C,
which hemm rejects as non-square. -/
theorem squareness_checks :
    (∀ (op : check_op_t) (gemm_md : Bool) (side : side_t) (alpha a b beta c : obj_t)
        (cntx : cntx_t),
      one_sided op = true → a.length ≠ a.width →
      l3_check_of op gemm_md side alpha a b beta c cntx ≠ Except.ok () ∧
      ((∀ e ∈ common_checks alpha a b beta c cntx, e = err_t.BLIS_SUCCESS) →
        side_dims_check side a b c = err_t.BLIS_SUCCESS →
        l3_check_of op gemm_md side alpha a b beta c cntx
          = Except.error (fault_t.error_code err_t.NotSquare))) ∧
    (∀ (gemm_md : Bool) (alpha a b beta c : obj_t) (cntx : cntx_t),
      bli_gemm_check gemm_md alpha a b beta c cntx
        ≠ Except.error (fault_t.error_code err_t.NotSquare)) ∧
    (∀ (gemm_md : Bool) (alpha a b beta c : obj_t) (cntx : cntx_t),
      (∀ e ∈ common_checks alpha a b beta c cntx, e = err_t.BLIS_SUCCESS) →
      bli_check_level3_dims a b c = err_t.BLIS_SUCCESS →
      (gemm_md = false → c.dt = a.dt ∧ c.dt = b.dt) →
      (gemm_md = true → gemm_md_alpha_check alpha a b c = Except.ok ()) →
      bli_gemm_check gemm_md alpha a b beta c cntx = Except.ok ()) ∧
    (bli_gemm_check false sample_alpha (sample_matrix 2 3) (sample_matrix 3 4) sample_beta
        (sample_matrix 2 4) sample_cntx = Except.ok () ∧
      bli_gemm_check true sample_alpha (sample_matrix 2 3) (sample_matrix 3 4) sample_beta
        (sample_matrix 2 4) sample_cntx = Except.ok () ∧
      bli_hemm_check side_t.BLIS_LEFT sample_alpha (sample_matrix 2 3) (sample_matrix 3 4)
        sample_beta (sample_matrix 2 4) sample_cntx
        = Except.error (fault_t.error_code err_t.NotSquare)) := by
  refine ⟨?_, ?_, ?_, by decide⟩
  · intro op gemm_md side alpha a b beta c cntx hop hsq
    have hsq2 := (square_object_eq a).2 hsq
    constructor
    · rw [l3_check_of_eq]
      intro hok
      rw [first_failure_eq_ok_iff] at hok
      have hmem : bli_check_error_code (bli_check_square_object a)
          ∈ check_sequence op gemm_md side alpha a b beta c cntx := by
        unfold check_sequence
        apply List.mem_append_right
        cases op <;> simp [one_sided] at hop <;> simp [specific_checks]
      have := hok _ hmem
      rw [hsq2] at this
      cases this
    · intro hcommon hd
      rw [l3_check_of_common_ok op gemm_md side alpha a b beta c cntx hcommon]
      cases op <;> simp [one_sided] at hop <;>
        simp [specific_checks, hd, hsq2, bli_check_error_code, first_failure]
  · intro gemm_md alpha a b beta c cntx h
    have h1 := l3_check_of_eq check_op_t.gemm gemm_md side_t.BLIS_LEFT alpha a b beta c cntx
    simp only [l3_check_of] at h1
    rw [h1] at h
    have hmem := first_failure_error_mem _ _ h
    unfold check_sequence at hmem
    rw [List.mem_append] at hmem
    rcases hmem with hmem | hmem
    · rw [List.mem_map] at hmem
      obtain ⟨e, he, hee⟩ := hmem
      have := check_error_code_error e _ hee
      subst this
      exact common_checks_not_square alpha a b beta c cntx he
    · cases gemm_md
      · simp only [specific_checks, Bool.false_eq_true, if_false, List.mem_cons,
          List.mem_singleton, List.not_mem_nil, or_false] at hmem
        rcases hmem with hmem | hmem | hmem
        · have := check_error_code_error _ _ hmem.symm
          unfold bli_check_level3_dims at this
          split at this <;> cases this
        · have := check_error_code_error _ _ hmem.symm
          unfold bli_check_consistent_object_datatypes at this
          split at this <;> cases this
        · have := check_error_code_error _ _ hmem.symm
          unfold bli_check_consistent_object_datatypes at this
          split at this <;> cases this
      · simp only [specific_checks, if_true, List.mem_cons,
          List.mem_singleton, List.not_mem_nil, or_false] at hmem
        rcases hmem with hmem | hmem
        · have := check_error_code_error _ _ hmem.symm
          unfold bli_check_level3_dims at this
          split at this <;> cases this
        · unfold gemm_md_alpha_check at hmem
          split at hmem <;> cases hmem
  · intro gemm_md alpha a b beta c cntx hcommon hd hoff hon
    have h1 := l3_check_of_common_ok check_op_t.gemm gemm_md side_t.BLIS_LEFT alpha a b beta c
      cntx hcommon
    simp only [l3_check_of] at h1
    rw [h1]
    cases gemm_md with
    | false =>
      obtain ⟨e1, e2⟩ := hoff rfl
      simp [specific_checks, hd, (consistent_datatypes_eq c a).1 e1,
        (consistent_datatypes_eq c b).1 e2, check_error_code_success, first_failure]
    | true =>
      simp [specific_checks, hd, hon rfl, check_error_code_success, first_failure]


/-! ## Operand checks: mixed datatypes and gemmt -/

/-- C9. For gemm operands that pass the common checks and the dimension check
and whose C and A have different datatypes: with mixed-datatype support enabled
the check never reports inconsistent datatypes, it aborts with the complex-alpha
fault if the imaginary part of alpha is non-zero and returns otherwise; with
mixed-datatype support disabled the check reports inconsistent datatypes,
whatever alpha is. -/
theorem gemm_mixed_datatypes (alpha a b beta c : obj_t) (cntx : cntx_t)
    (hcommon : ∀ e ∈ common_checks alpha a b beta c cntx, e = err_t.BLIS_SUCCESS)
    (hdims : bli_check_level3_dims a b c = err_t.BLIS_SUCCESS)
    (hdt : c.dt ≠ a.dt) :
    bli_gemm_check true alpha a b beta c cntx
        ≠ Except.error (fault_t.error_code err_t.InconsistentDatatypes) ∧
    (alpha.imag_is_zero = false →
      bli_gemm_check true alpha a b beta c cntx = Except.error fault_t.complex_alpha_abort) ∧
    (alpha.imag_is_zero = true → bli_gemm_check true alpha a b beta c cntx = Except.ok ()) ∧
    bli_gemm_check false alpha a b beta c cntx
      = Except.error (fault_t.error_code err_t.InconsistentDatatypes) := by
  have hon := l3_check_of_common_ok check_op_t.gemm true side_t.BLIS_LEFT alpha a b beta c
    cntx hcommon
  have hoff := l3_check_of_common_ok check_op_t.gemm false side_t.BLIS_LEFT alpha a b beta c
    cntx hcommon
  simp only [l3_check_of] at hon hoff
  rw [hon, hoff]
  have hca := (consistent_datatypes_eq c a).2 hdt
  cases him : alpha.imag_is_zero <;>
    simp [specific_checks, hdims, hca, gemm_md_alpha_check, hdt, him, bli_check_error_code,
      first_failure]

theorem gemm_mixed_datatypes_witness :
    (∀ e ∈ common_checks sample_alpha (sample_matrix 2 3) (sample_matrix 3 4) sample_beta
        { sample_matrix 2 4 with dt := num_t.BLIS_FLOAT, prec := prec_t.BLIS_SINGLE_PREC,
                                 comp_prec := prec_t.BLIS_SINGLE_PREC } sample_cntx,
      e = err_t.BLIS_SUCCESS) ∧
    bli_gemm_check true sample_alpha (sample_matrix 2 3) (sample_matrix 3 4) sample_beta
        { sample_matrix 2 4 with dt := num_t.BLIS_FLOAT, prec := prec_t.BLIS_SINGLE_PREC,
                                 comp_prec := prec_t.BLIS_SINGLE_PREC } sample_cntx
      = Except.error fault_t.complex_alpha_abort ∧
    bli_gemm_check false sample_alpha (sample_matrix 2 3) (sample_matrix 3 4) sample_beta
        { sample_matrix 2 4 with dt := num_t.BLIS_FLOAT, prec := prec_t.BLIS_SINGLE_PREC,
                                 comp_prec := prec_t.BLIS_SINGLE_PREC } sample_cntx
      = Except.error (fault_t.error_code err_t.InconsistentDatatypes) := by
  have h := gemm_mixed_datatypes sample_alpha (sample_matrix 2 3) (sample_matrix 3 4) sample_beta
    { sample_matrix 2 4 with dt := num_t.BLIS_FLOAT, prec := prec_t.BLIS_SINGLE_PREC,
                             comp_prec := prec_t.BLIS_SINGLE_PREC } sample_cntx
    (by decide) (by decide) (by decide)
  exact ⟨by decide, h.2.1 rfl, h.2.2.2⟩

/-- C10. `bli_gemmt_check` returns exactly when the common check set passes,
the dimension check on (A, B, C) passes and C is square; a non-square C that
passes the earlier checks is rejected with the non-square violation; the check
never reports inconsistent datatypes, and its outcome does not change when the
datatypes of B and C are replaced by other floating-point datatypes; for
instance a double A, a single-precision B and a double complex C are accepted. -/
theorem gemmt_check_spec (alpha a b beta c : obj_t) (cntx : cntx_t) :
    (bli_gemmt_check alpha a b beta c cntx = Except.ok () ↔
      (∀ e ∈ common_checks alpha a b beta c cntx, e = err_t.BLIS_SUCCESS) ∧
        bli_check_level3_dims a b c = err_t.BLIS_SUCCESS ∧ c.length = c.width) ∧
    ((∀ e ∈ common_checks alpha a b beta c cntx, e = err_t.BLIS_SUCCESS) →
      bli_check_level3_dims a b c = err_t.BLIS_SUCCESS → c.length ≠ c.width →
      bli_gemmt_check alpha a b beta c cntx
        = Except.error (fault_t.error_code err_t.NotSquare)) ∧
    bli_gemmt_check alpha a b beta c cntx
      ≠ Except.error (fault_t.error_code err_t.InconsistentDatatypes) ∧
    (∀ dtb dtc : num_t,
      bli_check_floating_object { b with dt := dtb } = bli_check_floating_object b →
      bli_check_floating_object { c with dt := dtc } = bli_check_floating_object c →
      bli_gemmt_check alpha a { b with dt := dtb } beta { c with dt := dtc } cntx
        = bli_gemmt_check alpha a b beta c cntx) ∧
    bli_gemmt_check sample_alpha (sample_matrix 2 3)
        { sample_matrix 3 2 with dt := num_t.BLIS_FLOAT, prec := prec_t.BLIS_SINGLE_PREC,
                                 comp_prec := prec_t.BLIS_SINGLE_PREC }
        sample_beta { sample_matrix 2 2 with dt := num_t.BLIS_DCOMPLEX } sample_cntx
      = Except.ok () := by
  refine ⟨?_, ?_, ?_, ?_, by decide⟩
  · rw [gemmt_check_eq, first_failure_eq_ok_iff]
    constructor
    · intro h
      refine ⟨?_, ?_, ?_⟩
      · intro e he
        have := h (bli_check_error_code e)
          (List.mem_append_left _ (List.mem_map_of_mem _ he))
        exact (check_error_code_ok_iff e).1 this
      · have := h (bli_check_error_code (bli_check_level3_dims a b c))
          (List.mem_append_right _ (by simp))
        exact (check_error_code_ok_iff _).1 this
      · have := h (bli_check_error_code (bli_check_square_object c))
          (List.mem_append_right _ (by simp))
        have h2 := (check_error_code_ok_iff _).1 this
        by_contra hne
        rw [(square_object_eq c).2 hne] at h2
        cases h2
    · rintro ⟨hcommon, hd, hsq⟩ x hx
      rw [List.mem_append] at hx
      rcases hx with hx | hx
      · rw [List.mem_map] at hx
        obtain ⟨e, he, rfl⟩ := hx
        rw [hcommon e he]
        rfl
      · simp only [List.mem_cons, List.mem_singleton, List.not_mem_nil, or_false] at hx
        rcases hx with rfl | rfl
        · rw [hd]; rfl
        · rw [(square_object_eq c).1 hsq]; rfl
  · intro hcommon hd hsq
    have h := l3_check_of_common_ok check_op_t.gemmt false side_t.BLIS_LEFT alpha a b beta c
      cntx hcommon
    simp only [l3_check_of] at h
    rw [h]
    simp [specific_checks, hd, (square_object_eq c).2 hsq, bli_check_error_code, first_failure]
  · intro h
    rw [gemmt_check_eq] at h
    have hmem := first_failure_error_mem _ _ h
    rw [List.mem_append] at hmem
    rcases hmem with hmem | hmem
    · rw [List.mem_map] at hmem
      obtain ⟨e, he, hee⟩ := hmem
      have := check_error_code_error e _ hee
      subst this
      simp only [common_checks, List.mem_cons, List.mem_singleton, List.not_mem_nil,
        or_false] at he
      unfold bli_check_noninteger_object bli_check_floating_object bli_check_scalar_object
        bli_check_matrix_object bli_check_object_buffer bli_check_sufficient_stack_buf_size
        at he
      rcases he with h | h | h | h | h | h | h | h | h | h | h | h | h | h | h | h <;>
        (split at h <;> cases h)
    · simp only [List.mem_cons, List.mem_singleton, List.not_mem_nil, or_false] at hmem
      rcases hmem with hmem | hmem
      · have := check_error_code_error _ _ hmem.symm
        unfold bli_check_level3_dims at this
        split at this <;> cases this
      · have := check_error_code_error _ _ hmem.symm
        unfold bli_check_square_object at this
        split at this <;> cases this
  · intro dtb dtc hb hc
    rw [gemmt_check_eq, gemmt_check_eq]
    have h1 : common_checks alpha a { b with dt := dtb } beta { c with dt := dtc } cntx
        = common_checks alpha a b beta c cntx := by
      simp only [common_checks, hb, hc]
      rfl
    rw [h1]
    rfl

/-! ## Operand checks: side, structure tag and the complex-alpha guard -/

theorem struc_check_eq (op : check_op_t) (a : obj_t) (hop : one_sided op = true) :
    (a.struc = expected_struc op → struc_check op a = err_t.BLIS_SUCCESS) ∧
    (a.struc ≠ expected_struc op →
      struc_check op a = err_t.WrongStructureTag (expected_struc op)) := by
  cases op <;> simp [one_sided] at hop <;>
    (constructor <;> intro h <;>
      simp [struc_check, expected_struc, bli_check_hermitian_object, bli_check_symmetric_object,
        bli_check_triangular_object] at h ⊢ <;> simp [h])

/-- C11. For the one-sided operations, with all common checks passing, the check
ends with the dimension mismatch exactly when `bli_check_level3_dims` fails on
(A, B, C) for side left, respectively on (B, A, C) for side right; and once the
dimension check has passed, the outcome is that of the squareness, datatype and
structure-tag checks, in which the side does not occur. -/
theorem one_sided_dims_order (op : check_op_t) (gemm_md : Bool) (alpha a b beta c : obj_t)
    (cntx : cntx_t) (hop : one_sided op = true)
    (hcommon : ∀ e ∈ common_checks alpha a b beta c cntx, e = err_t.BLIS_SUCCESS) :
    (l3_check_of op gemm_md side_t.BLIS_LEFT alpha a b beta c cntx
        = Except.error (fault_t.error_code err_t.DimensionMismatch)
      ↔ bli_check_level3_dims a b c ≠ err_t.BLIS_SUCCESS) ∧
    (l3_check_of op gemm_md side_t.BLIS_RIGHT alpha a b beta c cntx
        = Except.error (fault_t.error_code err_t.DimensionMismatch)
      ↔ bli_check_level3_dims b a c ≠ err_t.BLIS_SUCCESS) ∧
    (side_dims_check side_t.BLIS_LEFT a b c = bli_check_level3_dims a b c ∧
      side_dims_check side_t.BLIS_RIGHT a b c = bli_check_level3_dims b a c) ∧
    (∀ side : side_t, side_dims_check side a b c = err_t.BLIS_SUCCESS →
      l3_check_of op gemm_md side alpha a b beta c cntx
        = first_failure
            [bli_check_error_code (bli_check_square_object a),
             bli_check_error_code (bli_check_consistent_object_datatypes c a),
             bli_check_error_code (bli_check_consistent_object_datatypes c b),
             bli_check_error_code (struc_check op a)]) := by
  have key : ∀ side : side_t,
      (l3_check_of op gemm_md side alpha a b beta c cntx
          = Except.error (fault_t.error_code err_t.DimensionMismatch)
        ↔ side_dims_check side a b c ≠ err_t.BLIS_SUCCESS) ∧
      (side_dims_check side a b c = err_t.BLIS_SUCCESS →
        l3_check_of op gemm_md side alpha a b beta c cntx
          = first_failure
              [bli_check_error_code (bli_check_square_object a),
               bli_check_error_code (bli_check_consistent_object_datatypes c a),
               bli_check_error_code (bli_check_consistent_object_datatypes c b),
               bli_check_error_code (struc_check op a)]) := by
    intro side
    rw [l3_check_of_common_ok op gemm_md side alpha a b beta c cntx hcommon]
    have hspec : specific_checks op gemm_md side alpha a b c
        = [bli_check_error_code (side_dims_check side a b c),
           bli_check_error_code (bli_check_square_object a),
           bli_check_error_code (bli_check_consistent_object_datatypes c a),
           bli_check_error_code (bli_check_consistent_object_datatypes c b),
           bli_check_error_code (struc_check op a)] := by
      cases op <;> simp [one_sided] at hop <;> rfl
    rw [hspec]
    have hpass : side_dims_check side a b c = err_t.BLIS_SUCCESS →
        first_failure
            [bli_check_error_code (side_dims_check side a b c),
             bli_check_error_code (bli_check_square_object a),
             bli_check_error_code (bli_check_consistent_object_datatypes c a),
             bli_check_error_code (bli_check_consistent_object_datatypes c b),
             bli_check_error_code (struc_check op a)]
          = first_failure
              [bli_check_error_code (bli_check_square_object a),
               bli_check_error_code (bli_check_consistent_object_datatypes c a),
               bli_check_error_code (bli_check_consistent_object_datatypes c b),
               bli_check_error_code (struc_check op a)] := by
      intro hd
      rw [hd]
      rfl
    refine ⟨⟨?_, ?_⟩, hpass⟩
    · intro h hd
      rw [hpass hd] at h
      have hmem := first_failure_error_mem _ _ h
      simp only [List.mem_cons, List.mem_singleton, List.not_mem_nil, or_false] at hmem
      rcases hmem with hmem | hmem | hmem | hmem
      · have := check_error_code_error _ _ hmem.symm
        unfold bli_check_square_object at this
        split at this <;> cases this
      · have := check_error_code_error _ _ hmem.symm
        unfold bli_check_consistent_object_datatypes at this
        split at this <;> cases this
      · have := check_error_code_error _ _ hmem.symm
        unfold bli_check_consistent_object_datatypes at this
        split at this <;> cases this
      · have := check_error_code_error _ _ hmem.symm
        by_cases htag : a.struc = expected_struc op
        · rw [(struc_check_eq op a hop).1 htag] at this
          cases this
        · rw [(struc_check_eq op a hop).2 htag] at this
          cases this
    · intro hd
      rw [side_dims_of_ne side a b c hd]
      rfl
  have hl : side_dims_check side_t.BLIS_LEFT a b c = bli_check_level3_dims a b c := rfl
  have hr : side_dims_check side_t.BLIS_RIGHT a b c = bli_check_level3_dims b a c := rfl
  refine ⟨?_, ?_, ⟨hl, hr⟩, fun side => (key side).2⟩
  · rw [← hl]; exact (key side_t.BLIS_LEFT).1
  · rw [← hr]; exact (key side_t.BLIS_RIGHT).1

theorem one_sided_dims_order_witness :
    one_sided check_op_t.trsm = true ∧
    (∀ e ∈ common_checks sample_alpha { sample_matrix 3 3 with struc := struc_t.BLIS_TRIANGULAR }
        (sample_matrix 2 3) sample_beta (sample_matrix 2 3) sample_cntx,
      e = err_t.BLIS_SUCCESS) ∧
    bli_trsm_check side_t.BLIS_LEFT sample_alpha
        { sample_matrix 3 3 with struc := struc_t.BLIS_TRIANGULAR }
        (sample_matrix 2 3) sample_beta (sample_matrix 2 3) sample_cntx
      = Except.error (fault_t.error_code err_t.DimensionMismatch) ∧
    bli_trsm_check side_t.BLIS_RIGHT sample_alpha
        { sample_matrix 3 3 with struc := struc_t.BLIS_TRIANGULAR }
        (sample_matrix 2 3) sample_beta (sample_matrix 2 3) sample_cntx
      = Except.ok () := by
  have h := one_sided_dims_order check_op_t.trsm false sample_alpha
    { sample_matrix 3 3 with struc := struc_t.BLIS_TRIANGULAR }
    (sample_matrix 2 3) sample_beta (sample_matrix 2 3) sample_cntx (by decide) (by decide)
  refine ⟨by decide, by decide, h.1.2 (by decide), ?_⟩
  have h2 := h.2.2.2 side_t.BLIS_RIGHT (by decide)
  rw [show bli_trsm_check side_t.BLIS_RIGHT sample_alpha
        { sample_matrix 3 3 with struc := struc_t.BLIS_TRIANGULAR }
        (sample_matrix 2 3) sample_beta (sample_matrix 2 3) sample_cntx
      = l3_check_of check_op_t.trsm false side_t.BLIS_RIGHT sample_alpha
        { sample_matrix 3 3 with struc := struc_t.BLIS_TRIANGULAR }
        (sample_matrix 2 3) sample_beta (sample_matrix 2 3) sample_cntx from rfl, h2]
  decide

theorem first_failure_append_ok (l : List check_t) :
    first_failure (l ++ [Except.ok ()]) = first_failure l := by
  rw [first_failure_append]
  cases first_failure l <;> rfl

/-- C12. Each of hemm, symm, trmm and trsm runs `bli_hemm_basic_check` (the
common check set, the dimension check, squareness of A, datatype consistency of C
with A and with B) and then the structure-tag check of A: a fault of the basic
check is the outcome; if the basic check returns, the check returns exactly when
A carries the expected tag (Hermitian, symmetric, triangular, triangular) and
otherwise ends with the wrong-structure violation for that tag.
`bli_trmm_check` and `bli_trsm_check` have the same outcome on every input. -/
theorem structure_tag_checks (side : side_t) (alpha a b beta c : obj_t) (cntx : cntx_t) :
    (bli_hemm_basic_check side alpha a b beta c cntx
      = first_failure ((common_checks alpha a b beta c cntx).map bli_check_error_code
          ++ [bli_check_error_code (side_dims_check side a b c),
              bli_check_error_code (bli_check_square_object a),
              bli_check_error_code (bli_check_consistent_object_datatypes c a),
              bli_check_error_code (bli_check_consistent_object_datatypes c b)])) ∧
    (∀ (op : check_op_t) (gemm_md : Bool), one_sided op = true →
      (∀ f, bli_hemm_basic_check side alpha a b beta c cntx = Except.error f →
        l3_check_of op gemm_md side alpha a b beta c cntx = Except.error f) ∧
      (bli_hemm_basic_check side alpha a b beta c cntx = Except.ok () →
        (l3_check_of op gemm_md side alpha a b beta c cntx = Except.ok ()
          ↔ a.struc = expected_struc op) ∧
        (a.struc ≠ expected_struc op →
          l3_check_of op gemm_md side alpha a b beta c cntx
            = Except.error (fault_t.error_code
                (err_t.WrongStructureTag (expected_struc op)))))) ∧
    (expected_struc check_op_t.hemm = struc_t.BLIS_HERMITIAN ∧
      expected_struc check_op_t.symm = struc_t.BLIS_SYMMETRIC ∧
      expected_struc check_op_t.trmm = struc_t.BLIS_TRIANGULAR ∧
      expected_struc check_op_t.trsm = struc_t.BLIS_TRIANGULAR) ∧
    bli_trmm_check side alpha a b beta c cntx = bli_trsm_check side alpha a b beta c cntx := by
  refine ⟨?_, ?_, ⟨rfl, rfl, rfl, rfl⟩, rfl⟩
  · have h := hemm_basic_check_eq side alpha a b beta c cntx (Except.ok ())
    have h2 : (bli_hemm_basic_check side alpha a b beta c cntx >>= fun _ => Except.ok ())
        = bli_hemm_basic_check side alpha a b beta c cntx := by
      cases bli_hemm_basic_check side alpha a b beta c cntx <;> rfl
    rw [h2] at h
    rw [h]
    exact first_failure_append_ok
      ((common_checks alpha a b beta c cntx).map bli_check_error_code
        ++ [bli_check_error_code (side_dims_check side a b c),
            bli_check_error_code (bli_check_square_object a),
            bli_check_error_code (bli_check_consistent_object_datatypes c a),
            bli_check_error_code (bli_check_consistent_object_datatypes c b)])
  · intro op gemm_md hop
    have hform : l3_check_of op gemm_md side alpha a b beta c cntx
        = (bli_hemm_basic_check side alpha a b beta c cntx
            >>= fun _ => bli_check_error_code (struc_check op a)) := by
      cases op <;> simp [one_sided] at hop <;> rfl
    rw [hform]
    constructor
    · intro f hf
      rw [hf]
      rfl
    · intro hok
      rw [hok]
      show (bli_check_error_code (struc_check op a) = Except.ok () ↔ _) ∧ _
      constructor
      · rw [check_error_code_ok_iff]
        constructor
        · intro h
          by_contra hne
          rw [(struc_check_eq op a hop).2 hne] at h
          cases h
        · exact (struc_check_eq op a hop).1
      · intro hne
        show bli_check_error_code (struc_check op a) = _
        rw [(struc_check_eq op a hop).2 hne]
        rfl

/-- C20. With mixed-datatype support enabled, for gemm operands that pass the
common checks and the dimension check, `bli_gemm_basic_check` aborts exactly when
the imaginary part of alpha is non-zero and the datatype of C differs from that
of A or of B or the computation precision of C differs from its storage
precision; otherwise it returns.  In particular, with one datatype for A, B and C
and the computation precision of C equal to its storage precision, the check
returns whatever alpha is. -/
theorem complex_alpha_abort_trigger (alpha a b beta c : obj_t) (cntx : cntx_t)
    (hcommon : ∀ e ∈ common_checks alpha a b beta c cntx, e = err_t.BLIS_SUCCESS)
    (hdims : bli_check_level3_dims a b c = err_t.BLIS_SUCCESS) :
    (bli_gemm_basic_check true alpha a b beta c cntx = Except.error fault_t.complex_alpha_abort
      ↔ alpha.imag_is_zero = false
          ∧ (c.dt ≠ a.dt ∨ c.dt ≠ b.dt ∨ c.comp_prec ≠ c.prec)) ∧
    (¬ (alpha.imag_is_zero = false ∧ (c.dt ≠ a.dt ∨ c.dt ≠ b.dt ∨ c.comp_prec ≠ c.prec)) →
      bli_gemm_basic_check true alpha a b beta c cntx = Except.ok ()) ∧
    (c.dt = a.dt → c.dt = b.dt → c.comp_prec = c.prec →
      bli_gemm_basic_check true alpha a b beta c cntx = Except.ok ()) := by
  have h := l3_check_of_common_ok check_op_t.gemm true side_t.BLIS_LEFT alpha a b beta c cntx
    hcommon
  have h2 : bli_gemm_basic_check true alpha a b beta c cntx
      = gemm_md_alpha_check alpha a b c := by
    have h3 : l3_check_of check_op_t.gemm true side_t.BLIS_LEFT alpha a b beta c cntx
        = bli_gemm_basic_check true alpha a b beta c cntx := rfl
    rw [← h3, h]
    simp only [specific_checks, if_true, hdims, check_error_code_success, first_failure]
    exact first_failure_single _
  rw [h2]
  unfold gemm_md_alpha_check
  refine ⟨?_, ?_, ?_⟩
  · constructor
    · intro h
      split at h
      · rename_i hc
        exact ⟨hc.2, hc.1⟩
      · cases h
    · intro hc
      rw [if_pos ⟨hc.2, hc.1⟩]
  · intro hn
    rw [if_neg (fun hc => hn ⟨hc.2, hc.1⟩)]
  · intro e1 e2 e3
    rw [if_neg]
    intro hc
    rcases hc.1 with h | h | h
    · exact h e1
    · exact h e2
    · exact h e3

theorem complex_alpha_abort_trigger_witness :
    (∀ e ∈ common_checks sample_alpha (sample_zmatrix 2 3) (sample_zmatrix 3 4) sample_beta
        (sample_zmatrix 2 4) sample_cntx, e = err_t.BLIS_SUCCESS) ∧
    bli_check_level3_dims (sample_zmatrix 2 3) (sample_zmatrix 3 4) (sample_zmatrix 2 4)
      = err_t.BLIS_SUCCESS ∧
    sample_alpha.imag_is_zero = false ∧
    bli_gemm_basic_check true sample_alpha (sample_zmatrix 2 3) (sample_zmatrix 3 4) sample_beta
        (sample_zmatrix 2 4) sample_cntx = Except.ok () :=
  ⟨by decide, by decide, rfl,
    (complex_alpha_abort_trigger sample_alpha (sample_zmatrix 2 3) (sample_zmatrix 3 4)
      sample_beta (sample_zmatrix 2 4) sample_cntx (by decide) (by decide)).2.2 rfl rfl rfl⟩

/-! ## Thread count -/

theorem nways_in_kc (multithreading : Bool) (bli_env_read_nway : String → dim_t) :
    (nways_in multithreading bli_env_read_nway).kc = 1 := by
  unfold nways_in
  split <;> rfl

theorem one_le_mul_int (x y : Int) (hx : 1 ≤ x) (hy : 1 ≤ y) : 1 ≤ x * y := by
  have h : 0 < x * y :=
    mul_pos (lt_of_lt_of_le Int.one_pos hx) (lt_of_lt_of_le Int.one_pos hy)
  exact h

/-! ## Teardown of one chain -/

/-! ## The chain of the innermost loop body -/

theorem path_body_eq (w : nways_t) (gc jc kc ic jr : thrcomm_t) (a b c d e : dim_t)
    (s : build_t) :
    ideal_path_body w gc jc kc ic jr a b c d e s
      = { comms := s.comms ++ [{ uid := s.comms.length, n_threads := ir_nt w }]
          n_nodes := s.n_nodes + 7
          stores := s.stores ++
            [(ideal_global_comm_id w a b c d e,
              ideal_chain_of w gc jc kc ic jr { uid := s.comms.length, n_threads := ir_nt w }
                a b c d e s.n_nodes)] } := by
  rfl

theorem chain_nodes_chain_of (w : nways_t) (gc jc kc ic jr ir : thrcomm_t) (a b c d e : dim_t)
    (n : Nat) :
    chain_nodes (ideal_chain_of w gc jc kc ic jr ir a b c d e n)
      = [ { addr := addr_t.heap (n + 6), ocomm := gc, ocomm_id := ideal_global_comm_id w a b c d e,
            icomm := jc, icomm_id := b * ideal_kc_nt w + (c * ideal_ic_nt w + (d * jr_nt w + (e * ir_nt w + 0))),
            n_way := w.jc, work_id := a, free_comms := true },
          { addr := addr_t.heap (n + 5), ocomm := jc,
            ocomm_id := b * ideal_kc_nt w + (c * ideal_ic_nt w + (d * jr_nt w + (e * ir_nt w + 0))),
            icomm := kc, icomm_id := c * ideal_ic_nt w + (d * jr_nt w + (e * ir_nt w + 0)),
            n_way := w.kc, work_id := b, free_comms := true },
          { addr := addr_t.heap (n + 4), ocomm := kc,
            ocomm_id := c * ideal_ic_nt w + (d * jr_nt w + (e * ir_nt w + 0)),
            icomm := ic, icomm_id := d * jr_nt w + (e * ir_nt w + 0),
            n_way := ideal_kc_nt w, work_id := c * ideal_ic_nt w + (d * jr_nt w + (e * ir_nt w + 0)),
            free_comms := false },
          { addr := addr_t.heap (n + 3), ocomm := kc,
            ocomm_id := c * ideal_ic_nt w + (d * jr_nt w + (e * ir_nt w + 0)),
            icomm := ic, icomm_id := d * jr_nt w + (e * ir_nt w + 0),
            n_way := w.ic, work_id := c, free_comms := true },
          { addr := addr_t.heap (n + 2), ocomm := ic,
            ocomm_id := d * jr_nt w + (e * ir_nt w + 0),
            icomm := jr, icomm_id := e * ir_nt w + 0,
            n_way := ideal_ic_nt w, work_id := d * jr_nt w + (e * ir_nt w + 0), free_comms := false },
          { addr := addr_t.heap (n + 1), ocomm := ic,
            ocomm_id := d * jr_nt w + (e * ir_nt w + 0),
            icomm := jr, icomm_id := e * ir_nt w + 0,
            n_way := w.jr, work_id := d, free_comms := true },
          { addr := addr_t.heap n, ocomm := jr, ocomm_id := e * ir_nt w + 0,
            icomm := ir, icomm_id := 0,
            n_way := w.ir, work_id := e, free_comms := true } ] := by
  rfl

theorem level_refs_chain_of (w : nways_t) (gc jc kc ic jr ir : thrcomm_t) (a b c d e : dim_t)
    (n : Nat) :
    level_refs (ideal_chain_of w gc jc kc ic jr ir a b c d e n)
      = [ (0, gc, ideal_global_comm_id w a b c d e),
          (1, jc, b * ideal_kc_nt w + (c * ideal_ic_nt w + (d * jr_nt w + (e * ir_nt w + 0)))),
          (2, kc, c * ideal_ic_nt w + (d * jr_nt w + (e * ir_nt w + 0))),
          (3, ic, d * jr_nt w + (e * ir_nt w + 0)),
          (4, jr, e * ir_nt w + 0),
          (5, ir, 0) ] := by
  rfl

theorem free_seven (n : Nat) (gc jc kc ic jr ir : thrcomm_t) (g i1 i2 i3 i4 : dim_t)
    (n6 n5 n4 n3 n2 n1 n0 w6 w5 w4 w3 w2 w1 w0 : dim_t) :
    bli_l3_thrinfo_free
        (thrinfo_t.node (addr_t.heap (n + 6)) gc g jc i1 n6 w6 true
          (thrinfo_t.node (addr_t.heap (n + 5)) jc i1 kc i2 n5 w5 true
            (thrinfo_t.node (addr_t.heap (n + 4)) kc i2 ic i3 n4 w4 false
              (thrinfo_t.node (addr_t.heap (n + 3)) kc i2 ic i3 n3 w3 true
                (thrinfo_t.node (addr_t.heap (n + 2)) ic i3 jr i4 n2 w2 false
                  (thrinfo_t.node (addr_t.heap (n + 1)) ic i3 jr i4 n1 w1 true
                    (thrinfo_t.node (addr_t.heap n) jr i4 ir 0 n0 w0 true
                      thrinfo_t.NULL)))))))
        free_init
      = { freed_comms :=
            (([(0, gc, g), (1, jc, i1), (2, kc, i2), (3, ic, i3), (4, jr, i4), (5, ir, 0)] :
                List (Nat × thrcomm_t × dim_t)).filter (fun e => e.2.2 = 0)).map (fun e => e.2.1)
          freed_nodes := (List.range 7).map (fun x => addr_t.heap (n + x))
          freed_arrays := 0
          structs := [] } := by
  have hr : (List.range 7).map (fun x => addr_t.heap (n + x))
      = [addr_t.heap n, addr_t.heap (n + 1), addr_t.heap (n + 2), addr_t.heap (n + 3),
         addr_t.heap (n + 4), addr_t.heap (n + 5), addr_t.heap (n + 6)] := by
    simp [List.range_succ]
  rw [hr]
  by_cases h0 : g = 0 <;> by_cases h1 : i1 = 0 <;> by_cases h2 : i2 = 0 <;>
    by_cases h3 : i3 = 0 <;> by_cases h4 : i4 = 0 <;>
    simp [bli_l3_thrinfo_free, am_chief, bli_thrcomm_free, bli_free_intl, free_init,
      h0, h1, h2, h3, h4, List.filter]

theorem free_chain_of (w : nways_t) (gc jc kc ic jr ir : thrcomm_t) (a b c d e : dim_t)
    (n : Nat) :
    (bli_l3_thrinfo_free (ideal_chain_of w gc jc kc ic jr ir a b c d e n) free_init).freed_comms
        = ((level_refs (ideal_chain_of w gc jc kc ic jr ir a b c d e n)).filter
            (fun e => e.2.2 = 0)).map (fun e => e.2.1) ∧
      (bli_l3_thrinfo_free (ideal_chain_of w gc jc kc ic jr ir a b c d e n) free_init).freed_nodes
        = (List.range 7).map (fun x => addr_t.heap (n + x)) := by
  rw [level_refs_chain_of]
  have h := free_seven n gc jc kc ic jr ir (ideal_global_comm_id w a b c d e)
    (b * ideal_kc_nt w + (c * ideal_ic_nt w + (d * jr_nt w + (e * ir_nt w + 0))))
    (c * ideal_ic_nt w + (d * jr_nt w + (e * ir_nt w + 0)))
    (d * jr_nt w + (e * ir_nt w + 0)) (e * ir_nt w + 0)
    w.jc w.kc (ideal_kc_nt w) w.ic (ideal_ic_nt w) w.jr w.ir
    a b (c * ideal_ic_nt w + (d * jr_nt w + (e * ir_nt w + 0))) c
    (d * jr_nt w + (e * ir_nt w + 0)) d e
  have h2 : bli_l3_thrinfo_free (ideal_chain_of w gc jc kc ic jr ir a b c d e n) free_init = _ := h
  rw [h2]
  exact ⟨rfl, rfl⟩

/-! ## Bookkeeping lemmas for the loop nest -/

theorem refs_for_append (cm : thrcomm_t) (l1 l2 : List (dim_t × thrinfo_t)) :
    refs_for cm (l1 ++ l2) = refs_for cm l1 ++ refs_for cm l2 := by
  simp [refs_for, List.flatMap_append]

theorem frees_of_append (l1 l2 : List (dim_t × thrinfo_t)) :
    frees_of (l1 ++ l2) = frees_of l1 ++ frees_of l2 := by
  simp [frees_of, List.flatMap_append]

theorem node_frees_of_append (l1 l2 : List (dim_t × thrinfo_t)) :
    node_frees_of (l1 ++ l2) = node_frees_of l1 ++ node_frees_of l2 := by
  simp [node_frees_of, List.flatMap_append]

theorem refs_for_nil_of_fresh (cm : thrcomm_t) (bound : Nat) (sts : List (dim_t × thrinfo_t))
    (h : ∀ st ∈ sts, ∀ e ∈ level_refs st.2, e.2.1.uid < bound) (hcm : bound ≤ cm.uid) :
    refs_for cm sts = [] := by
  unfold refs_for
  rw [List.flatMap_eq_nil_iff]
  intro st hst
  rw [List.filterMap_eq_nil_iff]
  intro e he
  have := h st hst e he
  have hne : e.2.1 ≠ cm := by
    intro heq
    rw [heq] at this
    omega
  simp [hne]

theorem book_uid_lt (s : build_t) (hb : book_ok s) (cm : thrcomm_t) (hcm : cm ∈ s.comms) :
    cm.uid < s.comms.length := by
  obtain ⟨k, hk, hget⟩ := List.getElem_of_mem hcm
  have h := hb.1 k cm (by rw [List.getElem?_eq_getElem hk, hget])
  omega

theorem book_uid_ge (pre cs : List thrcomm_t)
    (hb : ∀ (k : Nat) (cm : thrcomm_t), (pre ++ cs)[k]? = some cm → cm.uid = k)
    (cm : thrcomm_t) (hcm : cm ∈ cs) : pre.length ≤ cm.uid := by
  obtain ⟨k, hk, hget⟩ := List.getElem_of_mem hcm
  have h := hb (pre.length + k) cm (by
    rw [List.getElem?_append_right (by omega)]
    simp [List.getElem?_eq_getElem hk, hget])
  omega

theorem book_ok_create (n_threads : dim_t) (s : build_t) (hb : book_ok s) :
    book_ok (bli_thrcomm_create n_threads s).2 := by
  constructor
  · intro k cm hk
    simp only [bli_thrcomm_create] at hk
    by_cases hlt : k < s.comms.length
    · rw [List.getElem?_append_left hlt] at hk
      exact hb.1 k cm hk
    · rw [List.getElem?_append_right (by omega)] at hk
      have hk0 : k - s.comms.length = 0 := by
        by_contra hne
        have : ([{ uid := s.comms.length, n_threads := n_threads }] : List thrcomm_t)[k - s.comms.length]?
            = none := by
          apply List.getElem?_eq_none
          simp
          omega
        rw [this] at hk
        cases hk
      rw [hk0] at hk
      simp at hk
      rw [← hk]
      simp
      omega
  · intro st hst e he
    have := hb.2 st hst e he
    simp only [bli_thrcomm_create, List.length_append, List.length_singleton]
    omega

theorem pair_range_block (lv : Nat) (base : Int) (m n : Nat) :
    (List.range (m * n)).map (fun x : Nat => (lv, base + (x : Int)))
        ++ (List.range n).map (fun x : Nat => (lv, base + (m : Int) * (n : Int) + (x : Int)))
      = (List.range ((m + 1) * n)).map (fun x : Nat => (lv, base + (x : Int))) := by
  have h := congrArg (List.map (fun v : Int => (lv, v))) (range_block base m n)
  simpa [List.map_append, List.map_map, Function.comp] using h

/-! ## The innermost loop body as a level -/

theorem level_spec_path_body (w : nways_t) (gc jc kc ic jr : thrcomm_t) (a b c d e : dim_t)
    (hin : in_ranges w a b c d e)
    (hgc : gc.n_threads = ideal_global_num_threads w) (hjc : jc.n_threads = ideal_jc_nt w)
    (hkc : kc.n_threads = ideal_kc_nt w) (hic : ic.n_threads = ideal_ic_nt w)
    (hjr : jr.n_threads = jr_nt w) :
    level_spec (ideal_level_nt w) (ideal_store_ok w) 1
      [ (0, gc, ideal_global_comm_id w a b c d e),
        (1, jc, b * ideal_kc_nt w + (c * ideal_ic_nt w + (d * jr_nt w + (e * ir_nt w + 0)))),
        (2, kc, c * ideal_ic_nt w + (d * jr_nt w + (e * ir_nt w + 0))),
        (3, ic, d * jr_nt w + (e * ir_nt w + 0)),
        (4, jr, e * ir_nt w + 0) ]
      (ideal_path_body w gc jc kc ic jr a b c d e) := by
  intro s hb hold hnodup
  rw [path_body_eq]
  have hall : ∀ x ∈ List.map (fun e : Nat × thrcomm_t × dim_t => e.2.1)
      [ (0, gc, ideal_global_comm_id w a b c d e),
        (1, jc, b * ideal_kc_nt w + (c * ideal_ic_nt w + (d * jr_nt w + (e * ir_nt w + 0)))),
        (2, kc, c * ideal_ic_nt w + (d * jr_nt w + (e * ir_nt w + 0))),
        (3, ic, d * jr_nt w + (e * ir_nt w + 0)),
        (4, jr, e * ir_nt w + 0) ], x.uid < s.comms.length := by
    intro x hx
    rw [List.mem_map] at hx
    obtain ⟨y, hy, rfl⟩ := hx
    exact hold y hy
  simp only [List.map_cons, List.map_nil, List.mem_cons, List.mem_singleton, List.not_mem_nil,
    or_false, forall_eq_or_imp, forall_eq] at hall
  obtain ⟨hgo, hjo, hko, hio, hro⟩ := hall
  have hfresh : ∀ x : thrcomm_t, x.uid < s.comms.length →
      x ≠ { uid := s.comms.length, n_threads := ir_nt w } := by
    intro x hx heq
    rw [heq] at hx
    simp at hx
  simp only [List.map_cons, List.map_nil, List.nodup_cons, List.mem_cons, List.mem_singleton,
    List.not_mem_nil, or_false, not_or, List.nodup_nil, and_true] at hnodup
  obtain ⟨⟨n01, n02, n03, n04⟩, ⟨n12, n13, n14⟩, ⟨n23, n24⟩, n34, _⟩ := hnodup
  have hcreate := book_ok_create (ir_nt w) s hb
  refine ⟨⟨?_, ?_⟩, [{ uid := s.comms.length, n_threads := ir_nt w }], _, rfl, rfl, rfl,
    ?_, ?_, ?_, ?_, ?_⟩
  · exact hcreate.1
  · intro st hst x hx
    simp only [List.mem_append, List.mem_singleton] at hst
    simp only [List.length_append, List.length_singleton]
    rcases hst with hst | hst
    · have := hb.2 st hst x hx
      omega
    · subst hst
      rw [level_refs_chain_of] at hx
      simp only [List.mem_cons, List.mem_singleton, List.not_mem_nil, or_false] at hx
      rcases hx with rfl | rfl | rfl | rfl | rfl | rfl <;> simp <;> omega
  · intro st hst
    simp only [List.mem_singleton] at hst
    subst hst
    refine ⟨gc, jc, kc, ic, jr, _, a, b, c, d, e, s.n_nodes, rfl, hin, ?_, hgc, hjc, hkc, hic,
      hjr, rfl⟩
    simp only [List.nodup_cons, List.mem_cons, List.mem_singleton, List.not_mem_nil, or_false,
      not_or, List.nodup_nil, and_true]
    exact ⟨⟨n01, n02, n03, n04, hfresh gc hgo⟩, ⟨n12, n13, n14, hfresh jc hjo⟩,
      ⟨n23, n24, hfresh kc hko⟩, ⟨n34, hfresh ic hio⟩, hfresh jr hro, not_false⟩
  · intro _ _
    simp only [frees_of, List.flatMap_cons, List.flatMap_nil, List.append_nil]
    rw [(free_chain_of w gc jc kc ic jr _ a b c d e s.n_nodes).1, level_refs_chain_of]
    have hsplit : ([(0, gc, ideal_global_comm_id w a b c d e),
          (1, jc, b * ideal_kc_nt w + (c * ideal_ic_nt w + (d * jr_nt w + (e * ir_nt w + 0)))),
          (2, kc, c * ideal_ic_nt w + (d * jr_nt w + (e * ir_nt w + 0))),
          (3, ic, d * jr_nt w + (e * ir_nt w + 0)),
          (4, jr, e * ir_nt w + 0),
          (5, ({ uid := s.comms.length, n_threads := ir_nt w } : thrcomm_t), (0 : dim_t))] :
            List (Nat × thrcomm_t × dim_t))
        = [(0, gc, ideal_global_comm_id w a b c d e),
          (1, jc, b * ideal_kc_nt w + (c * ideal_ic_nt w + (d * jr_nt w + (e * ir_nt w + 0)))),
          (2, kc, c * ideal_ic_nt w + (d * jr_nt w + (e * ir_nt w + 0))),
          (3, ic, d * jr_nt w + (e * ir_nt w + 0)),
          (4, jr, e * ir_nt w + 0)]
          ++ [(5, ({ uid := s.comms.length, n_threads := ir_nt w } : thrcomm_t), (0 : dim_t))] :=
      rfl
    rw [hsplit, List.filter_append, List.map_append]
    rfl
  · intro x hx
    have hr1 : List.range 1 = [0] := rfl
    simp only [refs_for, List.flatMap_cons, List.flatMap_nil, List.append_nil,
      level_refs_chain_of, hr1, List.map_cons, List.map_nil]
    simp only [List.mem_cons, List.mem_singleton, List.not_mem_nil, or_false] at hx
    rcases hx with rfl | rfl | rfl | rfl | rfl
    · simp [List.filterMap, Ne.symm n01, Ne.symm n02, Ne.symm n03, Ne.symm n04,
        Ne.symm (hfresh _ hgo)]
    · simp [List.filterMap, n01, Ne.symm n12, Ne.symm n13, Ne.symm n14, Ne.symm (hfresh _ hjo)]
    · simp [List.filterMap, n02, n12, Ne.symm n23, Ne.symm n24, Ne.symm (hfresh _ hko)]
    · simp [List.filterMap, n03, n13, n23, Ne.symm n34, Ne.symm (hfresh _ hio)]
    · simp [List.filterMap, n04, n14, n24, n34, Ne.symm (hfresh _ hro)]
  · intro cm hcm hnot
    have hall : ∀ x ∈ List.map (fun e : Nat × thrcomm_t × dim_t => e.2.1)
        [ (0, gc, ideal_global_comm_id w a b c d e),
          (1, jc, b * ideal_kc_nt w + (c * ideal_ic_nt w + (d * jr_nt w + (e * ir_nt w + 0)))),
          (2, kc, c * ideal_ic_nt w + (d * jr_nt w + (e * ir_nt w + 0))),
          (3, ic, d * jr_nt w + (e * ir_nt w + 0)),
          (4, jr, e * ir_nt w + 0) ], x ≠ cm := by
      intro x hx
      rw [List.mem_map] at hx
      obtain ⟨y, hy, rfl⟩ := hx
      exact hnot y hy
    simp only [List.map_cons, List.map_nil, List.mem_cons, List.mem_singleton, List.not_mem_nil,
      or_false, forall_eq_or_imp, forall_eq] at hall
    obtain ⟨h0, h1, h2, h3, h4⟩ := hall
    simp only [refs_for, List.flatMap_cons, List.flatMap_nil, List.append_nil,
      level_refs_chain_of]
    simp [List.filterMap, h0, h1, h2, h3, h4, Ne.symm (hfresh cm hcm)]
  · intro cm hcm
    simp only [List.mem_singleton] at hcm
    subst hcm
    refine ⟨5, rfl, ?_⟩
    have hr1 : List.range (Int.toNat (ir_nt w)) = [0] := rfl
    simp only [refs_for, List.flatMap_cons, List.flatMap_nil, List.append_nil,
      level_refs_chain_of, hr1, List.map_cons, List.map_nil]
    simp [List.filterMap, hfresh gc hgo, hfresh jc hjo, hfresh kc hko, hfresh ic hio,
      hfresh jr hro]

/-! ## One level of the loop nest from the level inside it -/

theorem tracked_shift_comms (tracked : List (Nat × thrcomm_t × dim_t)) (lvY : Nat)
    (Y : thrcomm_t) (shift : dim_t) :
    (tracked.map (fun t => (t.1, t.2.1, t.2.2 + shift)) ++ [(lvY, Y, shift)]).map
        (fun e => e.2.1)
      = tracked.map (fun e => e.2.1) ++ [Y] := by
  simp [List.map_append, List.map_map, Function.comp]

theorem tracked_filter_zero (tracked : List (Nat × thrcomm_t × dim_t)) (lvY : Nat)
    (Y : thrcomm_t) :
    ((tracked.map (fun t => (t.1, t.2.1, t.2.2 + (0 : dim_t))) ++ [(lvY, Y, (0 : dim_t))]).filter
        (fun e => e.2.2 = 0)).map (fun e => e.2.1)
      = (tracked.filter (fun e => e.2.2 = 0)).map (fun e => e.2.1) ++ [Y] := by
  have h : tracked.map (fun t : Nat × thrcomm_t × dim_t => (t.1, t.2.1, t.2.2 + (0 : dim_t)))
      = tracked := by
    conv_rhs => rw [← List.map_id tracked]
    apply List.map_congr_left
    intro t _
    simp
  rw [h, List.filter_append, List.map_append]
  simp

theorem tracked_filter_pos (tracked : List (Nat × thrcomm_t × dim_t)) (lvY : Nat)
    (Y : thrcomm_t) (shift : dim_t) (hshift : 0 < shift) (hnn : ∀ e ∈ tracked, 0 ≤ e.2.2) :
    ((tracked.map (fun t => (t.1, t.2.1, t.2.2 + shift)) ++ [(lvY, Y, shift)]).filter
        (fun e => e.2.2 = 0)).map (fun e => e.2.1) = [] := by
  rw [List.map_eq_nil_iff, List.filter_eq_nil_iff]
  intro x hx
  rw [List.mem_append, List.mem_map, List.mem_singleton] at hx
  have hpos : 0 < x.2.2 := by
    rcases hx with ⟨t, ht, rfl⟩ | rfl
    · exact add_pos_of_nonneg_of_pos (hnn t ht) hshift
    · exact hshift
  simp only [decide_eq_true_eq]
  intro h0
  rw [h0] at hpos
  exact absurd hpos (by decide)

theorem level_loop (cnt : Nat → dim_t) (Q : dim_t × thrinfo_t → Prop) (n lvY : Nat)
    (tracked : List (Nat × thrcomm_t × dim_t)) (Y : thrcomm_t)
    (inner : dim_t → build_t → build_t) (m : Nat)
    (hinner : ∀ i : Nat, i < m →
      level_spec cnt Q n
        (tracked.map (fun t => (t.1, t.2.1, t.2.2 + (i : Int) * (n : Int)))
          ++ [(lvY, Y, (i : Int) * (n : Int))])
        (inner (i : Int)))
    (s1 : build_t) (hb1 : book_ok s1)
    (hold : ∀ e ∈ tracked, e.2.1.uid < s1.comms.length) (hY : Y.uid < s1.comms.length)
    (hnodup : (tracked.map (fun e => e.2.1) ++ [Y]).Nodup) :
    ∀ k : Nat, k ≤ m →
      book_ok (for_range (k : Int) inner s1) ∧
      ∃ (cs : List thrcomm_t) (sts : List (dim_t × thrinfo_t)),
        (for_range (k : Int) inner s1).comms = s1.comms ++ cs ∧
        (for_range (k : Int) inner s1).stores = s1.stores ++ sts ∧
        (k = 0 → cs = []) ∧
        sts.length = k * n ∧ (∀ st ∈ sts, Q st) ∧
        (1 ≤ n → (∀ e ∈ tracked, 0 ≤ e.2.2) →
          frees_of sts
            = (if k = 0 then []
               else (tracked.filter (fun e => e.2.2 = 0)).map (fun e => e.2.1) ++ [Y]) ++ cs) ∧
        (∀ e ∈ tracked,
          refs_for e.2.1 sts
            = (List.range (k * n)).map (fun x : Nat => (e.1, e.2.2 + (x : Int)))) ∧
        refs_for Y sts = (List.range (k * n)).map (fun x : Nat => (lvY, (x : Int))) ∧
        (∀ cm : thrcomm_t, cm.uid < s1.comms.length → (∀ e ∈ tracked, e.2.1 ≠ cm) → cm ≠ Y →
          refs_for cm sts = []) ∧
        (∀ cm ∈ cs, ∃ lv : Nat, cm.n_threads = cnt lv ∧
          refs_for cm sts
            = (List.range cm.n_threads.toNat).map (fun x : Nat => (lv, (x : Int)))) := by
  intro k
  induction k with
  | zero =>
    intro _
    rw [for_range_zero]
    refine ⟨hb1, [], [], by simp, by simp, fun _ => rfl, by simp, by simp, ?_, ?_, ?_, ?_, ?_⟩
    · intro _ _
      simp [frees_of]
    · intro e _
      simp [refs_for]
    · simp [refs_for]
    · intro cm _ _ _
      simp [refs_for]
    · intro cm hcm
      simp at hcm
  | succ k ih =>
    intro hk
    obtain ⟨hbk, cs, sts, hcs, hsts, hcs0, hlen, hQ, hfr, href, hrefY, hother, hnew⟩ :=
      ih (by omega)
    rw [for_range_succ]
    have hlenle : s1.comms.length ≤ (for_range (k : Int) inner s1).comms.length := by
      rw [hcs, List.length_append]
      omega
    have hspec := hinner k (by omega) (for_range (k : Int) inner s1) hbk
      (by
        intro e he
        have hmem : e.2.1 ∈ tracked.map (fun e => e.2.1) ++ [Y] := by
          rw [← tracked_shift_comms tracked lvY Y ((k : Int) * (n : Int))]
          exact List.mem_map_of_mem _ he
        rw [List.mem_append, List.mem_map, List.mem_singleton] at hmem
        rcases hmem with ⟨t, ht, hte⟩ | hY2
        · rw [← hte]
          have := hold t ht
          omega
        · rw [hY2]
          omega)
      (by rw [tracked_shift_comms]; exact hnodup)
    obtain ⟨hb2, cs2, sts2, hcs2, hsts2, hlen2, hQ2, hfr2, href2, hother2, hnew2⟩ := hspec
    have hnd := List.nodup_append.1 hnodup
    have hYnot : ∀ e ∈ tracked, e.2.1 ≠ Y := by
      intro e he heq
      have hm : Y ∈ tracked.map (fun e => e.2.1) := by
        rw [← heq]
        exact List.mem_map_of_mem (fun e => e.2.1) he
      exact hnd.2.2 hm (List.mem_singleton.2 rfl)
    refine ⟨hb2, cs ++ cs2, sts ++ sts2, ?_, ?_, ?_, ?_, ?_, ?_, ?_, ?_, ?_, ?_⟩
    · rw [hcs2, hcs, List.append_assoc]
    · rw [hsts2, hsts, List.append_assoc]
    · intro h
      omega
    · rw [List.length_append, hlen, hlen2]
      ring
    · intro st hst
      rw [List.mem_append] at hst
      rcases hst with h | h
      · exact hQ st h
      · exact hQ2 st h
    · intro hn hnn
      rw [frees_of_append, hfr hn hnn, hfr2 hn (by
        intro e he
        rw [List.mem_append, List.mem_map, List.mem_singleton] at he
        rcases he with ⟨t, ht, rfl⟩ | rfl
        · exact add_nonneg (hnn t ht) (mul_nonneg (Int.ofNat_nonneg k) (Int.ofNat_nonneg n))
        · exact mul_nonneg (Int.ofNat_nonneg k) (Int.ofNat_nonneg n))]
      by_cases hk0 : k = 0
      · subst hk0
        rw [hcs0 rfl]
        simp only [Nat.cast_zero, zero_mul, if_true, List.nil_append, Nat.zero_add,
          Nat.one_ne_zero, if_false]
        rw [tracked_filter_zero]
      · have hshift : (0 : Int) < (k : Int) * (n : Int) := by
          apply mul_pos
          · exact_mod_cast Nat.pos_of_ne_zero hk0
          · exact_mod_cast hn
        rw [tracked_filter_pos tracked lvY Y _ hshift hnn]
        simp [hk0]
    · intro e he
      rw [refs_for_append, href e he]
      have h2 := href2 (e.1, e.2.1, e.2.2 + (k : Int) * (n : Int))
        (List.mem_append_left _ (List.mem_map_of_mem _ he))
      simp only at h2
      rw [h2]
      exact pair_range_block e.1 e.2.2 k n
    · rw [refs_for_append, hrefY]
      have h2 := href2 (lvY, Y, (k : Int) * (n : Int))
        (List.mem_append_right _ (List.mem_singleton.2 rfl))
      simp only at h2
      rw [h2]
      have h3 := pair_range_block lvY 0 k n
      simpa using h3
    · intro cm hcm hnot hneY
      rw [refs_for_append, hother cm hcm hnot hneY, List.nil_append]
      apply hother2 cm (by omega)
      intro e he
      rw [List.mem_append, List.mem_map, List.mem_singleton] at he
      rcases he with ⟨t, ht, rfl⟩ | rfl
      · exact hnot t ht
      · exact fun h => hneY h.symm
    · intro cm hcm
      rw [List.mem_append] at hcm
      rcases hcm with hcm | hcm
      · obtain ⟨lv, hlv, hr⟩ := hnew cm hcm
        refine ⟨lv, hlv, ?_⟩
        rw [refs_for_append, hr]
        have hge : s1.comms.length ≤ cm.uid := by
          apply book_uid_ge s1.comms cs _ cm hcm
          rw [← hcs]
          exact hbk.1
        have hlt : cm.uid < (for_range (k : Int) inner s1).comms.length := by
          apply book_uid_lt _ hbk
          rw [hcs]
          exact List.mem_append_right _ hcm
        rw [hother2 cm hlt, List.append_nil]
        intro e he
        rw [List.mem_append, List.mem_map, List.mem_singleton] at he
        rcases he with ⟨t, ht, rfl⟩ | rfl
        · intro heq
          have := hold t ht
          simp only at heq
          rw [heq] at this
          omega
        · intro heq
          simp only at heq
          rw [heq] at hY
          omega
      · obtain ⟨lv, hlv, hr⟩ := hnew2 cm hcm
        refine ⟨lv, hlv, ?_⟩
        rw [refs_for_append, hr]
        have hge : (for_range (k : Int) inner s1).comms.length ≤ cm.uid := by
          apply book_uid_ge _ cs2 _ cm hcm
          rw [← hcs2]
          exact hb2.1
        rw [refs_for_nil_of_fresh cm _ sts _ hge, List.nil_append]
        intro st hst x hx
        apply hbk.2 st _ x hx
        rw [hsts]
        exact List.mem_append_right _ hst

theorem level_compose (cnt : Nat → dim_t) (Q : dim_t × thrinfo_t → Prop) (m n lvY : Nat)
    (cntY : dim_t) (hcntY : cntY = ((m * n : Nat) : Int)) (hlv : cnt lvY = cntY)
    (tracked : List (Nat × thrcomm_t × dim_t))
    (inner : thrcomm_t → dim_t → build_t → build_t)
    (hinner : ∀ Y : thrcomm_t, Y.n_threads = cntY → ∀ i : Nat, i < m →
      level_spec cnt Q n
        (tracked.map (fun t => (t.1, t.2.1, t.2.2 + (i : Int) * (n : Int)))
          ++ [(lvY, Y, (i : Int) * (n : Int))])
        (inner Y (i : Int))) :
    level_spec cnt Q (m * n) tracked
      (fun s => for_range (m : Int) (inner (bli_thrcomm_create cntY s).1)
        (bli_thrcomm_create cntY s).2) := by
  intro s hb hold hnodup
  have hY1 : (bli_thrcomm_create cntY s).1 = { uid := s.comms.length, n_threads := cntY } := rfl
  have hs1 : (bli_thrcomm_create cntY s).2.comms
      = s.comms ++ [{ uid := s.comms.length, n_threads := cntY }] := rfl
  have hs1s : (bli_thrcomm_create cntY s).2.stores = s.stores := rfl
  have hlen1 : (bli_thrcomm_create cntY s).2.comms.length = s.comms.length + 1 := by
    rw [hs1, List.length_append]
    rfl
  have hYnot : ∀ e ∈ tracked, e.2.1 ≠ (bli_thrcomm_create cntY s).1 := by
    intro e he heq
    have := hold e he
    rw [heq, hY1] at this
    simp at this
  have hloop := level_loop cnt Q n lvY tracked (bli_thrcomm_create cntY s).1
    (inner (bli_thrcomm_create cntY s).1) m
    (hinner (bli_thrcomm_create cntY s).1 rfl)
    (bli_thrcomm_create cntY s).2 (book_ok_create cntY s hb)
    (by
      intro e he
      have := hold e he
      omega)
    (by rw [hlen1, hY1]; simp)
    (by
      rw [List.nodup_append]
      refine ⟨hnodup, List.nodup_singleton _, ?_⟩
      intro x hx hx2
      rw [List.mem_singleton] at hx2
      rw [List.mem_map] at hx
      obtain ⟨e, he, hee⟩ := hx
      exact hYnot e he (hee.trans hx2))
    m (le_refl m)
  obtain ⟨hbm, cs, sts, hcs, hsts, _, hlen, hQ, hfr, href, hrefY, hother, hnew⟩ := hloop
  refine ⟨hbm, (bli_thrcomm_create cntY s).1 :: cs, sts, ?_, ?_, hlen, hQ, ?_, href, ?_, ?_⟩
  · rw [hcs, hs1, List.append_assoc]
    rfl
  · rw [hsts, hs1s]
  · intro hmn hnn
    have hm0 : m ≠ 0 := by
      intro h0
      rw [h0] at hmn
      simp at hmn
    have hn1 : 1 ≤ n := by
      rcases Nat.eq_zero_or_pos n with h0 | h0
      · rw [h0] at hmn
        simp at hmn
      · exact h0
    rw [hfr hn1 hnn, if_neg hm0, List.append_assoc]
    rfl
  · intro cm hcm hnot
    apply hother cm (by omega) hnot
    intro heq
    rw [heq, hY1] at hcm
    simp at hcm
  · intro cm hcm
    rw [List.mem_cons] at hcm
    rcases hcm with rfl | hcm
    · refine ⟨lvY, hlv.symm ▸ rfl, ?_⟩
      rw [hrefY]
      have : ((bli_thrcomm_create cntY s).1).n_threads.toNat = m * n := by
        rw [hY1, hcntY]
        exact Int.toNat_ofNat _
      rw [this]
    · exact hnew cm hcm

/-! ## The five loops as levels -/

theorem level_spec_jr_body (w : nways_t) (q : Nat) (hq : w.ir = (q : Int))
    (gc jc kc ic : thrcomm_t) (a b c d : dim_t)
    (ha : 0 ≤ a ∧ a < w.jc) (hb : 0 ≤ b ∧ b < w.kc) (hc : 0 ≤ c ∧ c < w.ic)
    (hd : 0 ≤ d ∧ d < w.jr)
    (hgc : gc.n_threads = ideal_global_num_threads w) (hjc : jc.n_threads = ideal_jc_nt w)
    (hkc : kc.n_threads = ideal_kc_nt w) (hic : ic.n_threads = ideal_ic_nt w) :
    level_spec (ideal_level_nt w) (ideal_store_ok w) q
      [ (0, gc, a * ideal_jc_nt w + (b * ideal_kc_nt w + (c * ideal_ic_nt w + d * jr_nt w))),
        (1, jc, b * ideal_kc_nt w + (c * ideal_ic_nt w + d * jr_nt w)),
        (2, kc, c * ideal_ic_nt w + d * jr_nt w),
        (3, ic, d * jr_nt w) ]
      (ideal_jr_body w gc jc kc ic a b c d) := by
  have hfun : ideal_jr_body w gc jc kc ic a b c d
      = fun s => for_range (q : Int)
          ((fun (Y : thrcomm_t) (e : dim_t) => ideal_path_body w gc jc kc ic Y a b c d e)
            (bli_thrcomm_create (jr_nt w) s).1)
          (bli_thrcomm_create (jr_nt w) s).2 := by
    funext s
    simp only [ideal_jr_body, hq]
  rw [hfun]
  have h := level_compose (ideal_level_nt w) (ideal_store_ok w) q 1 4 (jr_nt w)
    (by simp [jr_nt, hq]) rfl
    [ (0, gc, a * ideal_jc_nt w + (b * ideal_kc_nt w + (c * ideal_ic_nt w + d * jr_nt w))),
      (1, jc, b * ideal_kc_nt w + (c * ideal_ic_nt w + d * jr_nt w)),
      (2, kc, c * ideal_ic_nt w + d * jr_nt w),
      (3, ic, d * jr_nt w) ]
    (fun (Y : thrcomm_t) (e : dim_t) => ideal_path_body w gc jc kc ic Y a b c d e)
    (by
      intro Y hY e he
      have hin : in_ranges w a b c d (e : Int) := by
        refine ⟨ha, hb, hc, hd, Int.ofNat_nonneg e, ?_⟩
        rw [hq]
        exact_mod_cast he
      have hbase := level_spec_path_body w gc jc kc ic Y a b c d (e : Int) hin hgc hjc hkc hic hY
      have hlist : ([ (0, gc, a * ideal_jc_nt w + (b * ideal_kc_nt w + (c * ideal_ic_nt w + d * jr_nt w))),
            (1, jc, b * ideal_kc_nt w + (c * ideal_ic_nt w + d * jr_nt w)),
            (2, kc, c * ideal_ic_nt w + d * jr_nt w),
            (3, ic, d * jr_nt w) ] : List (Nat × thrcomm_t × dim_t)).map
              (fun t => (t.1, t.2.1, t.2.2 + (e : Int) * ((1 : Nat) : Int)))
            ++ [(4, Y, (e : Int) * ((1 : Nat) : Int))]
          = [ (0, gc, ideal_global_comm_id w a b c d (e : Int)),
              (1, jc, b * ideal_kc_nt w + (c * ideal_ic_nt w + (d * jr_nt w + ((e : Int) * ir_nt w + 0)))),
              (2, kc, c * ideal_ic_nt w + (d * jr_nt w + ((e : Int) * ir_nt w + 0))),
              (3, ic, d * jr_nt w + ((e : Int) * ir_nt w + 0)),
              (4, Y, (e : Int) * ir_nt w + 0) ] := by
        simp only [List.map_cons, List.map_nil, List.cons_append, List.nil_append,
          ideal_global_comm_id, ir_nt, Nat.cast_one, mul_one, add_zero, add_assoc]
      rw [hlist]
      exact hbase)
  rw [Nat.mul_one] at h
  exact h

theorem level_spec_ic_body (w : nways_t) (r q : Nat) (hr : w.jr = (r : Int))
    (hq : w.ir = (q : Int)) (gc jc kc : thrcomm_t) (a b c : dim_t)
    (ha : 0 ≤ a ∧ a < w.jc) (hb : 0 ≤ b ∧ b < w.kc) (hc : 0 ≤ c ∧ c < w.ic)
    (hgc : gc.n_threads = ideal_global_num_threads w) (hjc : jc.n_threads = ideal_jc_nt w)
    (hkc : kc.n_threads = ideal_kc_nt w) :
    level_spec (ideal_level_nt w) (ideal_store_ok w) (r * q)
      [ (0, gc, a * ideal_jc_nt w + (b * ideal_kc_nt w + c * ideal_ic_nt w)),
        (1, jc, b * ideal_kc_nt w + c * ideal_ic_nt w),
        (2, kc, c * ideal_ic_nt w) ]
      (ideal_ic_body w gc jc kc a b c) := by
  have hfun : ideal_ic_body w gc jc kc a b c
      = fun s => for_range (r : Int)
          ((fun (Y : thrcomm_t) (d : dim_t) => ideal_jr_body w gc jc kc Y a b c d)
            (bli_thrcomm_create (ideal_ic_nt w) s).1)
          (bli_thrcomm_create (ideal_ic_nt w) s).2 := by
    funext s
    simp only [ideal_ic_body, hr]
  rw [hfun]
  exact level_compose (ideal_level_nt w) (ideal_store_ok w) r q 3 (ideal_ic_nt w)
    (by simp [ideal_ic_nt, hr, hq]) rfl
    [ (0, gc, a * ideal_jc_nt w + (b * ideal_kc_nt w + c * ideal_ic_nt w)),
      (1, jc, b * ideal_kc_nt w + c * ideal_ic_nt w),
      (2, kc, c * ideal_ic_nt w) ]
    (fun (Y : thrcomm_t) (d : dim_t) => ideal_jr_body w gc jc kc Y a b c d)
    (by
      intro Y hY d hd
      have hdr : 0 ≤ (d : Int) ∧ (d : Int) < w.jr := by
        refine ⟨Int.ofNat_nonneg d, ?_⟩
        rw [hr]
        exact_mod_cast hd
      have hbase := level_spec_jr_body w q hq gc jc kc Y a b c (d : Int) ha hb hc hdr
        hgc hjc hkc hY
      have hjr : jr_nt w = (q : Int) := by simp [jr_nt, hq]
      have hlist : ([ (0, gc, a * ideal_jc_nt w + (b * ideal_kc_nt w + c * ideal_ic_nt w)),
            (1, jc, b * ideal_kc_nt w + c * ideal_ic_nt w),
            (2, kc, c * ideal_ic_nt w) ] : List (Nat × thrcomm_t × dim_t)).map
              (fun t => (t.1, t.2.1, t.2.2 + (d : Int) * (q : Int)))
            ++ [(3, Y, (d : Int) * (q : Int))]
          = [ (0, gc, a * ideal_jc_nt w + (b * ideal_kc_nt w + (c * ideal_ic_nt w + (d : Int) * jr_nt w))),
              (1, jc, b * ideal_kc_nt w + (c * ideal_ic_nt w + (d : Int) * jr_nt w)),
              (2, kc, c * ideal_ic_nt w + (d : Int) * jr_nt w),
              (3, Y, (d : Int) * jr_nt w) ] := by
        simp only [List.map_cons, List.map_nil, List.cons_append, List.nil_append, hjr,
          add_assoc]
      rw [hlist]
      exact hbase)

theorem level_spec_kc_body (w : nways_t) (i r q : Nat) (hi : w.ic = (i : Int))
    (hr : w.jr = (r : Int)) (hq : w.ir = (q : Int)) (gc jc : thrcomm_t) (a b : dim_t)
    (ha : 0 ≤ a ∧ a < w.jc) (hb : 0 ≤ b ∧ b < w.kc)
    (hgc : gc.n_threads = ideal_global_num_threads w) (hjc : jc.n_threads = ideal_jc_nt w) :
    level_spec (ideal_level_nt w) (ideal_store_ok w) (i * (r * q))
      [ (0, gc, a * ideal_jc_nt w + b * ideal_kc_nt w),
        (1, jc, b * ideal_kc_nt w) ]
      (ideal_kc_body w gc jc a b) := by
  have hfun : ideal_kc_body w gc jc a b
      = fun s => for_range (i : Int)
          ((fun (Y : thrcomm_t) (c : dim_t) => ideal_ic_body w gc jc Y a b c)
            (bli_thrcomm_create (ideal_kc_nt w) s).1)
          (bli_thrcomm_create (ideal_kc_nt w) s).2 := by
    funext s
    simp only [ideal_kc_body, hi]
  rw [hfun]
  exact level_compose (ideal_level_nt w) (ideal_store_ok w) i (r * q) 2 (ideal_kc_nt w)
    (by simp [ideal_kc_nt, hi, hr, hq]; ring) rfl
    [ (0, gc, a * ideal_jc_nt w + b * ideal_kc_nt w),
      (1, jc, b * ideal_kc_nt w) ]
    (fun (Y : thrcomm_t) (c : dim_t) => ideal_ic_body w gc jc Y a b c)
    (by
      intro Y hY c hc
      have hcr : 0 ≤ (c : Int) ∧ (c : Int) < w.ic := by
        refine ⟨Int.ofNat_nonneg c, ?_⟩
        rw [hi]
        exact_mod_cast hc
      have hbase := level_spec_ic_body w r q hr hq gc jc Y a b (c : Int) ha hb hcr hgc hjc hY
      have hic : ideal_ic_nt w = ((r * q : Nat) : Int) := by simp [ideal_ic_nt, hr, hq]
      have hlist : ([ (0, gc, a * ideal_jc_nt w + b * ideal_kc_nt w),
            (1, jc, b * ideal_kc_nt w) ] : List (Nat × thrcomm_t × dim_t)).map
              (fun t => (t.1, t.2.1, t.2.2 + (c : Int) * ((r * q : Nat) : Int)))
            ++ [(2, Y, (c : Int) * ((r * q : Nat) : Int))]
          = [ (0, gc, a * ideal_jc_nt w + (b * ideal_kc_nt w + (c : Int) * ideal_ic_nt w)),
              (1, jc, b * ideal_kc_nt w + (c : Int) * ideal_ic_nt w),
              (2, Y, (c : Int) * ideal_ic_nt w) ] := by
        simp only [List.map_cons, List.map_nil, List.cons_append, List.nil_append, hic,
          add_assoc]
      rw [hlist]
      exact hbase)

theorem level_spec_jc_body (w : nways_t) (k i r q : Nat) (hk : w.kc = (k : Int))
    (hi : w.ic = (i : Int)) (hr : w.jr = (r : Int)) (hq : w.ir = (q : Int))
    (gc : thrcomm_t) (a : dim_t) (ha : 0 ≤ a ∧ a < w.jc)
    (hgc : gc.n_threads = ideal_global_num_threads w) :
    level_spec (ideal_level_nt w) (ideal_store_ok w) (k * (i * (r * q)))
      [ (0, gc, a * ideal_jc_nt w) ]
      (ideal_jc_body w gc a) := by
  have hfun : ideal_jc_body w gc a
      = fun s => for_range (k : Int)
          ((fun (Y : thrcomm_t) (b : dim_t) => ideal_kc_body w gc Y a b)
            (bli_thrcomm_create (ideal_jc_nt w) s).1)
          (bli_thrcomm_create (ideal_jc_nt w) s).2 := by
    funext s
    simp only [ideal_jc_body, hk]
  rw [hfun]
  exact level_compose (ideal_level_nt w) (ideal_store_ok w) k (i * (r * q)) 1 (ideal_jc_nt w)
    (by simp [ideal_jc_nt, hk, hi, hr, hq]; ring) rfl
    [ (0, gc, a * ideal_jc_nt w) ]
    (fun (Y : thrcomm_t) (b : dim_t) => ideal_kc_body w gc Y a b)
    (by
      intro Y hY b hb
      have hbr : 0 ≤ (b : Int) ∧ (b : Int) < w.kc := by
        refine ⟨Int.ofNat_nonneg b, ?_⟩
        rw [hk]
        exact_mod_cast hb
      have hbase := level_spec_kc_body w i r q hi hr hq gc Y a (b : Int) ha hbr hgc hY
      have hkc : ideal_kc_nt w = ((i * (r * q) : Nat) : Int) := by
        simp [ideal_kc_nt, hi, hr, hq]; ring
      have hlist : ([ (0, gc, a * ideal_jc_nt w) ] : List (Nat × thrcomm_t × dim_t)).map
              (fun t => (t.1, t.2.1, t.2.2 + (b : Int) * ((i * (r * q) : Nat) : Int)))
            ++ [(1, Y, (b : Int) * ((i * (r * q) : Nat) : Int))]
          = [ (0, gc, a * ideal_jc_nt w + (b : Int) * ideal_kc_nt w),
              (1, Y, (b : Int) * ideal_kc_nt w) ] := by
        simp only [List.map_cons, List.map_nil, List.cons_append, List.nil_append, hkc]
      rw [hlist]
      exact hbase)

theorem level_spec_loops (w : nways_t) (j k i r q : Nat) (hj : w.jc = (j : Int))
    (hk : w.kc = (k : Int)) (hi : w.ic = (i : Int)) (hr : w.jr = (r : Int))
    (hq : w.ir = (q : Int)) :
    level_spec (ideal_level_nt w) (ideal_store_ok w) (j * (k * (i * (r * q)))) []
      (fun s => for_range w.jc
        (fun a => ideal_jc_body w (bli_thrcomm_create (ideal_global_num_threads w) s).1 a)
        (bli_thrcomm_create (ideal_global_num_threads w) s).2) := by
  rw [hj]
  exact level_compose (ideal_level_nt w) (ideal_store_ok w) j (k * (i * (r * q))) 0 (ideal_global_num_threads w)
    (by simp [ideal_global_num_threads, hj, hk, hi, hr, hq]; ring) rfl []
    (fun (Y : thrcomm_t) (a : dim_t) => ideal_jc_body w Y a)
    (by
      intro Y hY a ha
      have har : 0 ≤ (a : Int) ∧ (a : Int) < w.jc := by
        refine ⟨Int.ofNat_nonneg a, ?_⟩
        rw [hj]
        exact_mod_cast ha
      have hbase := level_spec_jc_body w k i r q hk hi hr hq Y (a : Int) har hY
      have hjc : ideal_jc_nt w = ((k * (i * (r * q)) : Nat) : Int) := by
        simp [ideal_jc_nt, hk, hi, hr, hq]; ring
      have hlist : ([] : List (Nat × thrcomm_t × dim_t)).map
              (fun t => (t.1, t.2.1, t.2.2 + (a : Int) * ((k * (i * (r * q)) : Nat) : Int)))
            ++ [(0, Y, (a : Int) * ((k * (i * (r * q)) : Nat) : Int))]
          = [ (0, Y, (a : Int) * ideal_jc_nt w) ] := by
        simp only [List.map_nil, List.nil_append, hjc]
      rw [hlist]
      exact hbase)

/-! ## Teardown of the whole array -/

/-- What tearing down a chain adds to the release log does not depend on the
log it starts from. -/
theorem free_append (t : thrinfo_t) (s : free_t) :
    (bli_l3_thrinfo_free t s).freed_comms
        = s.freed_comms ++ (bli_l3_thrinfo_free t free_init).freed_comms ∧
      (bli_l3_thrinfo_free t s).freed_nodes
        = s.freed_nodes ++ (bli_l3_thrinfo_free t free_init).freed_nodes ∧
      (bli_l3_thrinfo_free t s).freed_arrays = s.freed_arrays := by
  induction t generalizing s with
  | NULL => simp [bli_l3_thrinfo_free, free_init]
  | node addr oc oid ic iid nw wid fc sub ih =>
    by_cases hs : addr = addr_t.BLIS_PACKM_SINGLE_THREADED ∨ addr = addr_t.BLIS_GEMM_SINGLE_THREADED
    · simp [bli_l3_thrinfo_free, hs, free_init]
    · simp only [bli_l3_thrinfo_free, hs, if_false, bli_free_intl]
      have h1 := ih (if fc = true then
          if (sub = thrinfo_t.NULL ∧ am_chief iid = true) then
            bli_thrcomm_free ic (if am_chief oid = true then bli_thrcomm_free oc s else s)
          else (if am_chief oid = true then bli_thrcomm_free oc s else s)
        else s)
      have h2 := ih (if fc = true then
          if (sub = thrinfo_t.NULL ∧ am_chief iid = true) then
            bli_thrcomm_free ic (if am_chief oid = true then bli_thrcomm_free oc free_init
              else free_init)
          else (if am_chief oid = true then bli_thrcomm_free oc free_init else free_init)
        else free_init)
      rw [h1.1, h1.2.1, h1.2.2, h2.1, h2.2.1]
      cases fc <;> by_cases h3 : am_chief oid = true <;>
        by_cases h4 : (sub = thrinfo_t.NULL ∧ am_chief iid = true) <;>
        simp [h3, h4, bli_thrcomm_free, free_init]

/-- The release log after tearing down a list of chains one after the other. -/
theorem free_chains_fold (chains : List thrinfo_t) (s : free_t) :
    (chains.foldl (fun st t => bli_l3_thrinfo_free t st) s).freed_comms
        = s.freed_comms
          ++ chains.flatMap (fun t => (bli_l3_thrinfo_free t free_init).freed_comms) ∧
      (chains.foldl (fun st t => bli_l3_thrinfo_free t st) s).freed_nodes
        = s.freed_nodes
          ++ chains.flatMap (fun t => (bli_l3_thrinfo_free t free_init).freed_nodes) ∧
      (chains.foldl (fun st t => bli_l3_thrinfo_free t st) s).freed_arrays
        = s.freed_arrays := by
  induction chains generalizing s with
  | nil => simp
  | cons t rest ih =>
    rw [List.foldl_cons]
    obtain ⟨h1, h2, h3⟩ := ih (bli_l3_thrinfo_free t s)
    obtain ⟨g1, g2, g3⟩ := free_append t s
    rw [h1, h2, h3, g1, g2, g3]
    simp [List.flatMap_cons, List.append_assoc]

theorem free_paths_loop (chains : List thrinfo_t) (s : free_t) :
    ∀ k : Nat, k ≤ chains.length →
      for_range (k : Int) (free_paths_step (chains.map some)) (some s)
        = some ((chains.take k).foldl (fun st t => bli_l3_thrinfo_free t st) s) := by
  intro k
  induction k with
  | zero =>
    intro _
    rw [for_range_zero]
    rfl
  | succ k ih =>
    intro hk
    rw [for_range_succ, ih (by omega)]
    have hget : (chains.map some)[((k : Nat) : Int).toNat]? = some (some chains[k]) := by
      rw [Int.toNat_ofNat, List.getElem?_map, List.getElem?_eq_getElem (by omega)]
      rfl
    have hlt : k < chains.length := by omega
    have htake : chains.take (k + 1) = chains.take k ++ [chains[k]] := by
      rw [List.take_succ, List.getElem?_eq_getElem hlt]
      rfl
    simp only [free_paths_step, hget]
    rw [htake, List.foldl_append]
    rfl

theorem free_paths_eq (chains : List thrinfo_t) (num : dim_t)
    (hnum : num = (chains.length : Int)) (s : free_t) :
    ∃ f : free_t, bli_l3_thrinfo_free_paths (chains.map some) num s = some f ∧
      f.freed_comms = s.freed_comms
        ++ chains.flatMap (fun t => (bli_l3_thrinfo_free t free_init).freed_comms) ∧
      f.freed_nodes = s.freed_nodes
        ++ chains.flatMap (fun t => (bli_l3_thrinfo_free t free_init).freed_nodes) ∧
      f.freed_arrays = s.freed_arrays + 1 := by
  unfold bli_l3_thrinfo_free_paths
  dsimp only
  rw [hnum, free_paths_loop chains s chains.length (le_refl _), List.take_length]
  obtain ⟨h1, h2, h3⟩ := free_chains_fold chains s
  exact ⟨_, rfl, h1, h2, by rw [← h3]⟩

/-! ## Invariants of the stores that hold for all factors -/

/-- Every chain stored so far is a chain of the innermost loop body. -/
theorem shape_inv_loops (w : nways_t) (gc : thrcomm_t) (s : build_t)
    (hs : ∀ st ∈ s.stores, ∃ (c0 c1 c2 c3 c4 c5 : thrcomm_t) (a b c d e : dim_t) (n : Nat),
      st.2 = ideal_chain_of w c0 c1 c2 c3 c4 c5 a b c d e n) :
    ∀ st ∈ (for_range w.jc (fun a => ideal_jc_body w gc a) s).stores,
      ∃ (c0 c1 c2 c3 c4 c5 : thrcomm_t) (a b c d e : dim_t) (n : Nat),
        st.2 = ideal_chain_of w c0 c1 c2 c3 c4 c5 a b c d e n := by
  have hI : ∀ (n_threads : dim_t) (s0 : build_t),
      (∀ st ∈ s0.stores, ∃ (c0 c1 c2 c3 c4 c5 : thrcomm_t) (a b c d e : dim_t) (n : Nat),
        st.2 = ideal_chain_of w c0 c1 c2 c3 c4 c5 a b c d e n) →
      ∀ st ∈ (bli_thrcomm_create n_threads s0).2.stores,
        ∃ (c0 c1 c2 c3 c4 c5 : thrcomm_t) (a b c d e : dim_t) (n : Nat),
          st.2 = ideal_chain_of w c0 c1 c2 c3 c4 c5 a b c d e n := fun _ _ h => h
  apply for_range_inv (fun s0 : build_t => ∀ st ∈ s0.stores,
    ∃ (c0 c1 c2 c3 c4 c5 : thrcomm_t) (a b c d e : dim_t) (n : Nat),
      st.2 = ideal_chain_of w c0 c1 c2 c3 c4 c5 a b c d e n) _ _ _ _ hs
  intro a s1 h1
  unfold ideal_jc_body
  apply for_range_inv (fun s0 : build_t => ∀ st ∈ s0.stores,
    ∃ (c0 c1 c2 c3 c4 c5 : thrcomm_t) (a b c d e : dim_t) (n : Nat),
      st.2 = ideal_chain_of w c0 c1 c2 c3 c4 c5 a b c d e n) _ _ _ _ (hI _ s1 h1)
  intro b s2 h2
  unfold ideal_kc_body
  apply for_range_inv (fun s0 : build_t => ∀ st ∈ s0.stores,
    ∃ (c0 c1 c2 c3 c4 c5 : thrcomm_t) (a b c d e : dim_t) (n : Nat),
      st.2 = ideal_chain_of w c0 c1 c2 c3 c4 c5 a b c d e n) _ _ _ _ (hI _ s2 h2)
  intro c s3 h3
  unfold ideal_ic_body
  apply for_range_inv (fun s0 : build_t => ∀ st ∈ s0.stores,
    ∃ (c0 c1 c2 c3 c4 c5 : thrcomm_t) (a b c d e : dim_t) (n : Nat),
      st.2 = ideal_chain_of w c0 c1 c2 c3 c4 c5 a b c d e n) _ _ _ _ (hI _ s3 h3)
  intro d s4 h4
  unfold ideal_jr_body
  apply for_range_inv (fun s0 : build_t => ∀ st ∈ s0.stores,
    ∃ (c0 c1 c2 c3 c4 c5 : thrcomm_t) (a b c d e : dim_t) (n : Nat),
      st.2 = ideal_chain_of w c0 c1 c2 c3 c4 c5 a b c d e n) _ _ _ _ (hI _ s4 h4)
  intro e s5 h5 st hst
  rw [path_body_eq] at hst
  simp only [List.mem_append, List.mem_singleton] at hst
  rcases hst with hst | hst
  · exact h5 st hst
  · subst hst
    exact ⟨_, _, _, _, _, _, _, _, _, _, _, _, rfl⟩

theorem paths_of_mem (num : dim_t) (stores : List (dim_t × thrinfo_t)) (t : thrinfo_t)
    (ht : some t ∈ paths_of num stores) : ∃ st ∈ stores, st.2 = t := by
  unfold paths_of at ht
  have key : ∀ (l : List (dim_t × thrinfo_t)) (arr : List (Option thrinfo_t)),
      some t ∈ l.foldl
          (fun arr st =>
            if 0 ≤ st.1 ∧ st.1 < num then arr.set st.1.toNat (some st.2) else arr) arr →
      some t ∈ arr ∨ ∃ st ∈ l, st.2 = t := by
    intro l
    induction l with
    | nil =>
      intro arr h
      exact Or.inl h
    | cons x xs ih =>
      intro arr h
      rw [List.foldl_cons] at h
      rcases ih _ h with h1 | ⟨st, hst, hst2⟩
      · split at h1
        · rcases List.mem_or_eq_of_mem_set h1 with h2 | h2
          · exact Or.inl h2
          · exact Or.inr ⟨x, List.mem_cons_self _ _, (Option.some.inj h2).symm⟩
        · exact Or.inl h1
      · exact Or.inr ⟨st, List.mem_cons_of_mem _ hst, hst2⟩
  rcases key stores _ ht with h | h
  · rw [List.mem_replicate] at h
    cases h.2
  · exact h

/-! ## What the loop nest leaves behind -/

theorem node_frees_inv_loops (w : nways_t) (gc : thrcomm_t) (s : build_t)
    (hs : node_frees_of s.stores = (List.range s.n_nodes).map addr_t.heap) :
    node_frees_of (for_range w.jc (fun a => ideal_jc_body w gc a) s).stores
      = (List.range (for_range w.jc (fun a => ideal_jc_body w gc a) s).n_nodes).map addr_t.heap := by
  apply for_range_inv
    (fun s0 : build_t => node_frees_of s0.stores = (List.range s0.n_nodes).map addr_t.heap)
    _ _ _ _ hs
  intro a s1 h1
  dsimp only [ideal_jc_body]
  apply for_range_inv
    (fun s0 : build_t => node_frees_of s0.stores = (List.range s0.n_nodes).map addr_t.heap)
    _ _ _ _ (show node_frees_of (bli_thrcomm_create (ideal_jc_nt w) _).2.stores
      = (List.range (bli_thrcomm_create (ideal_jc_nt w) _).2.n_nodes).map addr_t.heap from h1)
  intro b s2 h2
  dsimp only [ideal_kc_body]
  apply for_range_inv
    (fun s0 : build_t => node_frees_of s0.stores = (List.range s0.n_nodes).map addr_t.heap)
    _ _ _ _ (show node_frees_of (bli_thrcomm_create (ideal_kc_nt w) _).2.stores
      = (List.range (bli_thrcomm_create (ideal_kc_nt w) _).2.n_nodes).map addr_t.heap from h2)
  intro c s3 h3
  dsimp only [ideal_ic_body]
  apply for_range_inv
    (fun s0 : build_t => node_frees_of s0.stores = (List.range s0.n_nodes).map addr_t.heap)
    _ _ _ _ (show node_frees_of (bli_thrcomm_create (ideal_ic_nt w) _).2.stores
      = (List.range (bli_thrcomm_create (ideal_ic_nt w) _).2.n_nodes).map addr_t.heap from h3)
  intro d s4 h4
  dsimp only [ideal_jr_body]
  apply for_range_inv
    (fun s0 : build_t => node_frees_of s0.stores = (List.range s0.n_nodes).map addr_t.heap)
    _ _ _ _ (show node_frees_of (bli_thrcomm_create (jr_nt w) _).2.stores
      = (List.range (bli_thrcomm_create (jr_nt w) _).2.n_nodes).map addr_t.heap from h4)
  intro e s5 h5
  rw [path_body_eq]
  simp only [node_frees_of_append, h5]
  simp only [node_frees_of, List.flatMap_cons, List.flatMap_nil, List.append_nil,
    (free_chain_of _ _ _ _ _ _ _ _ _ _ _ _ _).2]
  rw [List.range_add, List.map_append, List.map_map]
  rfl

theorem one_le_of_nonneg_of_ne_zero (x : Int) (h0 : 0 ≤ x) (hne : x ≠ 0) : 1 ≤ x := by
  omega

theorem create_paths_levels (w : nways_t)
    (hw : 1 ≤ w.jc ∧ 1 ≤ w.kc ∧ 1 ≤ w.ic ∧ 1 ≤ w.jr ∧ 1 ≤ w.ir) :
    ∃ r, ideal_create_paths_from w = some r ∧
      r.paths = r.final.stores.map (fun st => some st.2) ∧
      r.final.stores.length = (ideal_global_num_threads w).toNat ∧
      book_ok r.final ∧
      (∀ st ∈ r.final.stores, ideal_store_ok w st) ∧
      frees_of r.final.stores = r.final.comms ∧
      (∀ cm ∈ r.final.comms, ∃ lv : Nat, cm.n_threads = ideal_level_nt w lv ∧
        refs_for cm r.final.stores
          = (List.range cm.n_threads.toNat).map (fun x : Nat => (lv, (x : Int)))) ∧
      node_frees_of r.final.stores = (List.range r.final.n_nodes).map addr_t.heap := by
  obtain ⟨r, hr, _, hidx, hpaths, _⟩ := create_paths_from_spec w hw
  have hN := global_num_threads_pos w hw
  have hN0 : ideal_global_num_threads w ≠ 0 := by
    intro h0; rw [h0] at hN; exact absurd hN (by decide)
  obtain ⟨hj, hk, hi, hr1, hq⟩ := hw
  obtain ⟨j, ej⟩ := Int.eq_ofNat_of_zero_le (le_trans Int.one_nonneg hj)
  obtain ⟨k, ek⟩ := Int.eq_ofNat_of_zero_le (le_trans Int.one_nonneg hk)
  obtain ⟨i, ei⟩ := Int.eq_ofNat_of_zero_le (le_trans Int.one_nonneg hi)
  obtain ⟨r0, er⟩ := Int.eq_ofNat_of_zero_le (le_trans Int.one_nonneg hr1)
  obtain ⟨q, eq⟩ := Int.eq_ofNat_of_zero_le (le_trans Int.one_nonneg hq)
  have eN : ideal_global_num_threads w = ((j * (k * (i * (r0 * q))) : Nat) : Int) := by
    simp only [ideal_global_num_threads, ej, ek, ei, er, eq]; push_cast; ring
  have hinit : book_ok { comms := [], n_nodes := 0, stores := [] } := by
    constructor
    · intro k0 cm h
      simp at h
    · intro st hst
      simp at hst
  have hspec := level_spec_loops w j k i r0 q ej ek ei er eq
    { comms := [], n_nodes := 0, stores := [] } hinit (by simp) (by simp)
  obtain ⟨hbk, cs, sts, hcs, hsts, hlen, hQ, hfr, _, _, hnew⟩ := hspec
  unfold ideal_create_paths_from at hr ⊢
  rw [if_neg hN0] at hr ⊢
  injection hr with hr
  subst hr
  simp only [List.nil_append] at hcs hsts
  have hpos : 1 ≤ j * (k * (i * (r0 * q))) := by
    have : (1 : Int) ≤ ((j * (k * (i * (r0 * q))) : Nat) : Int) := by
      rw [← eN]; exact hN
    exact_mod_cast this
  refine ⟨_, rfl, hpaths, ?_, hbk, ?_, ?_, ?_, ?_⟩
  · rw [hsts, hlen, eN, Int.toNat_ofNat]
  · rw [hsts]
    exact hQ
  · rw [hsts, hcs]
    have := hfr hpos (by simp)
    simpa using this
  · rw [hsts, hcs]
    exact hnew
  · exact node_frees_inv_loops w _ _ (by simp [node_frees_of, bli_thrcomm_create])

/-! ## Reading the communicators of the chains -/

theorem chains_of_map_some (l : List thrinfo_t) : chains_of (l.map some) = l := by
  induction l with
  | nil => rfl
  | cons x xs ih =>
    simp only [chains_of] at ih
    simp [chains_of, ih]

theorem chains_of_stores (sts : List (dim_t × thrinfo_t)) :
    chains_of (sts.map (fun st => some st.2)) = sts.map Prod.snd := by
  have h : sts.map (fun st => some st.2) = (sts.map Prod.snd).map some := by
    rw [List.map_map]; rfl
  rw [h, chains_of_map_some]

theorem comms_nodup_of_book (s : build_t) (h : book_ok s) : s.comms.Nodup := by
  rw [List.nodup_iff_getElem?_ne_getElem?]
  intro i j hij hj heq
  have hi : i < s.comms.length := lt_trans hij hj
  have e1 : s.comms[i]? = some s.comms[i] := List.getElem?_eq_getElem hi
  have h1 := h.1 i s.comms[i] e1
  have h2 := h.1 j s.comms[i] (by rw [← heq]; exact e1)
  rw [h1] at h2
  exact absurd h2 (Nat.ne_of_lt hij)

theorem holds_seven (gc jc kc ic jr ir cm : thrcomm_t) (g i1 i2 i3 i4 : dim_t)
    (hnd : [gc, jc, kc, ic, jr, ir].Nodup) :
    (((([(gc, g), (jc, i1), (jc, i1), (kc, i2), (kc, i2), (ic, i3), (kc, i2), (ic, i3),
          (ic, i3), (jr, i4), (ic, i3), (jr, i4), (jr, i4), (ir, 0)] :
          List (thrcomm_t × dim_t)).find? (fun p => p.1 = cm)).map Prod.snd).toList)
      = ((([(0, gc, g), (1, jc, i1), (2, kc, i2), (3, ic, i3), (4, jr, i4), (5, ir, 0)] :
          List (Nat × thrcomm_t × dim_t)).filterMap
            (fun e => if e.2.1 = cm then some (e.1, e.2.2) else none)).map Prod.snd) := by
  simp only [List.nodup_cons, List.mem_cons, List.mem_singleton, not_or, List.not_mem_nil,
    not_false_eq_true, List.nodup_nil, and_true] at hnd
  obtain ⟨⟨n01, n02, n03, n04, n05⟩, ⟨n12, n13, n14, n15⟩, ⟨n23, n24, n25⟩, ⟨n34, n35⟩, n45⟩ := hnd
  by_cases h0 : gc = cm
  · subst h0
    simp [Ne.symm n01, Ne.symm n02, Ne.symm n03, Ne.symm n04, Ne.symm n05]
  by_cases h1 : jc = cm
  · subst h1
    simp [h0, n01, Ne.symm n12, Ne.symm n13, Ne.symm n14, Ne.symm n15]
  by_cases h2 : kc = cm
  · subst h2
    simp [h0, h1, n02, n12, Ne.symm n23, Ne.symm n24, Ne.symm n25]
  by_cases h3 : ic = cm
  · subst h3
    simp [h0, h1, h2, n03, n13, n23, Ne.symm n34, Ne.symm n35]
  by_cases h4 : jr = cm
  · subst h4
    simp [h0, h1, h2, h3, n04, n14, n24, n34, Ne.symm n45]
  by_cases h5 : ir = cm
  · subst h5
    simp [h0, h1, h2, h3, h4, n05, n15, n25, n35, n45]
  · simp [h0, h1, h2, h3, h4, h5]

theorem holds_chain_of (w : nways_t) (gc jc kc ic jr ir cm : thrcomm_t) (a b c d e : dim_t)
    (n : Nat) (hnd : [gc, jc, kc, ic, jr, ir].Nodup) :
    (holds_id (ideal_chain_of w gc jc kc ic jr ir a b c d e n) cm).toList
      = ((level_refs (ideal_chain_of w gc jc kc ic jr ir a b c d e n)).filterMap
          (fun e => if e.2.1 = cm then some (e.1, e.2.2) else none)).map Prod.snd := by
  have h := holds_seven gc jc kc ic jr ir cm (ideal_global_comm_id w a b c d e)
    (b * ideal_kc_nt w + (c * ideal_ic_nt w + (d * jr_nt w + (e * ir_nt w + 0))))
    (c * ideal_ic_nt w + (d * jr_nt w + (e * ir_nt w + 0)))
    (d * jr_nt w + (e * ir_nt w + 0)) (e * ir_nt w + 0) hnd
  exact h

theorem holds_ids_eq (w : nways_t) (sts : List (dim_t × thrinfo_t))
    (hok : ∀ st ∈ sts, ideal_store_ok w st) (cm : thrcomm_t) :
    (sts.map Prod.snd).filterMap (fun t => holds_id t cm) = (refs_for cm sts).map Prod.snd := by
  induction sts with
  | nil => rfl
  | cons x xs ih =>
    have ih2 := ih (fun st hst => hok st (List.mem_cons_of_mem _ hst))
    obtain ⟨gc, jc, kc, ic, jr, ir, a, b, c, d, e, n, hx, _, hnd, _⟩ :=
      hok x (List.mem_cons_self _ _)
    have hx2 : x.2 = ideal_chain_of w gc jc kc ic jr ir a b c d e n := by rw [hx]
    have hb := holds_chain_of w gc jc kc ic jr ir cm a b c d e n hnd
    rw [← hx2] at hb
    have hsplit : refs_for cm (x :: xs)
        = (level_refs x.2).filterMap (fun e => if e.2.1 = cm then some (e.1, e.2.2) else none)
          ++ refs_for cm xs := by
      simp [refs_for]
    rw [hsplit, List.map_append, ← hb, ← ih2, List.map_cons, List.filterMap_cons]
    cases hh : holds_id x.2 cm <;> simp
theorem consist_seven (gc jc kc ic jr ir : thrcomm_t) (g i1 i2 i3 i4 : dim_t)
    (hnd : [gc, jc, kc, ic, jr, ir].Nodup) :
    ∀ p ∈ ([(gc, g), (jc, i1), (jc, i1), (kc, i2), (kc, i2), (ic, i3), (kc, i2), (ic, i3),
          (ic, i3), (jr, i4), (ic, i3), (jr, i4), (jr, i4), (ir, 0)] :
          List (thrcomm_t × dim_t)),
      (([(gc, g), (jc, i1), (jc, i1), (kc, i2), (kc, i2), (ic, i3), (kc, i2), (ic, i3),
          (ic, i3), (jr, i4), (ic, i3), (jr, i4), (jr, i4), (ir, 0)] :
          List (thrcomm_t × dim_t)).find? (fun q => q.1 = p.1)).map Prod.snd = some p.2 := by
  simp only [List.nodup_cons, List.mem_cons, List.mem_singleton, not_or, List.not_mem_nil,
    not_false_eq_true, List.nodup_nil, and_true] at hnd
  obtain ⟨⟨n01, n02, n03, n04, n05⟩, ⟨n12, n13, n14, n15⟩, ⟨n23, n24, n25⟩, ⟨n34, n35⟩, n45⟩ := hnd
  intro p hp
  simp only [List.mem_cons, List.mem_singleton, List.not_mem_nil, or_false] at hp
  rcases hp with h | h | h | h | h | h | h | h | h | h | h | h | h | h <;> subst h <;>
    simp [n01, n02, n03, n04, n05, n12, n13, n14, n15, n23, n24, n25, n34, n35, n45]

theorem consist_chain_of (w : nways_t) (gc jc kc ic jr ir : thrcomm_t) (a b c d e : dim_t)
    (n : Nat) (hnd : [gc, jc, kc, ic, jr, ir].Nodup) :
    ∀ p ∈ chain_refs (ideal_chain_of w gc jc kc ic jr ir a b c d e n),
      holds_id (ideal_chain_of w gc jc kc ic jr ir a b c d e n) p.1 = some p.2 := by
  have h := consist_seven gc jc kc ic jr ir (ideal_global_comm_id w a b c d e)
    (b * ideal_kc_nt w + (c * ideal_ic_nt w + (d * jr_nt w + (e * ir_nt w + 0))))
    (c * ideal_ic_nt w + (d * jr_nt w + (e * ir_nt w + 0)))
    (d * jr_nt w + (e * ir_nt w + 0)) (e * ir_nt w + 0) hnd
  exact h

theorem count_filterMap_some {α β : Type} [DecidableEq β] (f : α → Option β) (l : List α)
    (b : β) : (l.filter (fun x => f x = some b)).length = (l.filterMap f).count b := by
  induction l with
  | nil => rfl
  | cons x xs ih =>
    rw [List.filterMap_cons, List.filter_cons]
    cases h : f x with
    | none => simp [ih]
    | some v =>
      by_cases hv : v = b
      · subst hv; simp [ih]
      · rw [List.count_cons_of_ne (Ne.symm hv)]
        simp [hv, ih]

theorem length_filter_isSome {α β : Type} (f : α → Option β) (l : List α) :
    (l.filter (fun x => (f x).isSome)).length = (l.filterMap f).length := by
  induction l with
  | nil => rfl
  | cons x xs ih =>
    rw [List.filterMap_cons, List.filter_cons]
    cases h : f x <;> simp [ih]

theorem level_nt_pos (w : nways_t)
    (hw : 1 ≤ w.jc ∧ 1 ≤ w.kc ∧ 1 ≤ w.ic ∧ 1 ≤ w.jr ∧ 1 ≤ w.ir) (lv : Nat) :
    1 ≤ ideal_level_nt w lv := by
  obtain ⟨hj, hk, hi, hr, hq⟩ := hw
  have h4 : 1 ≤ jr_nt w := hq
  have h3 : 1 ≤ ideal_ic_nt w := one_le_mul_int _ _ hr hq
  have h2 : 1 ≤ ideal_kc_nt w := one_le_mul_int _ _ (one_le_mul_int _ _ hi hr) hq
  have h1 : 1 ≤ ideal_jc_nt w :=
    one_le_mul_int _ _ (one_le_mul_int _ _ (one_le_mul_int _ _ hk hi) hr) hq
  have h0 : 1 ≤ ideal_global_num_threads w :=
    one_le_mul_int _ _
      (one_le_mul_int _ _ (one_le_mul_int _ _ (one_le_mul_int _ _ hj hk) hi) hr) hq
  have h5 : (1 : Int) ≤ ir_nt w := le_refl 1
  rcases lv with _ | _ | _ | _ | _ | lv
  · exact h0
  · exact h1
  · exact h2
  · exact h3
  · exact h4
  · exact h5

/-! ## Group sizes and ranks -/

/-! ## Teardown after construction -/

theorem free_nodes_perm_chain_of (w : nways_t) (gc jc kc ic jr ir : thrcomm_t)
    (a b c d e : dim_t) (n : Nat) :
    ((bli_l3_thrinfo_free (ideal_chain_of w gc jc kc ic jr ir a b c d e n) free_init).freed_nodes).Perm
      ((chain_nodes (ideal_chain_of w gc jc kc ic jr ir a b c d e n)).map (fun nd => nd.addr)) := by
  rw [(free_chain_of w gc jc kc ic jr ir a b c d e n).2, chain_nodes_chain_of]
  have h1 : (List.range 7).map (fun x => addr_t.heap (n + x))
      = [addr_t.heap n, addr_t.heap (n + 1), addr_t.heap (n + 2), addr_t.heap (n + 3),
         addr_t.heap (n + 4), addr_t.heap (n + 5), addr_t.heap (n + 6)] := by
    simp [List.range_succ]
  rw [h1]
  exact (List.reverse_perm
    [addr_t.heap n, addr_t.heap (n + 1), addr_t.heap (n + 2), addr_t.heap (n + 3),
      addr_t.heap (n + 4), addr_t.heap (n + 5), addr_t.heap (n + 6)]).symm

/-! ## The chains reference created communicators only -/

theorem refs_in_create (tr : List thrcomm_t) (n_threads : dim_t) (s : build_t)
    (h : refs_in tr s) :
    refs_in ((bli_thrcomm_create n_threads s).1 :: tr) (bli_thrcomm_create n_threads s).2 := by
  obtain ⟨h1, h2⟩ := h
  constructor
  · intro st hst e he
    exact List.mem_append_left _ (h1 st hst e he)
  · intro cm hcm
    rcases List.mem_cons.1 hcm with hc | hc
    · rw [hc]
      exact List.mem_append_right _ (List.mem_singleton.2 rfl)
    · exact List.mem_append_left _ (h2 cm hc)

theorem refs_in_tail (c0 : thrcomm_t) (tr : List thrcomm_t) (s : build_t)
    (h : refs_in (c0 :: tr) s) : refs_in tr s :=
  ⟨h.1, fun cm hcm => h.2 cm (List.mem_cons_of_mem _ hcm)⟩

theorem refs_in_path_body (w : nways_t) (gc jc kc ic jr : thrcomm_t) (a b c d e : dim_t)
    (s : build_t) (h : refs_in [jr, ic, kc, jc, gc] s) :
    refs_in [jr, ic, kc, jc, gc] (ideal_path_body w gc jc kc ic jr a b c d e s) := by
  obtain ⟨h1, h2⟩ := h
  rw [path_body_eq]
  constructor
  · intro st hst e0 he
    simp only [List.mem_append, List.mem_singleton] at hst
    rcases hst with hst | hst
    · exact List.mem_append_left _ (h1 st hst e0 he)
    · subst hst
      rw [level_refs_chain_of] at he
      simp only [List.mem_cons, List.mem_singleton, List.not_mem_nil, or_false] at he
      rcases he with h | h | h | h | h | h <;> subst h
      · exact List.mem_append_left _ (h2 gc (by simp))
      · exact List.mem_append_left _ (h2 jc (by simp))
      · exact List.mem_append_left _ (h2 kc (by simp))
      · exact List.mem_append_left _ (h2 ic (by simp))
      · exact List.mem_append_left _ (h2 jr (by simp))
      · exact List.mem_append_right _ (List.mem_singleton.2 rfl)
  · intro cm hcm
    exact List.mem_append_left _ (h2 cm hcm)

theorem refs_in_loops (w : nways_t) (gc : thrcomm_t) (s : build_t) (hs : refs_in [gc] s) :
    refs_in [gc] (for_range w.jc (fun a => ideal_jc_body w gc a) s) := by
  apply for_range_inv (refs_in [gc]) _ _ _ _ hs
  intro a s1 h1
  dsimp only [ideal_jc_body]
  apply refs_in_tail
  apply for_range_inv (refs_in (_ :: [gc])) _ _ _ _ (refs_in_create _ (ideal_jc_nt w) _ h1)
  intro b s2 h2
  dsimp only [ideal_kc_body]
  apply refs_in_tail
  apply for_range_inv (refs_in (_ :: _ :: [gc])) _ _ _ _ (refs_in_create _ (ideal_kc_nt w) _ h2)
  intro c s3 h3
  dsimp only [ideal_ic_body]
  apply refs_in_tail
  apply for_range_inv (refs_in (_ :: _ :: _ :: [gc])) _ _ _ _ (refs_in_create _ (ideal_ic_nt w) _ h3)
  intro d s4 h4
  dsimp only [ideal_jr_body]
  apply refs_in_tail
  apply for_range_inv (refs_in (_ :: _ :: _ :: _ :: [gc])) _ _ _ _
    (refs_in_create _ (jr_nt w) _ h4)
  intro e s5 h5
  exact refs_in_path_body w gc _ _ _ _ a b c d e s5 h5

/-! ## Work assignment -/

theorem pack_chain_of (w : nways_t) (gc jc kc ic jr ir cm : thrcomm_t) (a b c d e : dim_t)
    (n : Nat) :
    packm_work_ids (ideal_chain_of w gc jc kc ic jr ir a b c d e n) cm
      = (((level_refs (ideal_chain_of w gc jc kc ic jr ir a b c d e n)).filterMap
          (fun e => if e.2.1 = cm then some (e.1, e.2.2) else none)).filter
            (fun p => p.1 = 2 ∨ p.1 = 3)).map Prod.snd := by
  rw [level_refs_chain_of]
  unfold packm_work_ids
  rw [chain_nodes_chain_of]
  by_cases h0 : gc = cm <;> by_cases h1 : jc = cm <;> by_cases h2 : kc = cm <;>
    by_cases h3 : ic = cm <;> by_cases h4 : jr = cm <;> by_cases h5 : ir = cm <;>
    simp [h0, h1, h2, h3, h4, h5, List.filter_cons, List.filterMap_cons]

theorem pack_ids_eq (w : nways_t) (sts : List (dim_t × thrinfo_t))
    (hok : ∀ st ∈ sts, ideal_store_ok w st) (cm : thrcomm_t) :
    (sts.map Prod.snd).flatMap (fun t => packm_work_ids t cm)
      = ((refs_for cm sts).filter (fun p => p.1 = 2 ∨ p.1 = 3)).map Prod.snd := by
  induction sts with
  | nil => rfl
  | cons x xs ih =>
    have ih2 := ih (fun st hst => hok st (List.mem_cons_of_mem _ hst))
    obtain ⟨gc, jc, kc, ic, jr, ir, a, b, c, d, e, n, hx, _⟩ := hok x (List.mem_cons_self _ _)
    have hx2 : x.2 = ideal_chain_of w gc jc kc ic jr ir a b c d e n := by rw [hx]
    have hb := pack_chain_of w gc jc kc ic jr ir cm a b c d e n
    rw [← hx2] at hb
    have hsplit : refs_for cm (x :: xs)
        = (level_refs x.2).filterMap (fun e => if e.2.1 = cm then some (e.1, e.2.2) else none)
          ++ refs_for cm xs := by
      simp [refs_for]
    rw [hsplit, List.filter_append, List.map_append, ← hb, ← ih2, List.map_cons,
      List.flatMap_cons]

theorem level_of_ref (cm : thrcomm_t) (sts : List (dim_t × thrinfo_t)) (lv n : Nat)
    (hrefs : refs_for cm sts = (List.range n).map (fun x : Nat => (lv, (x : Int))))
    (st : dim_t × thrinfo_t) (hst : st ∈ sts) (e : Nat × thrcomm_t × dim_t)
    (he : e ∈ level_refs st.2) (hecm : e.2.1 = cm) : e.1 = lv := by
  have hmem : (e.1, e.2.2) ∈ refs_for cm sts := by
    unfold refs_for
    exact List.mem_flatMap.2 ⟨st, hst, List.mem_filterMap.2 ⟨e, he, by rw [if_pos hecm]⟩⟩
  rw [hrefs, List.mem_map] at hmem
  obtain ⟨x, _, hx⟩ := hmem
  exact (congrArg Prod.fst hx).symm

theorem pack_ids_group (w : nways_t) (sts : List (dim_t × thrinfo_t))
    (hok : ∀ st ∈ sts, ideal_store_ok w st) (cm : thrcomm_t) (lv n : Nat)
    (hrefs : refs_for cm sts = (List.range n).map (fun x : Nat => (lv, (x : Int))))
    (hlv : lv = 2 ∨ lv = 3) :
    (sts.map Prod.snd).flatMap (fun t => packm_work_ids t cm)
      = (List.range n).map Int.ofNat := by
  rw [pack_ids_eq w sts hok cm, hrefs]
  have hall : ((List.range n).map (fun x : Nat => (lv, (x : Int)))).filter
      (fun p => p.1 = 2 ∨ p.1 = 3) = (List.range n).map (fun x : Nat => (lv, (x : Int))) := by
    rw [List.filter_eq_self]
    intro p hp
    obtain ⟨x, _, hx⟩ := List.mem_map.1 hp
    subst hx
    simpa using hlv
  rw [hall, List.map_map]
  rfl

theorem node_range_chain_of (w : nways_t) (gc jc kc ic jr ir : thrcomm_t) (a b c d e : dim_t)
    (n : Nat) (h : in_ranges w a b c d e) :
    ∀ nd ∈ chain_nodes (ideal_chain_of w gc jc kc ic jr ir a b c d e n),
      0 ≤ nd.work_id ∧ nd.work_id < nd.n_way := by
  obtain ⟨ha, hb, hc, hd, he⟩ := h
  have h5 := digit_bound w.ir 1 e 0 he ⟨le_refl 0, Int.one_pos⟩
  have h4 := digit_bound w.jr (w.ir * 1) d (e * 1 + 0) hd h5
  have h3 := digit_bound w.ic (w.jr * (w.ir * 1)) c (d * (w.ir * 1) + (e * 1 + 0)) hc h4
  have e4 : ideal_ic_nt w = w.jr * (w.ir * 1) := by simp only [ideal_ic_nt, mul_one]
  have e3 : ideal_kc_nt w = w.ic * (w.jr * (w.ir * 1)) := by simp only [ideal_kc_nt, mul_one, mul_assoc]
  have i4 : d * jr_nt w + (e * ir_nt w + 0) = d * (w.ir * 1) + (e * 1 + 0) := by
    simp only [jr_nt, ir_nt, mul_one]
  have i3 : c * ideal_ic_nt w + (d * jr_nt w + (e * ir_nt w + 0))
      = c * (w.jr * (w.ir * 1)) + (d * (w.ir * 1) + (e * 1 + 0)) := by
    rw [i4, e4]
  intro nd hnd
  rw [chain_nodes_chain_of] at hnd
  simp only [List.mem_cons, List.mem_singleton, List.not_mem_nil, or_false] at hnd
  rcases hnd with h | h | h | h | h | h | h <;> subst h
  · exact ha
  · exact hb
  · show 0 ≤ c * ideal_ic_nt w + (d * jr_nt w + (e * ir_nt w + 0))
      ∧ c * ideal_ic_nt w + (d * jr_nt w + (e * ir_nt w + 0)) < ideal_kc_nt w
    rw [i3, e3]
    exact h3
  · exact hc
  · show 0 ≤ d * jr_nt w + (e * ir_nt w + 0) ∧ d * jr_nt w + (e * ir_nt w + 0) < ideal_ic_nt w
    rw [i4, e4]
    exact h4
  · exact hd
  · exact he
theorem pack_node_group (w : nways_t) (comms : List thrcomm_t)
    (sts : List (dim_t × thrinfo_t)) (hok : ∀ st ∈ sts, ideal_store_ok w st)
    (hin : ∀ st ∈ sts, ∀ e ∈ level_refs st.2, e.2.1 ∈ comms)
    (hnew : ∀ cm ∈ comms, ∃ lv : Nat, cm.n_threads = ideal_level_nt w lv ∧
      refs_for cm sts = (List.range cm.n_threads.toNat).map (fun x : Nat => (lv, (x : Int))))
    (st : dim_t × thrinfo_t) (hst : st ∈ sts) (e : Nat × thrcomm_t × dim_t)
    (he : e ∈ level_refs st.2) (hlv : e.1 = 2 ∨ e.1 = 3) :
    e.2.1 ∈ comms ∧
      (sts.map Prod.snd).flatMap (fun t => packm_work_ids t e.2.1)
        = (List.range e.2.1.n_threads.toNat).map Int.ofNat := by
  have hm := hin st hst e he
  obtain ⟨lv, _, hrefs⟩ := hnew e.2.1 hm
  have hl := level_of_ref e.2.1 sts lv _ hrefs st hst e he rfl
  rw [hl] at hlv
  exact ⟨hm, pack_ids_group w sts hok e.2.1 lv _ hrefs hlv⟩

/-! ## The shape of a chain -/

/-! ## The sample array: 12 threads -/
/-! ## Arithmetic in `dim_t` -/

theorem dim_wrap_of_range (x : Int) (h1 : -9223372036854775808 ≤ x)
    (h2 : x < 9223372036854775808) : dim_wrap x = x := by
  show ((x + 9223372036854775808) % 18446744073709551616 - 9223372036854775808 : Int) = x
  omega

theorem dim_wrap_range (x : Int) :
    -9223372036854775808 ≤ dim_wrap x ∧ dim_wrap x < 9223372036854775808 := by
  show (-9223372036854775808 : Int)
      ≤ (x + 9223372036854775808) % 18446744073709551616 - 9223372036854775808 ∧
    ((x + 9223372036854775808) % 18446744073709551616 - 9223372036854775808 : Int)
      < 9223372036854775808
  omega

theorem dim_wrap_emod (x : Int) :
    dim_wrap x % 18446744073709551616 = x % 18446744073709551616 := by
  show ((x + 9223372036854775808) % 18446744073709551616 - 9223372036854775808 : Int)
      % 18446744073709551616 = x % 18446744073709551616
  omega

theorem dim_wrap_eq_of_emod (x y : Int)
    (h : x % 18446744073709551616 = y % 18446744073709551616) : dim_wrap x = dim_wrap y := by
  show ((x + 9223372036854775808) % 18446744073709551616 - 9223372036854775808 : Int)
    = (y + 9223372036854775808) % 18446744073709551616 - 9223372036854775808
  omega

theorem dim_wrap_mul_left (x y : Int) : dim_wrap (dim_wrap x * y) = dim_wrap (x * y) := by
  apply dim_wrap_eq_of_emod
  rw [Int.mul_emod, dim_wrap_emod, ← Int.mul_emod]

theorem dim_wrap_mul_right (x y : Int) : dim_wrap (x * dim_wrap y) = dim_wrap (x * y) := by
  apply dim_wrap_eq_of_emod
  rw [Int.mul_emod, dim_wrap_emod, ← Int.mul_emod]

theorem dim_wrap_idem (x : Int) : dim_wrap (dim_wrap x) = dim_wrap x :=
  dim_wrap_eq_of_emod _ _ (dim_wrap_emod x)

/-- The thread count is the exact product of the five factors, reduced to
`dim_t`. -/
theorem global_num_threads_wrap (w : nways_t) :
    global_num_threads w = dim_wrap (w.jc * w.kc * w.ic * w.jr * w.ir) := by
  unfold global_num_threads dim_mul
  rw [dim_wrap_mul_left (w.jc * w.kc) w.ic, dim_wrap_mul_left (w.jc * w.kc * w.ic) w.jr,
    dim_wrap_mul_left (w.jc * w.kc * w.ic * w.jr) w.ir]

theorem dim_mul3 (a b c : Int) : dim_mul (dim_mul a b) c = dim_wrap (a * b * c) := by
  unfold dim_mul
  rw [dim_wrap_mul_left (a * b) c]

theorem dim_mul4 (a b c d : Int) :
    dim_mul (dim_mul (dim_mul a b) c) d = dim_wrap (a * b * c * d) := by
  unfold dim_mul
  rw [dim_wrap_mul_left (a * b) c, dim_wrap_mul_left (a * b * c) d]

/-! ## Effective factors -/

/-- C2. For every operation other than trmm and trsm (either side), and for trmm
with side left, the effective factors are the requested ones with the kc level at
1, and the total thread count is the product `jc_in * ic_in * jr_in * ir_in` of
the four requested factors as computed in `dim_t`, which is the exact product
reduced modulo `2^64`, and is the exact product when that is a `dim_t` value. -/
theorem default_factors_unchanged (multithreading : Bool) (bli_env_read_nway : String → dim_t)
    (l3_op : opid_t) (side : side_t)
    (h : (l3_op ≠ opid_t.BLIS_TRMM ∧ l3_op ≠ opid_t.BLIS_TRSM)
      ∨ (l3_op = opid_t.BLIS_TRMM ∧ side = side_t.BLIS_LEFT)) :
    nways_eff l3_op side (nways_in multithreading bli_env_read_nway)
        = { jc := (nways_in multithreading bli_env_read_nway).jc
            kc := 1
            ic := (nways_in multithreading bli_env_read_nway).ic
            jr := (nways_in multithreading bli_env_read_nway).jr
            ir := (nways_in multithreading bli_env_read_nway).ir } ∧
      global_num_threads (nways_eff l3_op side (nways_in multithreading bli_env_read_nway))
        = dim_mul (dim_mul (dim_mul (nways_in multithreading bli_env_read_nway).jc
            (nways_in multithreading bli_env_read_nway).ic)
            (nways_in multithreading bli_env_read_nway).jr)
            (nways_in multithreading bli_env_read_nway).ir ∧
      global_num_threads (nways_eff l3_op side (nways_in multithreading bli_env_read_nway))
        = dim_wrap ((nways_in multithreading bli_env_read_nway).jc
          * (nways_in multithreading bli_env_read_nway).ic
          * (nways_in multithreading bli_env_read_nway).jr
          * (nways_in multithreading bli_env_read_nway).ir) ∧
      (-9223372036854775808 ≤ (nways_in multithreading bli_env_read_nway).jc
            * (nways_in multithreading bli_env_read_nway).ic
            * (nways_in multithreading bli_env_read_nway).jr
            * (nways_in multithreading bli_env_read_nway).ir ∧
          (nways_in multithreading bli_env_read_nway).jc
            * (nways_in multithreading bli_env_read_nway).ic
            * (nways_in multithreading bli_env_read_nway).jr
            * (nways_in multithreading bli_env_read_nway).ir < 9223372036854775808 →
        global_num_threads (nways_eff l3_op side (nways_in multithreading bli_env_read_nway))
          = (nways_in multithreading bli_env_read_nway).jc
            * (nways_in multithreading bli_env_read_nway).ic
            * (nways_in multithreading bli_env_read_nway).jr
            * (nways_in multithreading bli_env_read_nway).ir) := by
  have hkc : (nways_in multithreading bli_env_read_nway).kc = 1 :=
    nways_in_kc multithreading bli_env_read_nway
  have heff : nways_eff l3_op side (nways_in multithreading bli_env_read_nway)
      = { jc := (nways_in multithreading bli_env_read_nway).jc
          kc := 1
          ic := (nways_in multithreading bli_env_read_nway).ic
          jr := (nways_in multithreading bli_env_read_nway).jr
          ir := (nways_in multithreading bli_env_read_nway).ir } := by
    rcases h with ⟨h1, h2⟩ | ⟨h1, h2⟩
    · simp [nways_eff, h1, h2, hkc]
    · subst h1; subst h2
      simp [nways_eff, bli_is_right, hkc]
  have hw : global_num_threads (nways_eff l3_op side (nways_in multithreading bli_env_read_nway))
      = dim_wrap ((nways_in multithreading bli_env_read_nway).jc
        * (nways_in multithreading bli_env_read_nway).ic
        * (nways_in multithreading bli_env_read_nway).jr
        * (nways_in multithreading bli_env_read_nway).ir) := by
    rw [heff, global_num_threads_wrap]
    simp only [mul_one]
  refine ⟨heff, ?_, hw, ?_⟩
  · rw [hw, dim_mul4]
  · intro hr
    rw [hw]
    exact dim_wrap_of_range _ hr.1 hr.2

theorem default_factors_unchanged_witness :
    ((opid_t.BLIS_GEMM ≠ opid_t.BLIS_TRMM ∧ opid_t.BLIS_GEMM ≠ opid_t.BLIS_TRSM)
      ∨ (opid_t.BLIS_GEMM = opid_t.BLIS_TRMM ∧ side_t.BLIS_RIGHT = side_t.BLIS_LEFT)) ∧
    nways_eff opid_t.BLIS_GEMM side_t.BLIS_RIGHT (nways_in true sample_env)
        = { jc := 2, kc := 1, ic := 3, jr := 2, ir := 1 } ∧
      global_num_threads (nways_eff opid_t.BLIS_GEMM side_t.BLIS_RIGHT (nways_in true sample_env))
        = 12 := by
  have h := default_factors_unchanged true sample_env opid_t.BLIS_GEMM side_t.BLIS_RIGHT
    (Or.inl ⟨by decide, by decide⟩)
  refine ⟨Or.inl ⟨by decide, by decide⟩, ?_, ?_⟩
  · rw [h.1]; decide
  · rw [h.2.2.1]; decide

/-- C3. For trmm with side right the effective factors are `jc_way = 1`,
`kc_way = 1`, `ic_way = ic_in`, `jr_way = jr_in * jc_in`, `ir_way = ir_in`, and the
total thread count is `jc_in * ic_in * jr_in * ir_in`, both products as computed
in `dim_t`: the total is the exact product reduced modulo `2^64`, and is the
exact product when that is a `dim_t` value; requested jc=2, ic=3, jr=2, ir=1 give jc_way=1, ic_way=3, jr_way=4,
ir_way=1 and 12 threads. -/
theorem trmm_right_factors (multithreading : Bool) (bli_env_read_nway : String → dim_t) :
    (nways_eff opid_t.BLIS_TRMM side_t.BLIS_RIGHT (nways_in multithreading bli_env_read_nway)
        = { jc := 1
            kc := 1
            ic := (nways_in multithreading bli_env_read_nway).ic
            jr := dim_mul (nways_in multithreading bli_env_read_nway).jr
              (nways_in multithreading bli_env_read_nway).jc
            ir := (nways_in multithreading bli_env_read_nway).ir } ∧
      global_num_threads
          (nways_eff opid_t.BLIS_TRMM side_t.BLIS_RIGHT (nways_in multithreading bli_env_read_nway))
        = dim_mul (dim_mul (dim_mul (nways_in multithreading bli_env_read_nway).jc
            (nways_in multithreading bli_env_read_nway).ic)
            (nways_in multithreading bli_env_read_nway).jr)
            (nways_in multithreading bli_env_read_nway).ir ∧
      global_num_threads
          (nways_eff opid_t.BLIS_TRMM side_t.BLIS_RIGHT (nways_in multithreading bli_env_read_nway))
        = dim_wrap ((nways_in multithreading bli_env_read_nway).jc
          * (nways_in multithreading bli_env_read_nway).ic
          * (nways_in multithreading bli_env_read_nway).jr
          * (nways_in multithreading bli_env_read_nway).ir) ∧
      (-9223372036854775808 ≤ (nways_in multithreading bli_env_read_nway).jc
            * (nways_in multithreading bli_env_read_nway).ic
            * (nways_in multithreading bli_env_read_nway).jr
            * (nways_in multithreading bli_env_read_nway).ir ∧
          (nways_in multithreading bli_env_read_nway).jc
            * (nways_in multithreading bli_env_read_nway).ic
            * (nways_in multithreading bli_env_read_nway).jr
            * (nways_in multithreading bli_env_read_nway).ir < 9223372036854775808 →
        global_num_threads
            (nways_eff opid_t.BLIS_TRMM side_t.BLIS_RIGHT (nways_in multithreading bli_env_read_nway))
          = (nways_in multithreading bli_env_read_nway).jc
            * (nways_in multithreading bli_env_read_nway).ic
            * (nways_in multithreading bli_env_read_nway).jr
            * (nways_in multithreading bli_env_read_nway).ir)) ∧
    (nways_in true sample_env = { jc := 2, kc := 1, ic := 3, jr := 2, ir := 1 } ∧
      nways_eff opid_t.BLIS_TRMM side_t.BLIS_RIGHT (nways_in true sample_env)
        = { jc := 1, kc := 1, ic := 3, jr := 4, ir := 1 } ∧
      global_num_threads (nways_eff opid_t.BLIS_TRMM side_t.BLIS_RIGHT (nways_in true sample_env))
        = 12) := by
  have hkc : (nways_in multithreading bli_env_read_nway).kc = 1 :=
    nways_in_kc multithreading bli_env_read_nway
  have heff : nways_eff opid_t.BLIS_TRMM side_t.BLIS_RIGHT
        (nways_in multithreading bli_env_read_nway)
      = { jc := 1
          kc := 1
          ic := (nways_in multithreading bli_env_read_nway).ic
          jr := dim_mul (nways_in multithreading bli_env_read_nway).jr
            (nways_in multithreading bli_env_read_nway).jc
          ir := (nways_in multithreading bli_env_read_nway).ir } := by
    simp [nways_eff, bli_is_right, hkc]
  have hw : global_num_threads
        (nways_eff opid_t.BLIS_TRMM side_t.BLIS_RIGHT (nways_in multithreading bli_env_read_nway))
      = dim_wrap ((nways_in multithreading bli_env_read_nway).jc
        * (nways_in multithreading bli_env_read_nway).ic
        * (nways_in multithreading bli_env_read_nway).jr
        * (nways_in multithreading bli_env_read_nway).ir) := by
    rw [heff, global_num_threads_wrap]
    simp only [dim_mul, one_mul]
    rw [mul_comm (nways_in multithreading bli_env_read_nway).ic, mul_assoc, dim_wrap_mul_left]
    apply congrArg
    ring
  refine ⟨⟨heff, ?_, hw, ?_⟩, ?_, ?_, ?_⟩
  · rw [hw, dim_mul4]
  · intro hr
    rw [hw]
    exact dim_wrap_of_range _ hr.1 hr.2
  · decide
  · decide
  · decide

/-- C4. For trsm one level carries all the concurrency and the other four
effective factors are 1: with side right `ic_way = jc_in * ic_in * jr_in`, with
side left `jr_way = ic_in * jr_in * ir_in`, the products as computed in `dim_t`.
The total thread count is that factor: `jc_in * ic_in * jr_in` for right,
whatever `BLIS_IR_NT` is, and `ic_in * jr_in * ir_in` for left, whatever
`BLIS_JC_NT` is; it is the exact product reduced modulo `2^64`, and is the exact
product when that is a `dim_t` value. -/
theorem trsm_factors (multithreading : Bool) (bli_env_read_nway : String → dim_t) :
    (nways_eff opid_t.BLIS_TRSM side_t.BLIS_RIGHT (nways_in multithreading bli_env_read_nway)
        = { jc := 1
            kc := 1
            ic := dim_mul (dim_mul (nways_in multithreading bli_env_read_nway).jc
              (nways_in multithreading bli_env_read_nway).ic)
              (nways_in multithreading bli_env_read_nway).jr
            jr := 1
            ir := 1 } ∧
      global_num_threads
          (nways_eff opid_t.BLIS_TRSM side_t.BLIS_RIGHT (nways_in multithreading bli_env_read_nway))
        = dim_mul (dim_mul (nways_in multithreading bli_env_read_nway).jc
            (nways_in multithreading bli_env_read_nway).ic)
            (nways_in multithreading bli_env_read_nway).jr ∧
      global_num_threads
          (nways_eff opid_t.BLIS_TRSM side_t.BLIS_RIGHT (nways_in multithreading bli_env_read_nway))
        = dim_wrap ((nways_in multithreading bli_env_read_nway).jc
          * (nways_in multithreading bli_env_read_nway).ic
          * (nways_in multithreading bli_env_read_nway).jr) ∧
      (-9223372036854775808 ≤ (nways_in multithreading bli_env_read_nway).jc
            * (nways_in multithreading bli_env_read_nway).ic
            * (nways_in multithreading bli_env_read_nway).jr ∧
          (nways_in multithreading bli_env_read_nway).jc
            * (nways_in multithreading bli_env_read_nway).ic
            * (nways_in multithreading bli_env_read_nway).jr < 9223372036854775808 →
        global_num_threads
            (nways_eff opid_t.BLIS_TRSM side_t.BLIS_RIGHT (nways_in multithreading bli_env_read_nway))
          = (nways_in multithreading bli_env_read_nway).jc
            * (nways_in multithreading bli_env_read_nway).ic
            * (nways_in multithreading bli_env_read_nway).jr)) ∧
    (nways_eff opid_t.BLIS_TRSM side_t.BLIS_LEFT (nways_in multithreading bli_env_read_nway)
        = { jc := 1
            kc := 1
            ic := 1
            jr := dim_mul (dim_mul (nways_in multithreading bli_env_read_nway).ic
              (nways_in multithreading bli_env_read_nway).jr)
              (nways_in multithreading bli_env_read_nway).ir
            ir := 1 } ∧
      global_num_threads
          (nways_eff opid_t.BLIS_TRSM side_t.BLIS_LEFT (nways_in multithreading bli_env_read_nway))
        = dim_mul (dim_mul (nways_in multithreading bli_env_read_nway).ic
            (nways_in multithreading bli_env_read_nway).jr)
            (nways_in multithreading bli_env_read_nway).ir ∧
      global_num_threads
          (nways_eff opid_t.BLIS_TRSM side_t.BLIS_LEFT (nways_in multithreading bli_env_read_nway))
        = dim_wrap ((nways_in multithreading bli_env_read_nway).ic
          * (nways_in multithreading bli_env_read_nway).jr
          * (nways_in multithreading bli_env_read_nway).ir) ∧
      (-9223372036854775808 ≤ (nways_in multithreading bli_env_read_nway).ic
            * (nways_in multithreading bli_env_read_nway).jr
            * (nways_in multithreading bli_env_read_nway).ir ∧
          (nways_in multithreading bli_env_read_nway).ic
            * (nways_in multithreading bli_env_read_nway).jr
            * (nways_in multithreading bli_env_read_nway).ir < 9223372036854775808 →
        global_num_threads
            (nways_eff opid_t.BLIS_TRSM side_t.BLIS_LEFT (nways_in multithreading bli_env_read_nway))
          = (nways_in multithreading bli_env_read_nway).ic
            * (nways_in multithreading bli_env_read_nway).jr
            * (nways_in multithreading bli_env_read_nway).ir)) ∧
    (∀ env2 : String → dim_t,
      env2 "BLIS_JC_NT" = bli_env_read_nway "BLIS_JC_NT" →
      env2 "BLIS_IC_NT" = bli_env_read_nway "BLIS_IC_NT" →
      env2 "BLIS_JR_NT" = bli_env_read_nway "BLIS_JR_NT" →
      global_num_threads (nways_eff opid_t.BLIS_TRSM side_t.BLIS_RIGHT (nways_in multithreading env2))
        = global_num_threads
            (nways_eff opid_t.BLIS_TRSM side_t.BLIS_RIGHT
              (nways_in multithreading bli_env_read_nway))) ∧
    (∀ env2 : String → dim_t,
      env2 "BLIS_IC_NT" = bli_env_read_nway "BLIS_IC_NT" →
      env2 "BLIS_JR_NT" = bli_env_read_nway "BLIS_JR_NT" →
      env2 "BLIS_IR_NT" = bli_env_read_nway "BLIS_IR_NT" →
      global_num_threads (nways_eff opid_t.BLIS_TRSM side_t.BLIS_LEFT (nways_in multithreading env2))
        = global_num_threads
            (nways_eff opid_t.BLIS_TRSM side_t.BLIS_LEFT
              (nways_in multithreading bli_env_read_nway))) ∧
    (nways_eff opid_t.BLIS_TRSM side_t.BLIS_RIGHT (nways_in true sample_env)
        = { jc := 1, kc := 1, ic := 12, jr := 1, ir := 1 } ∧
      nways_eff opid_t.BLIS_TRSM side_t.BLIS_LEFT (nways_in true sample_env)
        = { jc := 1, kc := 1, ic := 1, jr := 6, ir := 1 }) := by
  have hr : global_num_threads
        (nways_eff opid_t.BLIS_TRSM side_t.BLIS_RIGHT (nways_in multithreading bli_env_read_nway))
      = dim_wrap ((nways_in multithreading bli_env_read_nway).jc
        * (nways_in multithreading bli_env_read_nway).ic
        * (nways_in multithreading bli_env_read_nway).jr) := by
    rw [global_num_threads_wrap]
    simp only [nways_eff, bli_is_right, dim_mul, mul_one, one_mul, dim_wrap_idem,
      dim_wrap_mul_left, reduceCtorEq, if_false, decide_True, if_true]
  have hl : global_num_threads
        (nways_eff opid_t.BLIS_TRSM side_t.BLIS_LEFT (nways_in multithreading bli_env_read_nway))
      = dim_wrap ((nways_in multithreading bli_env_read_nway).ic
        * (nways_in multithreading bli_env_read_nway).jr
        * (nways_in multithreading bli_env_read_nway).ir) := by
    rw [global_num_threads_wrap]
    simp only [nways_eff, bli_is_right, dim_mul, mul_one, one_mul, dim_wrap_idem,
      dim_wrap_mul_left, reduceCtorEq, if_false, decide_True, if_true, decide_False]
  refine ⟨⟨?_, ?_, hr, ?_⟩, ⟨?_, ?_, hl, ?_⟩, ?_, ?_, ?_, ?_⟩
  · simp [nways_eff, bli_is_right]
  · rw [hr, dim_mul3]
  · intro h
    rw [hr]
    exact dim_wrap_of_range _ h.1 h.2
  · simp [nways_eff, bli_is_right]
  · rw [hl, dim_mul3]
  · intro h
    rw [hl]
    exact dim_wrap_of_range _ h.1 h.2
  · intro env2 h1 h2 h3
    cases multithreading <;>
      simp [nways_eff, bli_is_right, global_num_threads, nways_in, h1, h2, h3]
  · intro env2 h1 h2 h3
    cases multithreading <;>
      simp [nways_eff, bli_is_right, global_num_threads, nways_in, h1, h2, h3]
  · decide
  · decide
/-! ## Loops with an `int` counter -/

theorem foldlM_exact {σ : Type} (bm : dim_t → σ → Except stop_t σ) (be : dim_t → σ → σ)
    (l : List Nat) (h : ∀ i ∈ l, ∀ s, bm (i : Int) s = Except.ok (be (i : Int) s)) (s : σ) :
    l.foldlM (fun st (i : Nat) => bm (i : Int) st) s
      = Except.ok (l.foldl (fun st (i : Nat) => be (i : Int) st) s) := by
  induction l generalizing s with
  | nil => rfl
  | cons x xs ih =>
    rw [List.foldlM_cons, List.foldl_cons, h x (List.mem_cons_self _ _) s]
    exact ih (fun i hi => h i (List.mem_cons_of_mem _ hi)) _

theorem foldl_flatMap_single {α β σ : Type} (f : σ → β → σ) (g : α → β) (l : List α) (s : σ) :
    List.foldl f s (l.flatMap fun a => [g a]) = List.foldl (fun st i => f st (g i)) s l := by
  induction l generalizing s with
  | nil => rfl
  | cons x xs ih => simp [List.flatMap_cons, ih]

theorem for_range_eq_foldl {σ : Type} (n : dim_t) (be : dim_t → σ → σ) (s : σ) :
    for_range n be s = (List.range n.toNat).foldl (fun st (i : Nat) => be (i : Int) st) s := by
  unfold for_range
  simp only [List.bind_eq_flatMap, List.pure_def]
  exact foldl_flatMap_single (fun st i => be i st) (fun a : Nat => (a : Int)) _ s

/-- A loop whose bound is at most `INT_MAX` and whose bodies return runs like
the loop with an unbounded counter. -/
theorem for_int_exact {σ : Type} (n : dim_t) (hn : n ≤ INT_MAX)
    (bm : dim_t → σ → Except stop_t σ) (be : dim_t → σ → σ)
    (h : ∀ i : Nat, (i : Int) < n → ∀ s, bm (i : Int) s = Except.ok (be (i : Int) s)) (s : σ) :
    for_int n bm s = Except.ok (for_range n be s) := by
  rw [for_range_eq_foldl]
  unfold for_int
  rw [if_neg (not_lt.2 hn)]
  apply foldlM_exact
  intro i hi
  exact h i (Int.lt_toNat.1 (List.mem_range.1 hi))

theorem foldlM_inv {σ : Type} (I : σ → Prop) (bm : dim_t → σ → Except stop_t σ)
    (hb : ∀ i s s1, I s → bm i s = Except.ok s1 → I s1) (l : List Nat) (s : σ) (hs : I s)
    (s2 : σ) (h : l.foldlM (fun st (i : Nat) => bm (i : Int) st) s = Except.ok s2) : I s2 := by
  induction l generalizing s with
  | nil =>
    have h2 : Except.ok s = Except.ok s2 := h
    injection h2 with h2
    rw [← h2]
    exact hs
  | cons x xs ih =>
    rw [List.foldlM_cons] at h
    cases hx : bm (x : Int) s with
    | error stop =>
      rw [hx] at h
      cases h
    | ok s1 =>
      rw [hx] at h
      exact ih s1 (hb _ _ _ hs hx) h

/-- An invariant of the bodies holds of the state a loop returns. -/
theorem for_int_inv {σ : Type} (I : σ → Prop) (n : dim_t) (bm : dim_t → σ → Except stop_t σ)
    (hb : ∀ i s s1, I s → bm i s = Except.ok s1 → I s1) (s : σ) (hs : I s)
    (s2 : σ) (h : for_int n bm s = Except.ok s2) : I s2 := by
  unfold for_int at h
  split at h
  · cases h
  · exact foldlM_inv I bm hb _ s hs s2 h

theorem foldlM_error {σ : Type} (bm : dim_t → σ → Except stop_t σ)
    (hb : ∀ i s stop, bm i s = Except.error stop → stop = stop_t.counter_overflow)
    (l : List Nat) (s : σ) (stop : stop_t)
    (h : l.foldlM (fun st (i : Nat) => bm (i : Int) st) s = Except.error stop) :
    stop = stop_t.counter_overflow := by
  induction l generalizing s with
  | nil => cases h
  | cons x xs ih =>
    rw [List.foldlM_cons] at h
    cases hx : bm (x : Int) s with
    | error stop1 =>
      rw [hx] at h
      have h2 : Except.error stop1 = (Except.error stop : Except stop_t σ) := h
      injection h2 with h2
      rw [← h2]
      exact hb _ _ _ hx
    | ok s1 =>
      rw [hx] at h
      exact ih s1 h

/-- A loop stops only for a counter overflow if its bodies do. -/
theorem for_int_error {σ : Type} (n : dim_t) (bm : dim_t → σ → Except stop_t σ)
    (hb : ∀ i s stop, bm i s = Except.error stop → stop = stop_t.counter_overflow)
    (s : σ) (stop : stop_t) (h : for_int n bm s = Except.error stop) :
    stop = stop_t.counter_overflow := by
  unfold for_int at h
  split at h
  · injection h with h
    exact h.symm
  · exact foldlM_error bm hb _ s stop h

theorem foldlM_ok {σ : Type} (bm : dim_t → σ → Except stop_t σ)
    (hb : ∀ i s, ∃ s1, bm i s = Except.ok s1) (l : List Nat) (s : σ) :
    ∃ s2, l.foldlM (fun st (i : Nat) => bm (i : Int) st) s = Except.ok s2 := by
  induction l generalizing s with
  | nil => exact ⟨s, rfl⟩
  | cons x xs ih =>
    obtain ⟨s1, hs1⟩ := hb (x : Int) s
    obtain ⟨s2, hs2⟩ := ih s1
    refine ⟨s2, ?_⟩
    rw [List.foldlM_cons, hs1]
    exact hs2

/-- A loop whose bound is at most `INT_MAX` returns if its bodies do. -/
theorem for_int_ok {σ : Type} (n : dim_t) (hn : n ≤ INT_MAX)
    (bm : dim_t → σ → Except stop_t σ) (hb : ∀ i s, ∃ s1, bm i s = Except.ok s1) (s : σ) :
    ∃ s2, for_int n bm s = Except.ok s2 := by
  unfold for_int
  rw [if_neg (not_lt.2 hn)]
  exact foldlM_ok bm hb _ s

/-! ## Where nothing overflows, the code computes the exact values -/

theorem le_mul_left_int (x y : Int) (hx : 1 ≤ x) (hy : 0 ≤ y) : y ≤ x * y :=
  le_mul_of_one_le_left hy hx

/-- The partial products of the factors under `no_overflow`. -/
theorem products_bound (w : nways_t) (h : no_overflow w) :
    (1 ≤ w.jr * w.ir ∧ w.jr * w.ir < 2305843009213693952) ∧
    (1 ≤ w.ic * (w.jr * w.ir) ∧ w.ic * (w.jr * w.ir) < 2305843009213693952) ∧
    (1 ≤ w.kc * (w.ic * (w.jr * w.ir)) ∧ w.kc * (w.ic * (w.jr * w.ir)) < 2305843009213693952) ∧
    (1 ≤ w.jc * (w.kc * (w.ic * (w.jr * w.ir))) ∧
      w.jc * (w.kc * (w.ic * (w.jr * w.ir))) < 2305843009213693952) := by
  obtain ⟨⟨hj, _⟩, ⟨hk, _⟩, ⟨hi, _⟩, ⟨hr, _⟩, ⟨hq, _⟩, hP⟩ := h
  have e5 : w.jc * w.kc * w.ic * w.jr * w.ir = w.jc * (w.kc * (w.ic * (w.jr * w.ir))) := by
    ring
  rw [e5] at hP
  have p2 : 1 ≤ w.jr * w.ir := one_le_mul_int _ _ hr hq
  have p3 : 1 ≤ w.ic * (w.jr * w.ir) := one_le_mul_int _ _ hi p2
  have p4 : 1 ≤ w.kc * (w.ic * (w.jr * w.ir)) := one_le_mul_int _ _ hk p3
  have p5 : 1 ≤ w.jc * (w.kc * (w.ic * (w.jr * w.ir))) := one_le_mul_int _ _ hj p4
  have l4 := le_mul_left_int w.jc _ hj (le_trans Int.one_nonneg p4)
  have l3 := le_mul_left_int w.kc _ hk (le_trans Int.one_nonneg p3)
  have l2 := le_mul_left_int w.ic _ hi (le_trans Int.one_nonneg p2)
  have b4 := lt_of_le_of_lt l4 hP
  have b3 := lt_of_le_of_lt l3 b4
  have b2 := lt_of_le_of_lt l2 b3
  exact ⟨⟨p2, b2⟩, ⟨p3, b3⟩, ⟨p4, b4⟩, ⟨p5, hP⟩⟩

theorem dim_wrap_small (x : Int) (h0 : 0 ≤ x) (h1 : x < 2305843009213693952) :
    dim_wrap x = x := by
  apply dim_wrap_of_range
  · exact le_trans (by decide) h0
  · exact lt_trans h1 (by decide)

/-- Under `no_overflow` the thread counts are the exact products. -/
theorem nt_exact (w : nways_t) (h : no_overflow w) :
    global_num_threads w = ideal_global_num_threads w ∧ jc_nt w = ideal_jc_nt w ∧
      kc_nt w = ideal_kc_nt w ∧ ic_nt w = ideal_ic_nt w := by
  obtain ⟨⟨p2, b2⟩, ⟨p3, b3⟩, ⟨p4, b4⟩, ⟨p5, b5⟩⟩ := products_bound w h
  have e2 : w.jr * w.ir = ideal_ic_nt w := rfl
  have e3 : w.ic * (w.jr * w.ir) = ideal_kc_nt w := by
    unfold ideal_kc_nt; ring
  have e4 : w.kc * (w.ic * (w.jr * w.ir)) = ideal_jc_nt w := by
    unfold ideal_jc_nt; ring
  have e5 : w.jc * (w.kc * (w.ic * (w.jr * w.ir))) = ideal_global_num_threads w := by
    unfold ideal_global_num_threads; ring
  rw [e2] at p2 b2
  rw [e3] at p3 b3
  rw [e4] at p4 b4
  rw [e5] at p5 b5
  have m2 : ic_nt w = dim_wrap (ideal_ic_nt w) := rfl
  have m3 : kc_nt w = dim_wrap (ideal_kc_nt w) := by
    unfold kc_nt ideal_kc_nt dim_mul
    rw [dim_wrap_mul_left (w.ic * w.jr) w.ir]
  have m4 : jc_nt w = dim_wrap (ideal_jc_nt w) := by
    unfold jc_nt ideal_jc_nt dim_mul
    rw [dim_wrap_mul_left (w.kc * w.ic) w.jr, dim_wrap_mul_left (w.kc * w.ic * w.jr) w.ir]
  have m5 : global_num_threads w = dim_wrap (ideal_global_num_threads w) :=
    global_num_threads_wrap w
  rw [m2, m3, m4, m5]
  exact ⟨dim_wrap_small _ (le_trans Int.one_nonneg p5) b5,
    dim_wrap_small _ (le_trans Int.one_nonneg p4) b4,
    dim_wrap_small _ (le_trans Int.one_nonneg p3) b3,
    dim_wrap_small _ (le_trans Int.one_nonneg p2) b2⟩

/-- One digit of a mixed-radix number, computed in `dim_t`, is exact when the
number stays below `2^61`. -/
theorem digit_exact (m n a r : Int) (ha : 0 ≤ a ∧ a < m) (hr : 0 ≤ r ∧ r < n)
    (hB : m * n ≤ 2305843009213693952) : dim_add (dim_mul a n) r = a * n + r := by
  have hb := digit_bound m n a r ha hr
  have hn : 0 ≤ n := le_trans hr.1 (le_of_lt hr.2)
  have h0 : 0 ≤ a * n := mul_nonneg ha.1 hn
  have h1 : a * n ≤ a * n + r := le_add_of_nonneg_right hr.1
  have h2 : a * n + r < 2305843009213693952 := lt_of_lt_of_le hb.2 hB
  unfold dim_add dim_mul
  rw [dim_wrap_small (a * n) h0 (lt_of_le_of_lt h1 h2), dim_wrap_small (a * n + r) hb.1 h2]
/-- Under `no_overflow` the ids of the innermost loop body are the exact
mixed-radix numbers. -/
theorem ids_exact (w : nways_t) (h : no_overflow w) (a b c d e : dim_t)
    (hin : in_ranges w a b c d e) :
    jr_comm_id w e = e * ir_nt w + 0 ∧
    ic_comm_id w d e = d * jr_nt w + (e * ir_nt w + 0) ∧
    kc_comm_id w c d e = c * ideal_ic_nt w + (d * jr_nt w + (e * ir_nt w + 0)) ∧
    jc_comm_id w b c d e
      = b * ideal_kc_nt w + (c * ideal_ic_nt w + (d * jr_nt w + (e * ir_nt w + 0))) ∧
    global_comm_id w a b c d e = ideal_global_comm_id w a b c d e := by
  obtain ⟨⟨p2, b2⟩, ⟨p3, b3⟩, ⟨p4, b4⟩, ⟨p5, b5⟩⟩ := products_bound w h
  obtain ⟨_, e4, e3, e2⟩ := nt_exact w h
  obtain ⟨ha, hb, hc, hd, he⟩ := hin
  have x3 : ideal_kc_nt w = w.ic * (w.jr * w.ir) := by unfold ideal_kc_nt; ring
  have x4 : ideal_jc_nt w = w.kc * (w.ic * (w.jr * w.ir)) := by unfold ideal_jc_nt; ring
  have x2 : ideal_ic_nt w = w.jr * w.ir := rfl
  have q1 : w.ir * 1 ≤ 2305843009213693952 := by
    rw [mul_one]
    exact le_of_lt (lt_of_le_of_lt
      (le_mul_left_int w.jr w.ir h.2.2.2.1.1 (le_trans Int.one_nonneg h.2.2.2.2.1.1)) b2)
  -- jr
  have d1 := digit_bound w.ir 1 e 0 he ⟨le_refl 0, Int.one_pos⟩
  have i1 : jr_comm_id w e = e * ir_nt w + 0 :=
    digit_exact w.ir 1 e 0 he ⟨le_refl 0, Int.one_pos⟩ q1
  -- ic
  have d1b : 0 ≤ e * ir_nt w + 0 ∧ e * ir_nt w + 0 < jr_nt w := by
    have : w.ir * 1 = jr_nt w := mul_one _
    rw [← this]
    exact d1
  have d2 := digit_bound w.jr (jr_nt w) d (e * ir_nt w + 0) hd d1b
  have i2 : ic_comm_id w d e = d * jr_nt w + (e * ir_nt w + 0) := by
    unfold ic_comm_id
    rw [i1]
    exact digit_exact w.jr (jr_nt w) d _ hd d1b (le_of_lt b2)
  -- kc
  have d2b : 0 ≤ d * jr_nt w + (e * ir_nt w + 0)
      ∧ d * jr_nt w + (e * ir_nt w + 0) < ideal_ic_nt w := d2
  have d3 := digit_bound w.ic (ideal_ic_nt w) c _ hc d2b
  have i3 : kc_comm_id w c d e = c * ideal_ic_nt w + (d * jr_nt w + (e * ir_nt w + 0)) := by
    unfold kc_comm_id
    rw [i2, e2]
    exact digit_exact w.ic (ideal_ic_nt w) c _ hc d2b (le_of_lt b3)
  -- jc
  have d3b : 0 ≤ c * ideal_ic_nt w + (d * jr_nt w + (e * ir_nt w + 0))
      ∧ c * ideal_ic_nt w + (d * jr_nt w + (e * ir_nt w + 0)) < ideal_kc_nt w := by
    rw [x3]
    exact d3
  have d4 := digit_bound w.kc (ideal_kc_nt w) b _ hb d3b
  have i4 : jc_comm_id w b c d e
      = b * ideal_kc_nt w + (c * ideal_ic_nt w + (d * jr_nt w + (e * ir_nt w + 0))) := by
    unfold jc_comm_id
    rw [i3, e3]
    refine digit_exact w.kc (ideal_kc_nt w) b _ hb d3b ?_
    rw [x3]
    exact le_of_lt b4
  -- global
  have d4b : 0 ≤ b * ideal_kc_nt w + (c * ideal_ic_nt w + (d * jr_nt w + (e * ir_nt w + 0)))
      ∧ b * ideal_kc_nt w + (c * ideal_ic_nt w + (d * jr_nt w + (e * ir_nt w + 0)))
        < ideal_jc_nt w := by
    rw [x4, ← x3]
    exact d4
  have i5 : global_comm_id w a b c d e = ideal_global_comm_id w a b c d e := by
    unfold global_comm_id
    rw [i4, e4]
    refine digit_exact w.jc (ideal_jc_nt w) a _ ha d4b ?_
    rw [x4]
    exact le_of_lt b5
  exact ⟨i1, i2, i3, i4, i5⟩

/-- What the innermost loop body does to the state: one communicator, seven
structs, one store. -/
theorem path_body_store (w : nways_t) (gc jc kc ic jr : thrcomm_t) (a b c d e : dim_t)
    (s : build_t) :
    path_body w gc jc kc ic jr a b c d e s
      = { comms := s.comms ++ [{ uid := s.comms.length, n_threads := ir_nt w }]
          n_nodes := s.n_nodes + 7
          stores := s.stores ++
            [(global_comm_id w a b c d e,
              chain_of w gc jc kc ic jr { uid := s.comms.length, n_threads := ir_nt w }
                a b c d e s.n_nodes)] } := by
  rfl

theorem chain_of_exact (w : nways_t) (h : no_overflow w) (gc jc kc ic jr ir : thrcomm_t)
    (a b c d e : dim_t) (hin : in_ranges w a b c d e) (n : Nat) :
    chain_of w gc jc kc ic jr ir a b c d e n = ideal_chain_of w gc jc kc ic jr ir a b c d e n := by
  obtain ⟨i1, i2, i3, i4, i5⟩ := ids_exact w h a b c d e hin
  obtain ⟨_, _, e3, e2⟩ := nt_exact w h
  unfold chain_of ideal_chain_of
  rw [i1, i2, i3, i4, i5, e3, e2]
  rfl

theorem path_body_exact (w : nways_t) (h : no_overflow w) (gc jc kc ic jr : thrcomm_t)
    (a b c d e : dim_t) (hin : in_ranges w a b c d e) (s : build_t) :
    path_body w gc jc kc ic jr a b c d e s = ideal_path_body w gc jc kc ic jr a b c d e s := by
  rw [path_body_store, path_body_eq, chain_of_exact w h gc jc kc ic jr _ a b c d e hin,
    (ids_exact w h a b c d e hin).2.2.2.2]

theorem jr_body_exact (w : nways_t) (h : no_overflow w) (gc jc kc ic : thrcomm_t)
    (a b c d : dim_t) (ha : 0 ≤ a ∧ a < w.jc) (hb : 0 ≤ b ∧ b < w.kc)
    (hc : 0 ≤ c ∧ c < w.ic) (hd : 0 ≤ d ∧ d < w.jr) (s : build_t) :
    jr_body w gc jc kc ic a b c d s = Except.ok (ideal_jr_body w gc jc kc ic a b c d s) := by
  unfold jr_body ideal_jr_body
  dsimp only
  apply for_int_exact w.ir h.2.2.2.2.1.2
  intro i hi s1
  rw [path_body_exact w h gc jc kc ic _ a b c d (i : Int)
    ⟨ha, hb, hc, hd, Int.ofNat_nonneg i, hi⟩]

theorem ic_body_exact (w : nways_t) (h : no_overflow w) (gc jc kc : thrcomm_t)
    (a b c : dim_t) (ha : 0 ≤ a ∧ a < w.jc) (hb : 0 ≤ b ∧ b < w.kc)
    (hc : 0 ≤ c ∧ c < w.ic) (s : build_t) :
    ic_body w gc jc kc a b c s = Except.ok (ideal_ic_body w gc jc kc a b c s) := by
  unfold ic_body ideal_ic_body
  dsimp only
  rw [(nt_exact w h).2.2.2]
  apply for_int_exact w.jr h.2.2.2.1.2
  intro i hi s1
  exact jr_body_exact w h gc jc kc _ a b c (i : Int) ha hb hc ⟨Int.ofNat_nonneg i, hi⟩ s1

theorem kc_body_exact (w : nways_t) (h : no_overflow w) (gc jc : thrcomm_t)
    (a b : dim_t) (ha : 0 ≤ a ∧ a < w.jc) (hb : 0 ≤ b ∧ b < w.kc) (s : build_t) :
    kc_body w gc jc a b s = Except.ok (ideal_kc_body w gc jc a b s) := by
  unfold kc_body ideal_kc_body
  dsimp only
  rw [(nt_exact w h).2.2.1]
  apply for_int_exact w.ic h.2.2.1.2
  intro i hi s1
  exact ic_body_exact w h gc jc _ a b (i : Int) ha hb ⟨Int.ofNat_nonneg i, hi⟩ s1

theorem jc_body_exact (w : nways_t) (h : no_overflow w) (gc : thrcomm_t)
    (a : dim_t) (ha : 0 ≤ a ∧ a < w.jc) (s : build_t) :
    jc_body w gc a s = Except.ok (ideal_jc_body w gc a s) := by
  unfold jc_body ideal_jc_body
  dsimp only
  rw [(nt_exact w h).2.1]
  apply for_int_exact w.kc h.2.1.2
  intro i hi s1
  exact kc_body_exact w h gc _ a (i : Int) ha ⟨Int.ofNat_nonneg i, hi⟩ s1

theorem paths_slots_small (x : Int) (h0 : 0 ≤ x) (h1 : x < 2305843009213693952) :
    paths_slots x = x := by
  show ((x * 8) % 18446744073709551616 / 8 : Int) = x
  omega

/-- Refinement.  Where nothing overflows, `create_paths_from` returns, and it
returns the value of the construction over unbounded integers. -/
theorem create_paths_refines (w : nways_t) (h : no_overflow w) :
    ∃ r, create_paths_from w = Except.ok r ∧ ideal_create_paths_from w = some r := by
  obtain ⟨_, _, _, ⟨p5, b5⟩⟩ := products_bound w h
  have e5 : w.jc * (w.kc * (w.ic * (w.jr * w.ir))) = ideal_global_num_threads w := by
    unfold ideal_global_num_threads; ring
  rw [e5] at p5 b5
  have eN := (nt_exact w h).1
  have hN0 : ideal_global_num_threads w ≠ 0 := by
    intro h0
    rw [h0] at p5
    exact absurd p5 (by decide)
  have hloop : for_int w.jc
      (fun a => jc_body w
        (bli_thrcomm_create (ideal_global_num_threads w)
          { comms := [], n_nodes := 0, stores := [] }).1 a)
      (bli_thrcomm_create (ideal_global_num_threads w)
        { comms := [], n_nodes := 0, stores := [] }).2
      = Except.ok (for_range w.jc
          (fun a => ideal_jc_body w
            (bli_thrcomm_create (ideal_global_num_threads w)
              { comms := [], n_nodes := 0, stores := [] }).1 a)
          (bli_thrcomm_create (ideal_global_num_threads w)
            { comms := [], n_nodes := 0, stores := [] }).2) := by
    apply for_int_exact w.jc h.1.2
    intro i hi s1
    exact jc_body_exact w h _ (i : Int) ⟨Int.ofNat_nonneg i, hi⟩ s1
  unfold create_paths_from ideal_create_paths_from
  rw [eN, if_neg hN0, if_neg hN0]
  dsimp only
  rw [hloop, paths_slots_small _ (le_trans Int.one_nonneg p5) b5]
  exact ⟨_, rfl, rfl⟩
/-! ## Invariants of the stores that hold for all factors -/

theorem chain_nodes_of_chain (w : nways_t) (gc jc kc ic jr ir : thrcomm_t) (a b c d e : dim_t)
    (n : Nat) :
    chain_nodes (chain_of w gc jc kc ic jr ir a b c d e n)
      = [ { addr := addr_t.heap (n + 6), ocomm := gc, ocomm_id := global_comm_id w a b c d e,
            icomm := jc, icomm_id := jc_comm_id w b c d e,
            n_way := w.jc, work_id := a, free_comms := true },
          { addr := addr_t.heap (n + 5), ocomm := jc, ocomm_id := jc_comm_id w b c d e,
            icomm := kc, icomm_id := kc_comm_id w c d e,
            n_way := w.kc, work_id := b, free_comms := true },
          { addr := addr_t.heap (n + 4), ocomm := kc, ocomm_id := kc_comm_id w c d e,
            icomm := ic, icomm_id := ic_comm_id w d e,
            n_way := kc_nt w, work_id := kc_comm_id w c d e, free_comms := false },
          { addr := addr_t.heap (n + 3), ocomm := kc, ocomm_id := kc_comm_id w c d e,
            icomm := ic, icomm_id := ic_comm_id w d e,
            n_way := w.ic, work_id := c, free_comms := true },
          { addr := addr_t.heap (n + 2), ocomm := ic, ocomm_id := ic_comm_id w d e,
            icomm := jr, icomm_id := jr_comm_id w e,
            n_way := ic_nt w, work_id := ic_comm_id w d e, free_comms := false },
          { addr := addr_t.heap (n + 1), ocomm := ic, ocomm_id := ic_comm_id w d e,
            icomm := jr, icomm_id := jr_comm_id w e,
            n_way := w.jr, work_id := d, free_comms := true },
          { addr := addr_t.heap n, ocomm := jr, ocomm_id := jr_comm_id w e,
            icomm := ir, icomm_id := 0,
            n_way := w.ir, work_id := e, free_comms := true } ] := by
  rfl

/-- Every store made so far put a chain of the innermost loop body at its
`global_comm_id`. -/
theorem shape_of_stores (w : nways_t) (gc : thrcomm_t) (s s2 : build_t)
    (hs : ∀ st ∈ s.stores, ∃ (c0 c1 c2 c3 c4 c5 : thrcomm_t) (a b c d e : dim_t) (n : Nat),
      st = (global_comm_id w a b c d e, chain_of w c0 c1 c2 c3 c4 c5 a b c d e n))
    (h : for_int w.jc (fun a => jc_body w gc a) s = Except.ok s2) :
    ∀ st ∈ s2.stores, ∃ (c0 c1 c2 c3 c4 c5 : thrcomm_t) (a b c d e : dim_t) (n : Nat),
      st = (global_comm_id w a b c d e, chain_of w c0 c1 c2 c3 c4 c5 a b c d e n) := by
  have hI : ∀ (n_threads : dim_t) (s0 : build_t),
      (∀ st ∈ s0.stores, ∃ (c0 c1 c2 c3 c4 c5 : thrcomm_t) (a b c d e : dim_t) (n : Nat),
        st = (global_comm_id w a b c d e, chain_of w c0 c1 c2 c3 c4 c5 a b c d e n)) →
      ∀ st ∈ (bli_thrcomm_create n_threads s0).2.stores,
        ∃ (c0 c1 c2 c3 c4 c5 : thrcomm_t) (a b c d e : dim_t) (n : Nat),
          st = (global_comm_id w a b c d e, chain_of w c0 c1 c2 c3 c4 c5 a b c d e n) :=
    fun _ _ h => h
  refine for_int_inv (fun s0 : build_t => ∀ st ∈ s0.stores,
    ∃ (c0 c1 c2 c3 c4 c5 : thrcomm_t) (a b c d e : dim_t) (n : Nat),
      st = (global_comm_id w a b c d e, chain_of w c0 c1 c2 c3 c4 c5 a b c d e n))
    _ _ ?_ s hs s2 h
  intro a s1 t1 h1 g1
  unfold jc_body at g1
  refine for_int_inv (fun s0 : build_t => ∀ st ∈ s0.stores,
    ∃ (c0 c1 c2 c3 c4 c5 : thrcomm_t) (a b c d e : dim_t) (n : Nat),
      st = (global_comm_id w a b c d e, chain_of w c0 c1 c2 c3 c4 c5 a b c d e n))
    _ _ ?_ _ (hI _ s1 h1) t1 g1
  intro b s2 t2 h2 g2
  unfold kc_body at g2
  refine for_int_inv (fun s0 : build_t => ∀ st ∈ s0.stores,
    ∃ (c0 c1 c2 c3 c4 c5 : thrcomm_t) (a b c d e : dim_t) (n : Nat),
      st = (global_comm_id w a b c d e, chain_of w c0 c1 c2 c3 c4 c5 a b c d e n))
    _ _ ?_ _ (hI _ s2 h2) t2 g2
  intro c s3 t3 h3 g3
  unfold ic_body at g3
  refine for_int_inv (fun s0 : build_t => ∀ st ∈ s0.stores,
    ∃ (c0 c1 c2 c3 c4 c5 : thrcomm_t) (a b c d e : dim_t) (n : Nat),
      st = (global_comm_id w a b c d e, chain_of w c0 c1 c2 c3 c4 c5 a b c d e n))
    _ _ ?_ _ (hI _ s3 h3) t3 g3
  intro d s4 t4 h4 g4
  unfold jr_body at g4
  refine for_int_inv (fun s0 : build_t => ∀ st ∈ s0.stores,
    ∃ (c0 c1 c2 c3 c4 c5 : thrcomm_t) (a b c d e : dim_t) (n : Nat),
      st = (global_comm_id w a b c d e, chain_of w c0 c1 c2 c3 c4 c5 a b c d e n))
    _ _ ?_ _ (hI _ s4 h4) t4 g4
  intro e s5 t5 h5 g5 st hst
  injection g5 with g5
  rw [← g5, path_body_store] at hst
  simp only [List.mem_append, List.mem_singleton] at hst
  rcases hst with hst | hst
  · exact h5 st hst
  · exact ⟨_, _, _, _, _, _, _, _, _, _, _, _, hst⟩

/-- The loop nest stops only for a counter overflow. -/
theorem loops_error (w : nways_t) (gc : thrcomm_t) (s : build_t) (stop : stop_t)
    (h : for_int w.jc (fun a => jc_body w gc a) s = Except.error stop) :
    stop = stop_t.counter_overflow := by
  refine for_int_error _ _ ?_ s stop h
  intro a s1 stop1 g1
  unfold jc_body at g1
  refine for_int_error _ _ ?_ _ stop1 g1
  intro b s2 stop2 g2
  unfold kc_body at g2
  refine for_int_error _ _ ?_ _ stop2 g2
  intro c s3 stop3 g3
  unfold ic_body at g3
  refine for_int_error _ _ ?_ _ stop3 g3
  intro d s4 stop4 g4
  unfold jr_body at g4
  refine for_int_error _ _ ?_ _ stop4 g4
  intro e s5 stop5 g5
  cases g5

/-- What a returned value is made of. -/
theorem create_paths_ok (w : nways_t) (r : paths_t) (hr : create_paths_from w = Except.ok r) :
    global_num_threads w ≠ 0 ∧
    r.global_comm = { uid := 0, n_threads := global_num_threads w } ∧
    r.paths = paths_of (paths_slots (global_num_threads w)) r.final.stores ∧
    for_int w.jc (fun a => jc_body w r.global_comm a)
        { comms := [r.global_comm], n_nodes := 0, stores := [] } = Except.ok r.final := by
  unfold create_paths_from at hr
  split at hr
  · cases hr
  · rename_i hN
    dsimp only at hr
    split at hr
    · cases hr
    · rename_i s hs
      injection hr with hr
      subst hr
      exact ⟨hN, rfl, rfl, hs⟩

theorem chains_of_paths_mem (multithreading : Bool) (bli_env_read_nway : String → dim_t)
    (l3_op : opid_t) (side : side_t) (r : paths_t)
    (hr : bli_l3_thrinfo_create_paths multithreading bli_env_read_nway l3_op side
      = Except.ok r)
    (t : thrinfo_t) (ht : t ∈ chains_of r.paths) :
    ∃ (c0 c1 c2 c3 c4 c5 : thrcomm_t) (a b c d e : dim_t) (n : Nat),
      t = chain_of (nways_eff l3_op side (nways_in multithreading bli_env_read_nway))
        c0 c1 c2 c3 c4 c5 a b c d e n := by
  obtain ⟨_, _, hp, hloop⟩ := create_paths_ok _ r hr
  simp only [chains_of, List.mem_filterMap, id] at ht
  obtain ⟨x, hx, hxt⟩ := ht
  subst hxt
  rw [hp] at hx
  obtain ⟨st, hst, hst2⟩ := paths_of_mem _ _ t hx
  obtain ⟨c0, c1, c2, c3, c4, c5, a, b, c, d, e, n, h⟩ :=
    shape_of_stores _ _ _ _ (by intro st hst; simp at hst) hloop st hst
  refine ⟨c0, c1, c2, c3, c4, c5, a, b, c, d, e, n, ?_⟩
  rw [← hst2, h]

/-! ## The shape of a chain -/

/-- C15, counterexample.  In the array returned for the sample environment
(gemm, 12 threads), the chain of thread 11 has a packing struct whose outer
communicator, outer id, inner communicator and inner id all differ from those of
the loop struct whose child it is: root first, the structs hold (frees its
communicators, outer communicator, outer id, inner communicator, inner id) as
listed, communicators by creation number. -/
theorem packing_node_differs_from_parent :
    bli_l3_thrinfo_create_paths true sample_env opid_t.BLIS_GEMM side_t.BLIS_LEFT
      = Except.ok sample_paths ∧
    sample_chain ∈ chains_of sample_paths.paths ∧
    (chain_nodes sample_chain).map
        (fun nd => (nd.free_comms, nd.ocomm.uid, nd.ocomm_id, nd.icomm.uid, nd.icomm_id))
      = [(true, 0, 11, 18, 5), (true, 18, 5, 19, 5), (false, 19, 5, 30, 1),
         (true, 19, 5, 30, 1), (false, 30, 1, 33, 0), (true, 30, 1, 33, 0),
         (true, 33, 0, 34, 0)] ∧
    (∃ p ∈ (chain_nodes sample_chain).zip (chain_nodes sample_chain).tail,
      p.1.free_comms = true ∧ p.2.free_comms = false ∧ p.2.ocomm ≠ p.1.ocomm ∧
      p.2.ocomm_id ≠ p.1.ocomm_id ∧ p.2.icomm ≠ p.1.icomm ∧ p.2.icomm_id ≠ p.1.icomm_id) ∧
    ¬ (∀ t ∈ chains_of sample_paths.paths,
        ∀ p ∈ (chain_nodes t).zip (chain_nodes t).tail, p.2.free_comms = false →
          p.2.ocomm = p.1.ocomm ∧ p.2.ocomm_id = p.1.ocomm_id ∧
          p.2.icomm = p.1.icomm ∧ p.2.icomm_id = p.1.icomm_id) := by
  refine ⟨rfl, ?_, ?_, ?_, ?_⟩ <;> decide

/-- C15, amended.  In every chain of a returned array, each of the two packing
structs has the same outer communicator, outer id, inner communicator and inner
id as its child, the next loop struct down the chain (the packing struct of B as
the ic loop struct, the packing struct of A as the jr struct); its outer
communicator and id are the inner communicator and id of the loop struct whose
child it is; it is marked as not freeing its communicators, the five loop structs
as freeing them; so no communicator is referenced by a packing struct only. -/
theorem packing_nodes_alias_child (multithreading : Bool)
    (bli_env_read_nway : String → dim_t) (l3_op : opid_t) (side : side_t) (r : paths_t)
    (hr : bli_l3_thrinfo_create_paths multithreading bli_env_read_nway l3_op side
      = Except.ok r)
    (t : thrinfo_t) (ht : t ∈ chains_of r.paths) :
    ∃ jc_info kc_info pack_kc_in ic_info pack_ic_in jr_info ir_info : node_t,
      chain_nodes t = [jc_info, kc_info, pack_kc_in, ic_info, pack_ic_in, jr_info, ir_info] ∧
      (pack_kc_in.free_comms = false ∧ pack_ic_in.free_comms = false) ∧
      (jc_info.free_comms = true ∧ kc_info.free_comms = true ∧ ic_info.free_comms = true ∧
        jr_info.free_comms = true ∧ ir_info.free_comms = true) ∧
      (pack_kc_in.ocomm = ic_info.ocomm ∧ pack_kc_in.ocomm_id = ic_info.ocomm_id ∧
        pack_kc_in.icomm = ic_info.icomm ∧ pack_kc_in.icomm_id = ic_info.icomm_id) ∧
      (pack_ic_in.ocomm = jr_info.ocomm ∧ pack_ic_in.ocomm_id = jr_info.ocomm_id ∧
        pack_ic_in.icomm = jr_info.icomm ∧ pack_ic_in.icomm_id = jr_info.icomm_id) ∧
      (pack_kc_in.ocomm = kc_info.icomm ∧ pack_kc_in.ocomm_id = kc_info.icomm_id) ∧
      (pack_ic_in.ocomm = ic_info.icomm ∧ pack_ic_in.ocomm_id = ic_info.icomm_id) := by
  obtain ⟨c0, c1, c2, c3, c4, c5, a, b, c, d, e, n, hx⟩ :=
    chains_of_paths_mem multithreading bli_env_read_nway l3_op side r hr t ht
  rw [hx, chain_nodes_of_chain]
  exact ⟨_, _, _, _, _, _, _, rfl, ⟨rfl, rfl⟩, ⟨rfl, rfl, rfl, rfl, rfl⟩,
    ⟨rfl, rfl, rfl, rfl⟩, ⟨rfl, rfl, rfl, rfl⟩, ⟨rfl, rfl⟩, ⟨rfl, rfl⟩⟩

theorem packing_nodes_alias_child_witness :
    bli_l3_thrinfo_create_paths true sample_env opid_t.BLIS_GEMM side_t.BLIS_LEFT
      = Except.ok sample_paths ∧
    sample_chain ∈ chains_of sample_paths.paths ∧
    ∃ jc_info kc_info pack_kc_in ic_info pack_ic_in jr_info ir_info : node_t,
      chain_nodes sample_chain
        = [jc_info, kc_info, pack_kc_in, ic_info, pack_ic_in, jr_info, ir_info] ∧
      (pack_kc_in.free_comms = false ∧ pack_ic_in.free_comms = false) ∧
      (jc_info.free_comms = true ∧ kc_info.free_comms = true ∧ ic_info.free_comms = true ∧
        jr_info.free_comms = true ∧ ir_info.free_comms = true) ∧
      (pack_kc_in.ocomm = ic_info.ocomm ∧ pack_kc_in.ocomm_id = ic_info.ocomm_id ∧
        pack_kc_in.icomm = ic_info.icomm ∧ pack_kc_in.icomm_id = ic_info.icomm_id) ∧
      (pack_ic_in.ocomm = jr_info.ocomm ∧ pack_ic_in.ocomm_id = jr_info.ocomm_id ∧
        pack_ic_in.icomm = jr_info.icomm ∧ pack_ic_in.icomm_id = jr_info.icomm_id) ∧
      (pack_kc_in.ocomm = kc_info.icomm ∧ pack_kc_in.ocomm_id = kc_info.icomm_id) ∧
      (pack_ic_in.ocomm = ic_info.icomm ∧ pack_ic_in.ocomm_id = ic_info.icomm_id) :=
  ⟨rfl, by decide,
    packing_nodes_alias_child true sample_env opid_t.BLIS_GEMM side_t.BLIS_LEFT sample_paths rfl
      sample_chain (by decide)⟩

theorem no_overflow_pos (w : nways_t) (h : no_overflow w) :
    1 ≤ w.jc ∧ 1 ≤ w.kc ∧ 1 ≤ w.ic ∧ 1 ≤ w.jr ∧ 1 ≤ w.ir :=
  ⟨h.1.1, h.2.1.1, h.2.2.1.1, h.2.2.2.1.1, h.2.2.2.2.1.1⟩

theorem dim_wrap_pos (q p : Int) (h1 : 1 ≤ q) (h2 : q ≤ p) (h3 : p < 9223372036854775808) :
    dim_wrap q = q ∧ 1 ≤ dim_wrap q := by
  have h := dim_wrap_of_range q (le_trans (by decide) h1) (lt_of_le_of_lt h2 h3)
  rw [h]
  exact ⟨rfl, h1⟩

/-- With requested factors of at least 1 whose product is below `2^63`, the
thread count is at least 1, for every operation and side. -/
theorem thread_count_pos (l3_op : opid_t) (side : side_t) (w_in : nways_t)
    (hk : w_in.kc = 1) (hj : 1 ≤ w_in.jc) (hi : 1 ≤ w_in.ic) (hr : 1 ≤ w_in.jr)
    (hq : 1 ≤ w_in.ir) (hP : w_in.jc * w_in.ic * w_in.jr * w_in.ir < 9223372036854775808) :
    1 ≤ global_num_threads (nways_eff l3_op side w_in) := by
  have n0 : ∀ x y : Int, 1 ≤ x → 1 ≤ y → 0 ≤ x * y := fun x y hx hy =>
    le_trans Int.one_nonneg (one_le_mul_int x y hx hy)
  have pP : 1 ≤ w_in.jc * w_in.ic * w_in.jr * w_in.ir :=
    one_le_mul_int _ _ (one_le_mul_int _ _ (one_le_mul_int _ _ hj hi) hr) hq
  rw [global_num_threads_wrap]
  unfold nways_eff
  split
  · split
    · -- trmm, right
      have q1 : 1 ≤ w_in.jr * w_in.jc := one_le_mul_int _ _ hr hj
      have q2 : w_in.jr * w_in.jc ≤ w_in.jc * w_in.ic * w_in.jr * w_in.ir := by
        have h1 : w_in.jr * w_in.jc ≤ w_in.jr * w_in.jc * (w_in.ic * w_in.ir) :=
          le_mul_of_one_le_right (le_trans Int.one_nonneg q1) (one_le_mul_int _ _ hi hq)
        have h2 : w_in.jr * w_in.jc * (w_in.ic * w_in.ir)
            = w_in.jc * w_in.ic * w_in.jr * w_in.ir := by ring
        rw [← h2]
        exact h1
      have e1 : dim_mul w_in.jr w_in.jc = w_in.jr * w_in.jc := (dim_wrap_pos _ _ q1 q2 hP).1
      simp only [e1, hk, one_mul, mul_one]
      have e2 : w_in.ic * (w_in.jr * w_in.jc) * w_in.ir
          = w_in.jc * w_in.ic * w_in.jr * w_in.ir := by ring
      rw [e2]
      exact (dim_wrap_pos _ _ pP (le_refl _) hP).2
    · simp only [hk, mul_one]
      exact (dim_wrap_pos _ _ pP (le_refl _) hP).2
  · split
    · split
      · -- trsm, right
        have q1 : 1 ≤ w_in.jc * w_in.ic := one_le_mul_int _ _ hj hi
        have q3 : 1 ≤ w_in.jc * w_in.ic * w_in.jr := one_le_mul_int _ _ q1 hr
        have b3 : w_in.jc * w_in.ic * w_in.jr ≤ w_in.jc * w_in.ic * w_in.jr * w_in.ir :=
          le_mul_of_one_le_right (le_trans Int.one_nonneg q3) hq
        have e1 : dim_mul (dim_mul w_in.jc w_in.ic) w_in.jr = w_in.jc * w_in.ic * w_in.jr := by
          unfold dim_mul
          rw [dim_wrap_mul_left]
          exact (dim_wrap_pos _ _ q3 b3 hP).1
        simp only [e1, one_mul, mul_one]
        exact (dim_wrap_pos _ _ q3 b3 hP).2
      · -- trsm, left
        have q1 : 1 ≤ w_in.ic * w_in.jr := one_le_mul_int _ _ hi hr
        have q3 : 1 ≤ w_in.ic * w_in.jr * w_in.ir := one_le_mul_int _ _ q1 hq
        have b3 : w_in.ic * w_in.jr * w_in.ir ≤ w_in.jc * w_in.ic * w_in.jr * w_in.ir := by
          have h1 : w_in.ic * w_in.jr * w_in.ir ≤ w_in.jc * (w_in.ic * w_in.jr * w_in.ir) :=
            le_mul_left_int _ _ hj (le_trans Int.one_nonneg q3)
          have h2 : w_in.jc * (w_in.ic * w_in.jr * w_in.ir)
              = w_in.jc * w_in.ic * w_in.jr * w_in.ir := by ring
          rw [← h2]
          exact h1
        have e1 : dim_mul (dim_mul w_in.ic w_in.jr) w_in.ir = w_in.ic * w_in.jr * w_in.ir := by
          unfold dim_mul
          rw [dim_wrap_mul_left]
          exact (dim_wrap_pos _ _ q3 b3 hP).1
        simp only [e1, one_mul, mul_one]
        exact (dim_wrap_pos _ _ q3 b3 hP).2
    · simp only [hk, mul_one]
      exact (dim_wrap_pos _ _ pP (le_refl _) hP).2

/-- The assertion is what fails exactly when the thread count is 0. -/
theorem assertion_iff (w : nways_t) :
    create_paths_from w = Except.error stop_t.assertion_failed ↔ global_num_threads w = 0 := by
  constructor
  · intro h
    by_contra hN
    unfold create_paths_from at h
    rw [if_neg hN] at h
    dsimp only at h
    split at h
    · rename_i stop hs
      have := loops_error w _ _ stop hs
      rw [this] at h
      cases h
    · cases h
  · intro h
    unfold create_paths_from
    rw [if_pos h]

/-- C18, counterexample.  With `BLIS_JC_NT = BLIS_IC_NT = 2^32` and the other
two factors 1, all requested and all effective factors are at least 1 and their
product is `2^64`, not 0; the product computed in `dim_t` is 0 and the assertion
fails. -/
theorem thread_count_wraps_to_zero :
    (1 ≤ (nways_in true overflow_env).jc ∧ 1 ≤ (nways_in true overflow_env).ic ∧
      1 ≤ (nways_in true overflow_env).jr ∧ 1 ≤ (nways_in true overflow_env).ir) ∧
    nways_eff opid_t.BLIS_GEMM side_t.BLIS_LEFT (nways_in true overflow_env)
      = { jc := 4294967296, kc := 1, ic := 4294967296, jr := 1, ir := 1 } ∧
    (4294967296 : Int) * 1 * 4294967296 * 1 * 1 ≠ 0 ∧
    global_num_threads (nways_eff opid_t.BLIS_GEMM side_t.BLIS_LEFT (nways_in true overflow_env))
      = 0 ∧
    bli_l3_thrinfo_create_paths true overflow_env opid_t.BLIS_GEMM side_t.BLIS_LEFT
      = Except.error stop_t.assertion_failed := by
  refine ⟨by decide, by decide, by decide, by decide, rfl⟩

/-- C18, amended.  `bli_l3_thrinfo_create_paths` fails its assertion exactly when
the product of the five effective factors as computed in `dim_t`, that is, reduced
modulo `2^64`, is 0; and if the four requested factors are at least 1 and their
product is below `2^63`, then for every operation and side the total thread count
is at least 1 and the assertion holds. -/
theorem thread_count_assertion (multithreading : Bool) (bli_env_read_nway : String → dim_t)
    (l3_op : opid_t) (side : side_t) :
    (bli_l3_thrinfo_create_paths multithreading bli_env_read_nway l3_op side
        = Except.error stop_t.assertion_failed
      ↔ global_num_threads (nways_eff l3_op side (nways_in multithreading bli_env_read_nway))
          = 0) ∧
    global_num_threads (nways_eff l3_op side (nways_in multithreading bli_env_read_nway))
      = dim_wrap ((nways_eff l3_op side (nways_in multithreading bli_env_read_nway)).jc
          * (nways_eff l3_op side (nways_in multithreading bli_env_read_nway)).kc
          * (nways_eff l3_op side (nways_in multithreading bli_env_read_nway)).ic
          * (nways_eff l3_op side (nways_in multithreading bli_env_read_nway)).jr
          * (nways_eff l3_op side (nways_in multithreading bli_env_read_nway)).ir) ∧
    (1 ≤ (nways_in multithreading bli_env_read_nway).jc ∧
        1 ≤ (nways_in multithreading bli_env_read_nway).ic ∧
        1 ≤ (nways_in multithreading bli_env_read_nway).jr ∧
        1 ≤ (nways_in multithreading bli_env_read_nway).ir ∧
        (nways_in multithreading bli_env_read_nway).jc
          * (nways_in multithreading bli_env_read_nway).ic
          * (nways_in multithreading bli_env_read_nway).jr
          * (nways_in multithreading bli_env_read_nway).ir < 9223372036854775808 →
      1 ≤ global_num_threads (nways_eff l3_op side (nways_in multithreading bli_env_read_nway)) ∧
      bli_l3_thrinfo_create_paths multithreading bli_env_read_nway l3_op side
        ≠ Except.error stop_t.assertion_failed) ∧
    (bli_l3_thrinfo_create_paths true (fun _ => 0) opid_t.BLIS_GEMM side_t.BLIS_LEFT
        = Except.error stop_t.assertion_failed ∧
      bli_l3_thrinfo_create_paths true sample_env opid_t.BLIS_TRSM side_t.BLIS_RIGHT
        ≠ Except.error stop_t.assertion_failed) := by
  refine ⟨assertion_iff _, global_num_threads_wrap _, ?_, rfl, ?_⟩
  · intro h
    obtain ⟨hj, hi, hr, hq, hP⟩ := h
    have hpos := thread_count_pos l3_op side _ (nways_in_kc multithreading bli_env_read_nway)
      hj hi hr hq hP
    refine ⟨hpos, ?_⟩
    intro hfail
    have h0 := (assertion_iff _).1 hfail
    rw [h0] at hpos
    exact absurd hpos (by decide)
  · intro hfail
    have h0 := (assertion_iff _).1 hfail
    revert h0
    decide
/-! ## Every slot is written once -/

/-- C1, counterexample.  With `BLIS_JC_NT = BLIS_IC_NT = 2^32` all five effective
factors of gemm are at least 1, but their product `2^64` is 0 in `dim_t`: the
assertion fails, no array is returned and no slot is written. -/
theorem create_paths_product_overflow :
    nways_eff opid_t.BLIS_GEMM side_t.BLIS_LEFT (nways_in true overflow_env)
      = { jc := 4294967296, kc := 1, ic := 4294967296, jr := 1, ir := 1 } ∧
    (1 ≤ (nways_eff opid_t.BLIS_GEMM side_t.BLIS_LEFT (nways_in true overflow_env)).jc ∧
      1 ≤ (nways_eff opid_t.BLIS_GEMM side_t.BLIS_LEFT (nways_in true overflow_env)).kc ∧
      1 ≤ (nways_eff opid_t.BLIS_GEMM side_t.BLIS_LEFT (nways_in true overflow_env)).ic ∧
      1 ≤ (nways_eff opid_t.BLIS_GEMM side_t.BLIS_LEFT (nways_in true overflow_env)).jr ∧
      1 ≤ (nways_eff opid_t.BLIS_GEMM side_t.BLIS_LEFT (nways_in true overflow_env)).ir) ∧
    global_num_threads (nways_eff opid_t.BLIS_GEMM side_t.BLIS_LEFT (nways_in true overflow_env))
      = 0 ∧
    bli_l3_thrinfo_create_paths true overflow_env opid_t.BLIS_GEMM side_t.BLIS_LEFT
      = Except.error stop_t.assertion_failed ∧
    ¬ (∃ r, bli_l3_thrinfo_create_paths true overflow_env opid_t.BLIS_GEMM side_t.BLIS_LEFT
      = Except.ok r) := by
  refine ⟨by decide, by decide, by decide, rfl, ?_⟩
  rintro ⟨r, hr⟩
  have h : bli_l3_thrinfo_create_paths true overflow_env opid_t.BLIS_GEMM side_t.BLIS_LEFT
      = Except.error stop_t.assertion_failed := rfl
  rw [h] at hr
  cases hr

/-- C1, amended.  With all five effective factors `w` at least 1 and at most
`INT_MAX`, and their product `N` below `2^61`, `bli_l3_thrinfo_create_paths`
returns an array of `N = global_num_threads` slots; its stores hit the indices
`0, 1, .., N-1` in this order, so every slot is written exactly once; the map from
loop indices to `global_comm_id = a*jc_nt + b*kc_nt + c*ic_nt + d*jr_nt + e*ir_nt`
is a bijection from the loop ranges onto `0..N-1`; and the root in slot `g` has
outer id `g` in the global communicator, which was created for `N` threads. -/
theorem create_paths_fills_every_slot_once (multithreading : Bool)
    (bli_env_read_nway : String → dim_t) (l3_op : opid_t) (side : side_t) (w : nways_t)
    (hw : w = nways_eff l3_op side (nways_in multithreading bli_env_read_nway))
    (hno : no_overflow w) :
    ∃ r, bli_l3_thrinfo_create_paths multithreading bli_env_read_nway l3_op side
        = Except.ok r ∧
      global_num_threads w = w.jc * w.kc * w.ic * w.jr * w.ir ∧
      r.paths.length = (global_num_threads w).toNat ∧
      store_indices r.final = (List.range (global_num_threads w).toNat).map Int.ofNat ∧
      (∀ g : dim_t, 0 ≤ g → g < global_num_threads w → (store_indices r.final).count g = 1) ∧
      (∀ g ∈ store_indices r.final, 0 ≤ g ∧ g < global_num_threads w) ∧
      (∀ a b c d e : dim_t, in_ranges w a b c d e →
        global_comm_id w a b c d e
          = a * jc_nt w + b * kc_nt w + c * ic_nt w + d * jr_nt w + e * ir_nt w ∧
        0 ≤ global_comm_id w a b c d e ∧ global_comm_id w a b c d e < global_num_threads w) ∧
      (∀ a b c d e a2 b2 c2 d2 e2 : dim_t,
        in_ranges w a b c d e → in_ranges w a2 b2 c2 d2 e2 →
        global_comm_id w a b c d e = global_comm_id w a2 b2 c2 d2 e2 →
        a = a2 ∧ b = b2 ∧ c = c2 ∧ d = d2 ∧ e = e2) ∧
      (∀ g : dim_t, 0 ≤ g → g < global_num_threads w →
        ∃ a b c d e : dim_t, in_ranges w a b c d e ∧ global_comm_id w a b c d e = g) ∧
      (∀ g : dim_t, 0 ≤ g → g < global_num_threads w →
        ∃ t, r.paths[g.toNat]? = some (some t) ∧ t.ocomm? = some r.global_comm ∧
          t.ocomm_id? = some g) ∧
      r.global_comm.n_threads = global_num_threads w := by
  have hw1 := no_overflow_pos w hno
  obtain ⟨r, hr, hri⟩ := create_paths_refines w hno
  obtain ⟨r2, hr2, hgc, hidx, hpaths, hroots⟩ := create_paths_from_spec w hw1
  rw [hri] at hr2
  injection hr2 with hr2
  subst hr2
  obtain ⟨eN, e4, e3, e2⟩ := nt_exact w hno
  have hN := global_num_threads_pos w hw1
  have hcast : (((ideal_global_num_threads w).toNat : Nat) : Int) = ideal_global_num_threads w :=
    Int.toNat_of_nonneg (le_trans Int.one_nonneg hN)
  have hlen : r.final.stores.length = (ideal_global_num_threads w).toNat := by
    have := congrArg List.length hidx
    simpa [store_indices] using this
  have hr3 : bli_l3_thrinfo_create_paths multithreading bli_env_read_nway l3_op side
      = Except.ok r := by
    unfold bli_l3_thrinfo_create_paths
    rw [← hw]
    exact hr
  rw [eN]
  refine ⟨r, hr3, rfl, ?_, hidx, ?_, ?_, ?_, ?_, ?_, ?_, ?_⟩
  · rw [hpaths, List.length_map, hlen]
  · intro g h0 h1
    rw [hidx]
    exact count_range_cast _ g h0 (by rw [hcast]; exact h1)
  · intro g hg
    rw [hidx, List.mem_map] at hg
    obtain ⟨n, hn, rfl⟩ := hg
    rw [List.mem_range] at hn
    refine ⟨Int.ofNat_nonneg n, ?_⟩
    rw [← hcast]
    exact Int.ofNat_lt.mpr hn
  · intro a b c d e h
    rw [(ids_exact w hno a b c d e h).2.2.2.2, e4, e3, e2]
    refine ⟨?_, global_comm_id_bound w a b c d e h⟩
    simp only [ideal_global_comm_id]
    ring
  · intro a b c d e a2 b2 c2 d2 e2 h h2 heq
    rw [(ids_exact w hno a b c d e h).2.2.2.2,
      (ids_exact w hno a2 b2 c2 d2 e2 h2).2.2.2.2] at heq
    exact global_comm_id_inj w a b c d e a2 b2 c2 d2 e2 h h2 heq
  · intro g h0 h1
    obtain ⟨a, b, c, d, e, hin, hg⟩ := global_comm_id_surj w hw1 g ⟨h0, h1⟩
    exact ⟨a, b, c, d, e, hin, by rw [(ids_exact w hno a b c d e hin).2.2.2.2, hg]⟩
  · intro g h0 h1
    have hlt : g.toNat < r.final.stores.length := by
      rw [hlen]
      exact (Int.toNat_lt_toNat (lt_of_le_of_lt h0 h1)).mpr h1
    have hmem : r.final.stores[g.toNat] ∈ r.final.stores := List.getElem_mem hlt
    have hfst : (r.final.stores[g.toNat]).1 = g := by
      have h2 : (store_indices r.final)[g.toNat]? = some (Int.ofNat g.toNat) := by
        rw [hidx, List.getElem?_map, List.getElem?_range (hlen ▸ hlt)]
        rfl
      simp only [store_indices, List.getElem?_map, List.getElem?_eq_getElem hlt] at h2
      have h3 : (r.final.stores[g.toNat]).1 = Int.ofNat g.toNat := by simpa using h2
      rw [h3]
      exact Int.toNat_of_nonneg h0
    refine ⟨(r.final.stores[g.toNat]).2, ?_, ?_, ?_⟩
    · rw [hpaths, List.getElem?_map, List.getElem?_eq_getElem hlt]
      rfl
    · exact (hroots _ hmem).1
    · rw [(hroots _ hmem).2, hfst]
  · rw [hgc]

theorem create_paths_fills_every_slot_once_witness :
    ({ jc := 2, kc := 1, ic := 3, jr := 2, ir := 1 } : nways_t)
      = nways_eff opid_t.BLIS_GEMM side_t.BLIS_LEFT (nways_in true sample_env) ∧
    no_overflow { jc := 2, kc := 1, ic := 3, jr := 2, ir := 1 } ∧
    ∃ r, bli_l3_thrinfo_create_paths true sample_env opid_t.BLIS_GEMM side_t.BLIS_LEFT
        = Except.ok r ∧
      r.paths.length = 12 ∧
      store_indices r.final = (List.range 12).map Int.ofNat ∧
      r.global_comm.n_threads = 12 := by
  refine ⟨by decide, by decide, ?_⟩
  obtain ⟨r, h1, _, h2, h3, _, _, _, _, _, _, h4⟩ :=
    create_paths_fills_every_slot_once true sample_env opid_t.BLIS_GEMM side_t.BLIS_LEFT
      { jc := 2, kc := 1, ic := 3, jr := 2, ir := 1 } (by decide) (by decide)
  exact ⟨r, h1, h2, h3, h4⟩
/-! ## The returned value where nothing overflows -/

theorem level_nt_exact (w : nways_t) (h : no_overflow w) (lv : Nat) :
    level_nt w lv = ideal_level_nt w lv := by
  obtain ⟨e5, e4, e3, e2⟩ := nt_exact w h
  match lv with
  | 0 => exact e5
  | 1 => exact e4
  | 2 => exact e3
  | 3 => exact e2
  | 4 => rfl
  | _ + 5 => rfl

theorem ideal_refs_in_returned (w : nways_t) (r : paths_t)
    (hr : ideal_create_paths_from w = some r) :
    ∀ st ∈ r.final.stores, ∀ e ∈ level_refs st.2, e.2.1 ∈ r.final.comms := by
  unfold ideal_create_paths_from at hr
  split at hr
  · cases hr
  · injection hr with hr
    subst hr
    have h0 : refs_in []
        ({ comms := [], n_nodes := 0, stores := [] } : build_t) := by
      constructor
      · intro st hst
        simp at hst
      · intro cm hcm
        simp at hcm
    exact (refs_in_loops _ _ _ (refs_in_create [] _ _ h0)).1

/-- Where nothing overflows the paths are returned, and the returned value has
the properties of the construction over unbounded integers, with the counts that
the code computes. -/
theorem returned_levels (w : nways_t) (hno : no_overflow w) :
    ∃ r, create_paths_from w = Except.ok r ∧
      r.paths = r.final.stores.map (fun st => some st.2) ∧
      r.final.stores.length = (global_num_threads w).toNat ∧
      book_ok r.final ∧
      (∀ st ∈ r.final.stores, ideal_store_ok w st) ∧
      frees_of r.final.stores = r.final.comms ∧
      (∀ cm ∈ r.final.comms, ∃ lv : Nat, cm.n_threads = level_nt w lv ∧
        refs_for cm r.final.stores
          = (List.range cm.n_threads.toNat).map (fun x : Nat => (lv, (x : Int)))) ∧
      node_frees_of r.final.stores = (List.range r.final.n_nodes).map addr_t.heap ∧
      (∀ st ∈ r.final.stores, ∀ e ∈ level_refs st.2, e.2.1 ∈ r.final.comms) ∧
      store_indices r.final = (List.range (global_num_threads w).toNat).map Int.ofNat ∧
      roots_ok r.global_comm r.final ∧
      r.global_comm = { uid := 0, n_threads := global_num_threads w } := by
  have hw1 := no_overflow_pos w hno
  obtain ⟨r, hr, hri⟩ := create_paths_refines w hno
  obtain ⟨r2, hr2, h1, h2, h3, h4, h5, h6, h7⟩ := create_paths_levels w hw1
  rw [hri] at hr2
  injection hr2 with hr2
  subst hr2
  obtain ⟨r3, hr3, hgc, hidx, _, hroots⟩ := create_paths_from_spec w hw1
  rw [hri] at hr3
  injection hr3 with hr3
  subst hr3
  refine ⟨r, hr, h1, ?_, h3, h4, h5, ?_, h7, ideal_refs_in_returned w r hri, ?_, hroots, ?_⟩
  · rw [(nt_exact w hno).1]
    exact h2
  · intro cm hcm
    obtain ⟨lv, hl1, hl2⟩ := h6 cm hcm
    exact ⟨lv, by rw [level_nt_exact w hno lv]; exact hl1, hl2⟩
  · rw [(nt_exact w hno).1]
    exact hidx
  · rw [(nt_exact w hno).1]
    exact hgc
/-! ## Teardown -/

/-- C13, counterexample.  With `BLIS_JC_NT = BLIS_IC_NT = -1` the product of the
effective factors of gemm is 1, so the assertion holds and the global
communicator is created, but no loop body runs: the one slot of the returned
array is never assigned.  `bli_l3_thrinfo_free_paths` with `num = 1` reads that
slot, which is undefined, and the global communicator is not freed by any run of
the teardown. -/
theorem teardown_of_unassigned_slot :
    nways_eff opid_t.BLIS_GEMM side_t.BLIS_LEFT (nways_in true negative_env)
      = { jc := -1, kc := 1, ic := -1, jr := 1, ir := 1 } ∧
    global_num_threads (nways_eff opid_t.BLIS_GEMM side_t.BLIS_LEFT (nways_in true negative_env))
      = 1 ∧
    bli_l3_thrinfo_create_paths true negative_env opid_t.BLIS_GEMM side_t.BLIS_LEFT
      = Except.ok ⟨[none], ⟨0, 1⟩, ⟨[⟨0, 1⟩], 0, []⟩⟩ ∧
    bli_l3_thrinfo_free_paths [none] 1 free_init = none ∧
    ¬ (∃ (r : paths_t) (f : free_t),
      bli_l3_thrinfo_create_paths true negative_env opid_t.BLIS_GEMM side_t.BLIS_LEFT
        = Except.ok r ∧
      bli_l3_thrinfo_free_paths r.paths
        (global_num_threads
          (nways_eff opid_t.BLIS_GEMM side_t.BLIS_LEFT (nways_in true negative_env)))
        free_init = some f ∧
      ∀ cm ∈ r.final.comms, f.freed_comms.count cm = 1) := by
  refine ⟨by decide, by decide, rfl, rfl, ?_⟩
  rintro ⟨r, f, hr, hf, _⟩
  have h : bli_l3_thrinfo_create_paths true negative_env opid_t.BLIS_GEMM side_t.BLIS_LEFT
      = Except.ok ⟨[none], ⟨0, 1⟩, ⟨[⟨0, 1⟩], 0, []⟩⟩ := rfl
  rw [h] at hr
  injection hr with hr
  subst hr
  have h2 : bli_l3_thrinfo_free_paths [none]
      (global_num_threads
        (nways_eff opid_t.BLIS_GEMM side_t.BLIS_LEFT (nways_in true negative_env)))
      free_init = none := rfl
  rw [h2] at hf
  cases hf

/-- C13, amended.  Exactly-once teardown where nothing overflows.  With all five
effective factors `w` at least 1 and at most `INT_MAX`, and their product `N`
below `2^61`, an array is returned and `bli_l3_thrinfo_free_paths` on it with
`num = N` runs to its end; the communicators it frees, in order, are exactly the
communicators created during construction, which are pairwise distinct, so each
is freed exactly once; the structs it frees are pairwise distinct and are, up to
order, the structs of all chains of the array, so each struct of each chain is
freed exactly once; and the array itself is freed once. -/
theorem teardown_exactly_once (multithreading : Bool) (bli_env_read_nway : String → dim_t)
    (l3_op : opid_t) (side : side_t) (w : nways_t)
    (hw : w = nways_eff l3_op side (nways_in multithreading bli_env_read_nway))
    (hno : no_overflow w) :
    ∃ (r : paths_t) (f : free_t),
      bli_l3_thrinfo_create_paths multithreading bli_env_read_nway l3_op side = Except.ok r ∧
      bli_l3_thrinfo_free_paths r.paths (global_num_threads w) free_init = some f ∧
      f.freed_comms = r.final.comms ∧
      r.global_comm ∈ r.final.comms ∧
      r.final.comms.Nodup ∧
      (∀ cm : thrcomm_t, f.freed_comms.count cm = if cm ∈ r.final.comms then 1 else 0) ∧
      f.freed_nodes.Nodup ∧
      f.freed_nodes.Perm
        ((chains_of r.paths).flatMap (fun t => (chain_nodes t).map (fun nd => nd.addr))) ∧
      (∀ t ∈ chains_of r.paths, ∀ nd ∈ chain_nodes t, f.freed_nodes.count nd.addr = 1) ∧
      f.freed_nodes = (List.range r.final.n_nodes).map addr_t.heap ∧
      f.freed_arrays = 1 := by
  obtain ⟨r, hr, hpaths, hlen, hbk, hok, hfr, _, hnodes, hin, _, hroots, _⟩ :=
    returned_levels w hno
  have hpos := no_overflow_pos w hno
  have hr3 : bli_l3_thrinfo_create_paths multithreading bli_env_read_nway l3_op side
      = Except.ok r := by
    unfold bli_l3_thrinfo_create_paths
    rw [← hw]
    exact hr
  have hch : chains_of r.paths = r.final.stores.map Prod.snd := by
    rw [hpaths, chains_of_stores]
  have hp2 : r.paths = (r.final.stores.map Prod.snd).map some := by
    rw [hpaths, List.map_map]; rfl
  have hN : 1 ≤ global_num_threads w := by
    rw [(nt_exact w hno).1]
    exact global_num_threads_pos w hpos
  have hnum : global_num_threads w = (((r.final.stores.map Prod.snd).length : Nat) : Int) := by
    rw [List.length_map, hlen]
    exact (Int.toNat_of_nonneg (le_trans Int.one_nonneg hN)).symm
  obtain ⟨f, hfree, hfc, hfn, hfa⟩ :=
    free_paths_eq (r.final.stores.map Prod.snd) (global_num_threads w) hnum free_init
  rw [← hp2] at hfree
  have hc : f.freed_comms = r.final.comms := by
    rw [hfc, ← hfr, List.flatMap_map]
    rfl
  have hn : f.freed_nodes = (List.range r.final.n_nodes).map addr_t.heap := by
    rw [hfn, ← hnodes, List.flatMap_map]
    rfl
  have hcn := comms_nodup_of_book r.final hbk
  have hnd : ((List.range r.final.n_nodes).map addr_t.heap).Nodup :=
    (List.nodup_range _).map (fun x y h => addr_t.heap.inj h)
  have hperm : ((List.range r.final.n_nodes).map addr_t.heap).Perm
      ((chains_of r.paths).flatMap (fun t => (chain_nodes t).map (fun nd => nd.addr))) := by
    rw [← hnodes, hch, List.flatMap_map]
    unfold node_frees_of
    apply List.Perm.flatMap_left
    intro st hst
    obtain ⟨gc, jc, kc, ic, jr, ir, a, b, c, d, e, n, hx, _⟩ := hok st hst
    have hx2 : st.2 = ideal_chain_of w gc jc kc ic jr ir a b c d e n := by rw [hx]
    show ((bli_l3_thrinfo_free st.2 free_init).freed_nodes).Perm
      ((chain_nodes st.2).map (fun nd => nd.addr))
    rw [hx2]
    exact free_nodes_perm_chain_of w gc jc kc ic jr ir a b c d e n
  have hgc : r.global_comm ∈ r.final.comms := by
    have hne : r.final.stores ≠ [] := by
      intro h0
      rw [h0] at hlen
      have h1 : (0 : Int) < global_num_threads w := lt_of_lt_of_le Int.one_pos hN
      have h2 := (Int.toNat_lt_toNat h1).2 h1
      rw [← hlen] at h2
      exact absurd h2 (by decide)
    obtain ⟨st, hst⟩ := List.exists_mem_of_ne_nil _ hne
    obtain ⟨gc, jc, kc, ic, jr, ir, a, b, c, d, e, n, hx, _⟩ := hok st hst
    have hx2 : st.2 = ideal_chain_of w gc jc kc ic jr ir a b c d e n := by rw [hx]
    have hg := (hroots st hst).1
    rw [hx2] at hg
    have hg2 : gc = r.global_comm := Option.some.inj hg
    have hm : ((0, gc, ideal_global_comm_id w a b c d e) : Nat × thrcomm_t × dim_t)
        ∈ level_refs st.2 := by
      rw [hx2, level_refs_chain_of]
      exact List.mem_cons_self _ _
    rw [← hg2]
    exact hin st hst _ hm
  refine ⟨r, f, hr3, hfree, hc, hgc, hcn, ?_, ?_, ?_, ?_, hn, ?_⟩
  · intro cm
    rw [hc]
    by_cases hm : cm ∈ r.final.comms
    · rw [if_pos hm]
      exact List.count_eq_one_of_mem hcn hm
    · rw [if_neg hm]
      exact List.count_eq_zero_of_not_mem hm
  · rw [hn]
    exact hnd
  · rw [hn]
    exact hperm
  · intro t ht nd hnd2
    rw [hn]
    apply List.count_eq_one_of_mem hnd
    rw [hperm.mem_iff]
    exact List.mem_flatMap.2 ⟨t, ht, List.mem_map.2 ⟨nd, hnd2, rfl⟩⟩
  · rw [hfa]
    rfl

theorem teardown_exactly_once_witness :
    ({ jc := 2, kc := 1, ic := 3, jr := 2, ir := 1 } : nways_t)
      = nways_eff opid_t.BLIS_GEMM side_t.BLIS_LEFT (nways_in true sample_env) ∧
    no_overflow { jc := 2, kc := 1, ic := 3, jr := 2, ir := 1 } ∧
    ∃ (r : paths_t) (f : free_t),
      bli_l3_thrinfo_create_paths true sample_env opid_t.BLIS_GEMM side_t.BLIS_LEFT
        = Except.ok r ∧
      bli_l3_thrinfo_free_paths r.paths 12 free_init = some f ∧
      f.freed_comms = r.final.comms ∧
      r.final.comms.Nodup ∧
      f.freed_nodes.Nodup ∧
      f.freed_nodes = (List.range r.final.n_nodes).map addr_t.heap ∧
      f.freed_arrays = 1 := by
  obtain ⟨r, f, h0, h1, h2, _, h3, _, h5, _, _, h8, h9⟩ :=
    teardown_exactly_once true sample_env opid_t.BLIS_GEMM side_t.BLIS_LEFT
      { jc := 2, kc := 1, ic := 3, jr := 2, ir := 1 } (by decide) (by decide)
  exact ⟨by decide, by decide, r, f, h0, h1, h2, h3, h5, h8, h9⟩
/-! ## Group sizes and ranks -/

/-- C17, counterexample.  With `BLIS_JC_NT = BLIS_IC_NT = -1` the global
communicator is created for 1 participant, but no loop body runs and no chain is
built: the number of chains that reference the global communicator is 0, not 1,
and no chain holds id 0 for it. -/
theorem group_without_members :
    nways_eff opid_t.BLIS_GEMM side_t.BLIS_LEFT (nways_in true negative_env)
      = { jc := -1, kc := 1, ic := -1, jr := 1, ir := 1 } ∧
    ∃ r : paths_t,
      bli_l3_thrinfo_create_paths true negative_env opid_t.BLIS_GEMM side_t.BLIS_LEFT
        = Except.ok r ∧
      r.global_comm ∈ r.final.comms ∧
      r.global_comm.n_threads = 1 ∧
      r.global_comm.n_threads
        = level_nt (nways_eff opid_t.BLIS_GEMM side_t.BLIS_LEFT (nways_in true negative_env)) 0 ∧
      chains_of r.paths = [] ∧
      ((chains_of r.paths).filter (fun t => (holds_id t r.global_comm).isSome)).length = 0 ∧
      ((chains_of r.paths).filter (fun t => (holds_id t r.global_comm).isSome)).length
        ≠ r.global_comm.n_threads.toNat ∧
      ((chains_of r.paths).filter (fun t => holds_id t r.global_comm = some 0)).length ≠ 1 :=
  ⟨by decide, ⟨[none], ⟨0, 1⟩, ⟨[⟨0, 1⟩], 0, []⟩⟩, rfl, by decide, rfl, by decide, rfl, rfl,
    by decide, by decide⟩

/-- C17, amended.  Group sizing and ranks where nothing overflows.  With all five
effective factors `w` at least 1 and at most `INT_MAX`, and their product `N`
below `2^61`, an array is returned and: the participant count of a level is the
product of the effective factors of all finer levels (global: `N`; jc:
`kc*ic*jr*ir`; kc: `ic*jr*ir`; ic: `jr*ir`; jr: `ir`; ir: 1); every communicator
created during construction belongs to one level `lv`, was created with the
participant count of that level and is referenced by the chains at that level
only; the number of chains that reference it equals its participant count; the
ids these chains hold for it are `0, 1, .., count-1` (in the order of the array),
so exactly one chain holds id 0; and every reference of a chain to a communicator
carries the id the chain holds for it. -/
theorem group_sizes_and_ranks (multithreading : Bool) (bli_env_read_nway : String → dim_t)
    (l3_op : opid_t) (side : side_t) (w : nways_t)
    (hw : w = nways_eff l3_op side (nways_in multithreading bli_env_read_nway))
    (hno : no_overflow w) :
    ∃ r : paths_t,
      bli_l3_thrinfo_create_paths multithreading bli_env_read_nway l3_op side = Except.ok r ∧
      (level_nt w 0 = w.jc * w.kc * w.ic * w.jr * w.ir ∧
        level_nt w 1 = w.kc * w.ic * w.jr * w.ir ∧
        level_nt w 2 = w.ic * w.jr * w.ir ∧
        level_nt w 3 = w.jr * w.ir ∧
        level_nt w 4 = w.ir ∧
        level_nt w 5 = 1) ∧
      r.global_comm ∈ r.final.comms ∧
      r.global_comm.n_threads = level_nt w 0 ∧
      (∀ cm ∈ r.final.comms, ∃ lv : Nat, lv ≤ 5 ∧ cm.n_threads = level_nt w lv ∧
        (∀ t ∈ chains_of r.paths, ∀ e ∈ level_refs t, e.2.1 = cm → e.1 = lv) ∧
        ((chains_of r.paths).filter (fun t => (holds_id t cm).isSome)).length
          = cm.n_threads.toNat ∧
        (chains_of r.paths).filterMap (fun t => holds_id t cm)
          = (List.range cm.n_threads.toNat).map Int.ofNat ∧
        ((chains_of r.paths).filter (fun t => holds_id t cm = some 0)).length = 1) ∧
      (∀ t ∈ chains_of r.paths, ∀ p ∈ chain_refs t, holds_id t p.1 = some p.2) := by
  obtain ⟨r, hr, hpaths, hlen, _, hok, _, hnew, _, hin, _, hroots, hgc⟩ :=
    returned_levels w hno
  have hpos := no_overflow_pos w hno
  have hr3 : bli_l3_thrinfo_create_paths multithreading bli_env_read_nway l3_op side
      = Except.ok r := by
    unfold bli_l3_thrinfo_create_paths
    rw [← hw]
    exact hr
  have hch : chains_of r.paths = r.final.stores.map Prod.snd := by
    rw [hpaths, chains_of_stores]
  have hN : 1 ≤ global_num_threads w := by
    rw [(nt_exact w hno).1]
    exact global_num_threads_pos w hpos
  have hgm : r.global_comm ∈ r.final.comms := by
    have hne : r.final.stores ≠ [] := by
      intro h0
      rw [h0] at hlen
      have h1 : (0 : Int) < global_num_threads w := lt_of_lt_of_le Int.one_pos hN
      have h2 := (Int.toNat_lt_toNat h1).2 h1
      rw [← hlen] at h2
      exact absurd h2 (by decide)
    obtain ⟨st, hst⟩ := List.exists_mem_of_ne_nil _ hne
    obtain ⟨gc, jc, kc, ic, jr, ir, a, b, c, d, e, n, hx, _⟩ := hok st hst
    have hx2 : st.2 = ideal_chain_of w gc jc kc ic jr ir a b c d e n := by rw [hx]
    have hg := (hroots st hst).1
    rw [hx2] at hg
    have hg2 : gc = r.global_comm := Option.some.inj hg
    have hm : ((0, gc, ideal_global_comm_id w a b c d e) : Nat × thrcomm_t × dim_t)
        ∈ level_refs st.2 := by
      rw [hx2, level_refs_chain_of]
      exact List.mem_cons_self _ _
    rw [← hg2]
    exact hin st hst _ hm
  have hlevels : level_nt w 0 = w.jc * w.kc * w.ic * w.jr * w.ir ∧
      level_nt w 1 = w.kc * w.ic * w.jr * w.ir ∧
      level_nt w 2 = w.ic * w.jr * w.ir ∧
      level_nt w 3 = w.jr * w.ir ∧
      level_nt w 4 = w.ir ∧
      level_nt w 5 = 1 :=
    ⟨level_nt_exact w hno 0, level_nt_exact w hno 1, level_nt_exact w hno 2,
      level_nt_exact w hno 3, rfl, rfl⟩
  refine ⟨r, hr3, hlevels, hgm, by rw [hgc]; rfl, ?_, ?_⟩
  · intro cm hcm
    obtain ⟨lv, hcnt, hrefs⟩ := hnew cm hcm
    have hge : 1 ≤ cm.n_threads := by
      rw [hcnt, level_nt_exact w hno lv]; exact level_nt_pos w hpos lv
    have hn : 0 < cm.n_threads.toNat := by
      have h0 : (0 : Int).toNat < cm.n_threads.toNat :=
        (Int.toNat_lt_toNat (lt_of_lt_of_le Int.one_pos hge)).2
          (lt_of_lt_of_le Int.one_pos hge)
      exact h0
    have hlevel : ∀ st ∈ r.final.stores, ∀ e ∈ level_refs st.2, e.2.1 = cm → e.1 = lv := by
      intro st hst e he hecm
      have hmem : (e.1, e.2.2) ∈ refs_for cm r.final.stores := by
        unfold refs_for
        exact List.mem_flatMap.2 ⟨st, hst, List.mem_filterMap.2 ⟨e, he, by rw [if_pos hecm]⟩⟩
      rw [hrefs, List.mem_map] at hmem
      obtain ⟨x, _, hx⟩ := hmem
      exact (congrArg Prod.fst hx).symm
    have hids : (chains_of r.paths).filterMap (fun t => holds_id t cm)
        = (List.range cm.n_threads.toNat).map Int.ofNat := by
      rw [hch, holds_ids_eq w r.final.stores hok cm, hrefs, List.map_map]
      rfl
    have hlv : lv ≤ 5 := by
      have hmem : ((lv, ((0 : Nat) : Int)) : Nat × dim_t) ∈ refs_for cm r.final.stores := by
        rw [hrefs]
        exact List.mem_map.2 ⟨0, List.mem_range.2 hn, rfl⟩
      unfold refs_for at hmem
      obtain ⟨st, hst, hm⟩ := List.mem_flatMap.1 hmem
      obtain ⟨e, he, hm2⟩ := List.mem_filterMap.1 hm
      obtain ⟨gc, jc, kc, ic, jr, ir, a, b, c, d, e2, n, hx, _⟩ := hok st hst
      have hx2 : st.2 = ideal_chain_of w gc jc kc ic jr ir a b c d e2 n := by rw [hx]
      rw [hx2, level_refs_chain_of] at he
      have h1 : e.1 = lv := by
        split at hm2
        · exact congrArg Prod.fst (Option.some.inj hm2)
        · cases hm2
      rw [← h1]
      simp only [List.mem_cons, List.mem_singleton, List.not_mem_nil, or_false] at he
      rcases he with h | h | h | h | h | h <;> rw [h] <;> simp
    refine ⟨lv, hlv, hcnt, ?_, ?_, hids, ?_⟩
    · intro t ht e he hecm
      rw [hch, List.mem_map] at ht
      obtain ⟨st, hst, hst2⟩ := ht
      subst hst2
      exact hlevel st hst e he hecm
    · rw [length_filter_isSome, hids, List.length_map, List.length_range]
    · rw [count_filterMap_some, hids]
      exact count_range_cast _ 0 (le_refl 0) (by exact_mod_cast hn)
  · intro t ht
    rw [hch, List.mem_map] at ht
    obtain ⟨st, hst, hst2⟩ := ht
    subst hst2
    obtain ⟨gc, jc, kc, ic, jr, ir, a, b, c, d, e, n, hx, _, hnd, _⟩ := hok st hst
    have hx2 : st.2 = ideal_chain_of w gc jc kc ic jr ir a b c d e n := by rw [hx]
    rw [hx2]
    exact consist_chain_of w gc jc kc ic jr ir a b c d e n hnd

theorem group_sizes_and_ranks_witness :
    ({ jc := 2, kc := 1, ic := 3, jr := 2, ir := 1 } : nways_t)
      = nways_eff opid_t.BLIS_GEMM side_t.BLIS_LEFT (nways_in true sample_env) ∧
    no_overflow { jc := 2, kc := 1, ic := 3, jr := 2, ir := 1 } ∧
    ∃ r : paths_t,
      bli_l3_thrinfo_create_paths true sample_env opid_t.BLIS_GEMM side_t.BLIS_LEFT
        = Except.ok r ∧
      (∀ cm ∈ r.final.comms, ∃ lv : Nat, lv ≤ 5 ∧
        cm.n_threads = level_nt { jc := 2, kc := 1, ic := 3, jr := 2, ir := 1 } lv ∧
        (∀ t ∈ chains_of r.paths, ∀ e ∈ level_refs t, e.2.1 = cm → e.1 = lv) ∧
        ((chains_of r.paths).filter (fun t => (holds_id t cm).isSome)).length
          = cm.n_threads.toNat ∧
        (chains_of r.paths).filterMap (fun t => holds_id t cm)
          = (List.range cm.n_threads.toNat).map Int.ofNat ∧
        ((chains_of r.paths).filter (fun t => holds_id t cm = some 0)).length = 1) := by
  obtain ⟨r, h0, _, _, _, h1, _⟩ :=
    group_sizes_and_ranks true sample_env opid_t.BLIS_GEMM side_t.BLIS_LEFT
      { jc := 2, kc := 1, ic := 3, jr := 2, ir := 1 } (by decide) (by decide)
  exact ⟨by decide, by decide, r, h0, h1⟩
/-! ## Teardown of `NULL` and of the two global structs -/

/-- C14. `bli_l3_thrinfo_free` called on `NULL` or on a struct at the address of
one of the two global single-threaded structs returns at once, from any state
`s` of the memory and whatever the fields and the child of that struct are: the
state is returned as it was, so no communicator and no struct is released, the
child is not visited (it is a heap struct here, which a visit would release),
every allocated struct, the global one included, is still allocated and has the
fields it had.  A struct from the heap, in contrast, is released with its
communicators and is not allocated afterwards. -/
theorem free_skips_null_and_singletons (s : free_t) :
    bli_l3_thrinfo_free thrinfo_t.NULL s = s ∧
    (∀ (ocomm icomm : thrcomm_t) (ocomm_id icomm_id n_way work_id : dim_t) (free_comms : Bool)
        (sub_node : thrinfo_t),
      bli_l3_thrinfo_free
          (thrinfo_t.node addr_t.BLIS_PACKM_SINGLE_THREADED ocomm ocomm_id icomm icomm_id
            n_way work_id free_comms sub_node) s = s ∧
      bli_l3_thrinfo_free
          (thrinfo_t.node addr_t.BLIS_GEMM_SINGLE_THREADED ocomm ocomm_id icomm icomm_id
            n_way work_id free_comms sub_node) s = s) ∧
    (∀ (t : thrinfo_t),
      (t = thrinfo_t.NULL ∨
        (∃ (addr : addr_t) (ocomm icomm : thrcomm_t) (ocomm_id icomm_id n_way work_id : dim_t)
          (free_comms : Bool) (sub_node : thrinfo_t),
          (addr = addr_t.BLIS_PACKM_SINGLE_THREADED ∨ addr = addr_t.BLIS_GEMM_SINGLE_THREADED) ∧
          t = thrinfo_t.node addr ocomm ocomm_id icomm icomm_id n_way work_id free_comms
            sub_node)) →
      (bli_l3_thrinfo_free t s).freed_comms = s.freed_comms ∧
      (bli_l3_thrinfo_free t s).freed_nodes = s.freed_nodes ∧
      (bli_l3_thrinfo_free t s).freed_arrays = s.freed_arrays ∧
      (bli_l3_thrinfo_free t s).structs = s.structs ∧
      fields_at (bli_l3_thrinfo_free t s) addr_t.BLIS_PACKM_SINGLE_THREADED
        = fields_at s addr_t.BLIS_PACKM_SINGLE_THREADED ∧
      fields_at (bli_l3_thrinfo_free t s) addr_t.BLIS_GEMM_SINGLE_THREADED
        = fields_at s addr_t.BLIS_GEMM_SINGLE_THREADED ∧
      (∀ addr : addr_t, fields_at (bli_l3_thrinfo_free t s) addr = fields_at s addr)) ∧
    (∀ (ocomm icomm : thrcomm_t) (n : Nat),
      bli_l3_thrinfo_free
          (thrinfo_t.node addr_t.BLIS_PACKM_SINGLE_THREADED ocomm 0 icomm 0 1 0 true
            (thrinfo_t.node (addr_t.heap n) ocomm 0 icomm 0 1 0 true thrinfo_t.NULL)) s = s ∧
      (bli_l3_thrinfo_free
          (thrinfo_t.node (addr_t.heap n) ocomm 0 icomm 0 1 0 true thrinfo_t.NULL) s).freed_comms
        = s.freed_comms ++ [ocomm, icomm] ∧
      (bli_l3_thrinfo_free
          (thrinfo_t.node (addr_t.heap n) ocomm 0 icomm 0 1 0 true thrinfo_t.NULL) s).freed_nodes
        = s.freed_nodes ++ [addr_t.heap n] ∧
      fields_at
          (bli_l3_thrinfo_free
            (thrinfo_t.node (addr_t.heap n) ocomm 0 icomm 0 1 0 true thrinfo_t.NULL) s)
          (addr_t.heap n) = none) := by
  have hs : ∀ (ocomm icomm : thrcomm_t) (ocomm_id icomm_id n_way work_id : dim_t)
      (free_comms : Bool) (sub_node : thrinfo_t),
      bli_l3_thrinfo_free
          (thrinfo_t.node addr_t.BLIS_PACKM_SINGLE_THREADED ocomm ocomm_id icomm icomm_id
            n_way work_id free_comms sub_node) s = s ∧
      bli_l3_thrinfo_free
          (thrinfo_t.node addr_t.BLIS_GEMM_SINGLE_THREADED ocomm ocomm_id icomm icomm_id
            n_way work_id free_comms sub_node) s = s := by
    intro ocomm icomm ocomm_id icomm_id n_way work_id free_comms sub_node
    constructor <;> simp [bli_l3_thrinfo_free]
  refine ⟨rfl, hs, ?_, ?_⟩
  · intro t ht
    have heq : bli_l3_thrinfo_free t s = s := by
      rcases ht with h | ⟨addr, ocomm, icomm, ocomm_id, icomm_id, n_way, work_id, free_comms,
        sub_node, ha, h⟩
      · rw [h]
        rfl
      · rw [h]
        rcases ha with ha | ha
        · rw [ha]
          exact (hs ocomm icomm ocomm_id icomm_id n_way work_id free_comms sub_node).1
        · rw [ha]
          exact (hs ocomm icomm ocomm_id icomm_id n_way work_id free_comms sub_node).2
    rw [heq]
    exact ⟨rfl, rfl, rfl, rfl, rfl, rfl, fun _ => rfl⟩
  · intro ocomm icomm n
    refine ⟨?_, ?_, ?_, ?_⟩
    · simp [bli_l3_thrinfo_free]
    · simp [bli_l3_thrinfo_free, am_chief, bli_thrcomm_free, bli_free_intl]
    · simp [bli_l3_thrinfo_free, am_chief, bli_thrcomm_free, bli_free_intl]
    · simp [bli_l3_thrinfo_free, am_chief, bli_thrcomm_free, bli_free_intl, fields_at,
        List.find?_eq_none]
/-! ## The last store of the loop nest -/

/-- A loop that runs at least once ends with its body at the last index. -/
theorem for_int_last {σ : Type} (n : dim_t) (h1 : 1 ≤ n) (bm : dim_t → σ → Except stop_t σ)
    (s s2 : σ) (h : for_int n bm s = Except.ok s2) : ∃ s1, bm (n - 1) s1 = Except.ok s2 := by
  unfold for_int at h
  split at h
  · cases h
  · obtain ⟨k, hk⟩ : ∃ k : Nat, n.toNat = k + 1 := by
      refine ⟨n.toNat - 1, ?_⟩
      have h0 : (0 : Int) < n := lt_of_lt_of_le Int.one_pos h1
      have h2 : 0 < n.toNat := (Int.toNat_lt_toNat h0).2 h0
      omega
    have hn : ((k : Nat) : Int) = n - 1 := by
      have h3 : ((n.toNat : Nat) : Int) = n :=
        Int.toNat_of_nonneg (le_trans Int.one_nonneg h1)
      rw [hk] at h3
      have h4 : (((k + 1 : Nat)) : Int) = (k : Int) + 1 := by push_cast; rfl
      rw [h4] at h3
      show ((k : Nat) : Int) = (n - 1 : Int)
      omega
    rw [hk, List.range_succ, List.foldlM_append] at h
    cases hq : (List.range k).foldlM (fun st (i : Nat) => bm (i : Int) st) s with
    | error stop =>
      rw [hq] at h
      cases h
    | ok s1 =>
      rw [hq] at h
      refine ⟨s1, ?_⟩
      rw [← hn]
      have h5 : (Except.ok s1 >>= fun st => [k].foldlM (fun st (i : Nat) => bm (i : Int) st) st)
          = Except.ok s2 := h
      simp only [List.foldlM_cons, List.foldlM_nil] at h5
      cases hb : bm (k : Int) s1 with
      | error stop =>
        have h6 : (Except.ok s1 >>= fun st => bm (k : Int) st >>= pure)
            = (bm (k : Int) s1 >>= pure) := rfl
        rw [h6, hb] at h5
        cases h5
      | ok s3 =>
        have h6 : (Except.ok s1 >>= fun st => bm (k : Int) st >>= pure)
            = (bm (k : Int) s1 >>= pure) := rfl
        rw [h6, hb] at h5
        exact h5

/-- With all factors at least 1, the loop nest ends with the innermost body at
the last index of every loop. -/
theorem last_store (w : nways_t)
    (hw : 1 ≤ w.jc ∧ 1 ≤ w.kc ∧ 1 ≤ w.ic ∧ 1 ≤ w.jr ∧ 1 ≤ w.ir)
    (gc : thrcomm_t) (s s2 : build_t)
    (h : for_int w.jc (fun a => jc_body w gc a) s = Except.ok s2) :
    ∃ (c1 c2 c3 c4 : thrcomm_t) (s1 : build_t),
      s2 = path_body w gc c1 c2 c3 c4 (w.jc - 1) (w.kc - 1) (w.ic - 1) (w.jr - 1) (w.ir - 1)
        s1 := by
  obtain ⟨t1, g1⟩ := for_int_last _ hw.1 _ s s2 h
  unfold jc_body at g1
  obtain ⟨t2, g2⟩ := for_int_last _ hw.2.1 _ _ s2 g1
  unfold kc_body at g2
  obtain ⟨t3, g3⟩ := for_int_last _ hw.2.2.1 _ _ s2 g2
  unfold ic_body at g3
  obtain ⟨t4, g4⟩ := for_int_last _ hw.2.2.2.1 _ _ s2 g3
  unfold jr_body at g4
  obtain ⟨t5, g5⟩ := for_int_last _ hw.2.2.2.2 _ _ s2 g4
  injection g5 with g5
  exact ⟨_, _, _, _, t5, g5.symm⟩

/-- With no factor above `INT_MAX`, the loop nest runs to its end. -/
theorem loops_ok (w : nways_t)
    (hw : w.jc ≤ INT_MAX ∧ w.kc ≤ INT_MAX ∧ w.ic ≤ INT_MAX ∧ w.jr ≤ INT_MAX ∧ w.ir ≤ INT_MAX)
    (gc : thrcomm_t) (s : build_t) :
    ∃ s2, for_int w.jc (fun a => jc_body w gc a) s = Except.ok s2 := by
  refine for_int_ok _ hw.1 _ ?_ s
  intro a s1
  unfold jc_body
  refine for_int_ok _ hw.2.1 _ ?_ _
  intro b s2
  unfold kc_body
  refine for_int_ok _ hw.2.2.1 _ ?_ _
  intro c s3
  unfold ic_body
  refine for_int_ok _ hw.2.2.2.1 _ ?_ _
  intro d s4
  unfold jr_body
  refine for_int_ok _ hw.2.2.2.2 _ ?_ _
  intro e s5
  exact ⟨_, rfl⟩

/-- With a product that is not 0 in `dim_t` and no factor above `INT_MAX`, an
array is returned. -/
theorem create_paths_returns (w : nways_t) (hN : global_num_threads w ≠ 0)
    (hw : w.jc ≤ INT_MAX ∧ w.kc ≤ INT_MAX ∧ w.ic ≤ INT_MAX ∧ w.jr ≤ INT_MAX ∧ w.ir ≤ INT_MAX) :
    ∃ r, create_paths_from w = Except.ok r := by
  obtain ⟨s2, hs2⟩ := loops_ok w hw
    (bli_thrcomm_create (global_num_threads w) { comms := [], n_nodes := 0, stores := [] }).1
    (bli_thrcomm_create (global_num_threads w) { comms := [], n_nodes := 0, stores := [] }).2
  unfold create_paths_from
  rw [if_neg hN]
  dsimp only
  rw [hs2]
  exact ⟨_, rfl⟩

theorem paths_of_length (num : dim_t) (stores : List (dim_t × thrinfo_t)) :
    (paths_of num stores).length = num.toNat := by
  unfold paths_of
  have key : ∀ (l : List (dim_t × thrinfo_t)) (arr : List (Option thrinfo_t)),
      (l.foldl
          (fun arr st =>
            if 0 ≤ st.1 ∧ st.1 < num then arr.set st.1.toNat (some st.2) else arr) arr).length
        = arr.length := by
    intro l
    induction l with
    | nil =>
      intro arr
      rfl
    | cons x xs ih =>
      intro arr
      rw [List.foldl_cons, ih]
      split
      · exact List.length_set _ _ _
      · rfl
  rw [key, List.length_replicate]

/-- The slot of the last store, when it is inside the array, holds the chain of
the last store. -/
theorem paths_of_last (num : dim_t) (stores : List (dim_t × thrinfo_t)) (i : dim_t)
    (t : thrinfo_t) (h0 : 0 ≤ i) (h1 : i < num) :
    (paths_of num (stores ++ [(i, t)]))[i.toNat]? = some (some t) := by
  have hlen := paths_of_length num stores
  have hlt : i.toNat < (paths_of num stores).length := by
    rw [hlen]
    exact (Int.toNat_lt_toNat (lt_of_le_of_lt h0 h1)).2 h1
  have hstep : paths_of num (stores ++ [(i, t)]) = (paths_of num stores).set i.toNat (some t) := by
    unfold paths_of
    rw [List.foldl_append]
    simp only [List.foldl_cons, List.foldl_nil]
    rw [if_pos ⟨h0, h1⟩]
  rw [hstep, List.getElem?_set_self hlt]

/-! ## The first store of the loop nest -/

/-- What the first run of the body establishes and the later runs keep holds of
the state that a loop with at least one iteration returns. -/
theorem for_int_first {σ : Type} (P : σ → Prop) (n : dim_t) (h1 : 1 ≤ n)
    (bm : dim_t → σ → Except stop_t σ) (s s2 : σ)
    (hfirst : ∀ s1, bm 0 s = Except.ok s1 → P s1)
    (hstep : ∀ i t t1, P t → bm i t = Except.ok t1 → P t1)
    (h : for_int n bm s = Except.ok s2) : P s2 := by
  unfold for_int at h
  split at h
  · cases h
  · obtain ⟨k, hk⟩ : ∃ k : Nat, n.toNat = k + 1 := by
      refine ⟨n.toNat - 1, ?_⟩
      have h0 : (0 : Int) < n := lt_of_lt_of_le Int.one_pos h1
      have h2 : 0 < n.toNat := (Int.toNat_lt_toNat h0).2 h0
      omega
    rw [hk, List.range_succ_eq_map, List.foldlM_cons] at h
    cases hx : bm ((0 : Nat) : Int) s with
    | error stop =>
      rw [hx] at h
      cases h
    | ok s1 =>
      rw [hx] at h
      exact foldlM_inv P bm hstep _ s1 (hfirst s1 hx) s2 h

theorem path_body_extends (w : nways_t) (gc jc kc ic jr : thrcomm_t) (a b c d e : dim_t)
    (s : build_t) : ∃ l, (path_body w gc jc kc ic jr a b c d e s).stores = s.stores ++ l :=
  ⟨[(global_comm_id w a b c d e,
      chain_of w gc jc kc ic jr { uid := s.comms.length, n_threads := ir_nt w }
        a b c d e s.n_nodes)], by rw [path_body_store]⟩

/-- The bodies of the loop nest only append to the stores. -/
theorem jr_body_extends (w : nways_t) (gc jc kc ic : thrcomm_t) (a b c d : dim_t)
    (s s2 : build_t) (h : jr_body w gc jc kc ic a b c d s = Except.ok s2) :
    ∃ l, s2.stores = s.stores ++ l := by
  unfold jr_body at h
  refine for_int_inv (fun t : build_t => ∃ l, t.stores = s.stores ++ l) _ _ ?_ _
    (show ∃ l, (bli_thrcomm_create (jr_nt w) s).2.stores = s.stores ++ l from
      ⟨[], (List.append_nil _).symm⟩) s2 h
  intro e t t1 ⟨l, hl⟩ ht
  injection ht with ht
  rw [← ht, path_body_store]
  exact ⟨l ++ [_], by rw [hl, List.append_assoc]⟩

theorem ic_body_extends (w : nways_t) (gc jc kc : thrcomm_t) (a b c : dim_t)
    (s s2 : build_t) (h : ic_body w gc jc kc a b c s = Except.ok s2) :
    ∃ l, s2.stores = s.stores ++ l := by
  unfold ic_body at h
  refine for_int_inv (fun t : build_t => ∃ l, t.stores = s.stores ++ l) _ _ ?_ _
    (show ∃ l, (bli_thrcomm_create (ic_nt w) s).2.stores = s.stores ++ l from
      ⟨[], (List.append_nil _).symm⟩) s2 h
  intro d t t1 ⟨l, hl⟩ ht
  obtain ⟨l2, hl2⟩ := jr_body_extends _ _ _ _ _ _ _ _ _ _ _ ht
  exact ⟨l ++ l2, by rw [hl2, hl, List.append_assoc]⟩

theorem kc_body_extends (w : nways_t) (gc jc : thrcomm_t) (a b : dim_t)
    (s s2 : build_t) (h : kc_body w gc jc a b s = Except.ok s2) :
    ∃ l, s2.stores = s.stores ++ l := by
  unfold kc_body at h
  refine for_int_inv (fun t : build_t => ∃ l, t.stores = s.stores ++ l) _ _ ?_ _
    (show ∃ l, (bli_thrcomm_create (kc_nt w) s).2.stores = s.stores ++ l from
      ⟨[], (List.append_nil _).symm⟩) s2 h
  intro c t t1 ⟨l, hl⟩ ht
  obtain ⟨l2, hl2⟩ := ic_body_extends _ _ _ _ _ _ _ _ _ ht
  exact ⟨l ++ l2, by rw [hl2, hl, List.append_assoc]⟩

theorem jc_body_extends (w : nways_t) (gc : thrcomm_t) (a : dim_t)
    (s s2 : build_t) (h : jc_body w gc a s = Except.ok s2) :
    ∃ l, s2.stores = s.stores ++ l := by
  unfold jc_body at h
  refine for_int_inv (fun t : build_t => ∃ l, t.stores = s.stores ++ l) _ _ ?_ _
    (show ∃ l, (bli_thrcomm_create (jc_nt w) s).2.stores = s.stores ++ l from
      ⟨[], (List.append_nil _).symm⟩) s2 h
  intro b t t1 ⟨l, hl⟩ ht
  obtain ⟨l2, hl2⟩ := kc_body_extends _ _ _ _ _ _ _ ht
  exact ⟨l ++ l2, by rw [hl2, hl, List.append_assoc]⟩

/-- With all factors at least 1: what holds after the innermost body at index 0
of every loop, and is kept when stores are appended, holds of the state that the
loop nest returns. -/
theorem first_store_keeps (w : nways_t)
    (hw : 1 ≤ w.jc ∧ 1 ≤ w.kc ∧ 1 ≤ w.ic ∧ 1 ≤ w.jr ∧ 1 ≤ w.ir)
    (gc : thrcomm_t) (s s2 : build_t) (P : build_t → Prop)
    (keep : ∀ t t1 : build_t, P t → (∃ l2, t1.stores = t.stores ++ l2) → P t1)
    (init : ∀ (c1 c2 c3 c4 : thrcomm_t) (t : build_t), t.stores = s.stores →
      P (path_body w gc c1 c2 c3 c4 0 0 0 0 0 t))
    (h : for_int w.jc (fun a => jc_body w gc a) s = Except.ok s2) : P s2 := by
  refine for_int_first P _ hw.1 _ s s2 ?_
    (fun a t t1 ht h1 => keep t t1 ht (jc_body_extends _ _ _ _ _ h1)) h
  intro s1 g1
  unfold jc_body at g1
  refine for_int_first P _ hw.2.1 _ _ s1 ?_
    (fun b t t1 ht h1 => keep t t1 ht (kc_body_extends _ _ _ _ _ _ _ h1)) g1
  intro s2 g2
  unfold kc_body at g2
  refine for_int_first P _ hw.2.2.1 _ _ s2 ?_
    (fun c t t1 ht h1 => keep t t1 ht (ic_body_extends _ _ _ _ _ _ _ _ _ h1)) g2
  intro s3 g3
  unfold ic_body at g3
  refine for_int_first P _ hw.2.2.2.1 _ _ s3 ?_
    (fun d t t1 ht h1 => keep t t1 ht (jr_body_extends _ _ _ _ _ _ _ _ _ _ _ h1)) g3
  intro s4 g4
  unfold jr_body at g4
  refine for_int_first P _ hw.2.2.2.2 _ _ s4 ?_ ?_ g4
  · intro s5 g5
    injection g5 with g5
    rw [← g5]
    exact init _ _ _ _ _ rfl
  · intro e t t1 ht h1
    injection h1 with h1
    rw [← h1]
    exact keep t _ ht (path_body_extends _ _ _ _ _ _ _ _ _ _ _ _)

/-- With all factors at least 1, the first store of the loop nest is that of the
innermost body at index 0 of every loop. -/
theorem first_store (w : nways_t)
    (hw : 1 ≤ w.jc ∧ 1 ≤ w.kc ∧ 1 ≤ w.ic ∧ 1 ≤ w.jr ∧ 1 ≤ w.ir)
    (gc : thrcomm_t) (s s2 : build_t)
    (h : for_int w.jc (fun a => jc_body w gc a) s = Except.ok s2) :
    ∃ (c1 c2 c3 c4 c5 : thrcomm_t) (n : Nat) (l : List (dim_t × thrinfo_t)),
      s2.stores = s.stores ++
        (global_comm_id w 0 0 0 0 0, chain_of w gc c1 c2 c3 c4 c5 0 0 0 0 0 n) :: l := by
  refine first_store_keeps w hw gc s s2
    (fun t : build_t =>
      ∃ (c1 c2 c3 c4 c5 : thrcomm_t) (n : Nat) (l : List (dim_t × thrinfo_t)),
        t.stores = s.stores ++
          (global_comm_id w 0 0 0 0 0, chain_of w gc c1 c2 c3 c4 c5 0 0 0 0 0 n) :: l)
    ?_ ?_ h
  · intro t t1 ⟨c1, c2, c3, c4, c5, n, l, hl⟩ ⟨l2, hl2⟩
    exact ⟨c1, c2, c3, c4, c5, n, l ++ l2, by
      rw [hl2, hl, List.append_assoc, List.cons_append]⟩
  · intro c1 c2 c3 c4 t ht
    rw [path_body_store, ht]
    exact ⟨_, _, _, _, _, _, [], rfl⟩
/-! ## Work ids -/

theorem store_index_at (s : build_t) (n : Nat)
    (h : store_indices s = (List.range n).map Int.ofNat) (k : Nat) (hk : k < s.stores.length) :
    (s.stores[k]).1 = (k : Int) := by
  have hlen : s.stores.length = n := by
    have := congrArg List.length h
    simpa [store_indices] using this
  have h2 : (store_indices s)[k]? = some (Int.ofNat k) := by
    rw [h, List.getElem?_map, List.getElem?_range (hlen ▸ hk)]
    rfl
  simp only [store_indices, List.getElem?_map, List.getElem?_eq_getElem hk] at h2
  simpa using h2

/-- C19, counterexample.  With `BLIS_JC_NT = 2`, `BLIS_IC_NT = 2^21 + 1` and
`BLIS_JR_NT = BLIS_IR_NT = 2^21` all five effective factors of gemm are at least
1 and at most `INT_MAX`, and `kc_nt = ic_way * jr_way * ir_way = 2^63 + 2^42` is
`-2^63 + 2^42` in `dim_t`.  The chain built first, with all loop indices 0, is
stored in slot 0, and its packing struct of B has `n_way = -2^63 + 2^42` and
`work_id = 0`, which is not in the range `0 ≤ work_id < n_way`.  The product of
all five factors is `2^43` in `dim_t`, an array of `2^43` slots is returned, the
chain built last is in its last slot with `work_id = -2^63 + 2^42 - 1` in its
packing struct of B, and every chain of the array has a packing struct with a
work id out of range. -/
theorem work_id_out_of_range :
    nways_eff opid_t.BLIS_GEMM side_t.BLIS_LEFT (nways_in true wrap_env)
      = { jc := 2, kc := 1, ic := 2097153, jr := 2097152, ir := 2097152 } ∧
    kc_nt { jc := 2, kc := 1, ic := 2097153, jr := 2097152, ir := 2097152 }
      = -9223367638808264704 ∧
    global_num_threads { jc := 2, kc := 1, ic := 2097153, jr := 2097152, ir := 2097152 }
      = 8796093022208 ∧
    ∃ r : paths_t,
      bli_l3_thrinfo_create_paths true wrap_env opid_t.BLIS_GEMM side_t.BLIS_LEFT
        = Except.ok r ∧
      r.paths.length = 8796093022208 ∧
      (∃ (t0 : thrinfo_t) (l : List (dim_t × thrinfo_t)),
        r.final.stores = (0, t0) :: l ∧
        ∃ nd ∈ chain_nodes t0,
          nd.free_comms = false ∧
          nd.n_way = -9223367638808264704 ∧
          nd.work_id = 0 ∧
          ¬ (0 ≤ nd.work_id ∧ nd.work_id < nd.n_way)) ∧
      (∃ t ∈ chains_of r.paths, ∃ nd ∈ chain_nodes t,
        r.paths[8796093022207]? = some (some t) ∧
        nd.free_comms = false ∧
        nd.n_way = -9223367638808264704 ∧
        nd.work_id = -9223367638808264705 ∧
        ¬ (0 ≤ nd.work_id ∧ nd.work_id < nd.n_way)) ∧
      (∀ t ∈ chains_of r.paths, ∃ nd ∈ chain_nodes t,
        nd.free_comms = false ∧
        nd.n_way = -9223367638808264704 ∧
        ¬ (0 ≤ nd.work_id ∧ nd.work_id < nd.n_way)) := by
  have hw : nways_eff opid_t.BLIS_GEMM side_t.BLIS_LEFT (nways_in true wrap_env)
      = { jc := 2, kc := 1, ic := 2097153, jr := 2097152, ir := 2097152 } := by decide
  have hN : global_num_threads { jc := 2, kc := 1, ic := 2097153, jr := 2097152, ir := 2097152 }
      = 8796093022208 := by decide
  refine ⟨hw, by decide, hN, ?_⟩
  obtain ⟨r, hr⟩ := create_paths_returns
    { jc := 2, kc := 1, ic := 2097153, jr := 2097152, ir := 2097152 }
    (by rw [hN]; decide) (by decide)
  obtain ⟨_, _, hp, hloop⟩ := create_paths_ok _ r hr
  obtain ⟨c1, c2, c3, c4, s1, hs⟩ := last_store _ (by decide) _ _ _ hloop
  rw [path_body_store] at hs
  have hst : r.final.stores = s1.stores ++
      [(8796093022207,
        chain_of { jc := 2, kc := 1, ic := 2097153, jr := 2097152, ir := 2097152 }
          r.global_comm c1 c2 c3 c4 { uid := s1.comms.length, n_threads := 1 }
          1 0 2097152 2097151 2097151 s1.n_nodes)] := by
    rw [hs]
    rfl
  have hslots : paths_slots 8796093022208 = 8796093022208 := by decide
  rw [hN, hslots, hst] at hp
  have hslot : r.paths[8796093022207]? = some (some
      (chain_of { jc := 2, kc := 1, ic := 2097153, jr := 2097152, ir := 2097152 }
          r.global_comm c1 c2 c3 c4 { uid := s1.comms.length, n_threads := 1 }
          1 0 2097152 2097151 2097151 s1.n_nodes)) := by
    rw [hp]
    exact paths_of_last 8796093022208 s1.stores 8796093022207 _ (by decide) (by decide)
  have hr3 : bli_l3_thrinfo_create_paths true wrap_env opid_t.BLIS_GEMM side_t.BLIS_LEFT
      = Except.ok r := by
    unfold bli_l3_thrinfo_create_paths
    rw [hw]
    exact hr
  have hk : kc_nt { jc := 2, kc := 1, ic := 2097153, jr := 2097152, ir := 2097152 }
      = -9223367638808264704 := by decide
  have hid : kc_comm_id { jc := 2, kc := 1, ic := 2097153, jr := 2097152, ir := 2097152 }
      2097152 2097151 2097151 = -9223367638808264705 := by decide
  have hid0 : kc_comm_id { jc := 2, kc := 1, ic := 2097153, jr := 2097152, ir := 2097152 }
      0 0 0 = 0 := by decide
  have hg0 : global_comm_id { jc := 2, kc := 1, ic := 2097153, jr := 2097152, ir := 2097152 }
      0 0 0 0 0 = 0 := by decide
  refine ⟨r, hr3, ?_, ?_, ?_, ?_⟩
  · rw [hp, paths_of_length]
    rfl
  · obtain ⟨d1, d2, d3, d4, d5, n, l, hl⟩ := first_store _ (by decide) _ _ _ hloop
    rw [hg0] at hl
    refine ⟨_, l, hl, ?_⟩
    rw [chain_nodes_of_chain]
    refine ⟨_, List.mem_cons_of_mem _ (List.mem_cons_of_mem _ (List.mem_cons_self _ _)),
      rfl, hk, hid0, ?_⟩
    show ¬ (0 ≤ kc_comm_id { jc := 2, kc := 1, ic := 2097153, jr := 2097152, ir := 2097152 }
        0 0 0 ∧
      kc_comm_id { jc := 2, kc := 1, ic := 2097153, jr := 2097152, ir := 2097152 } 0 0 0
        < kc_nt { jc := 2, kc := 1, ic := 2097153, jr := 2097152, ir := 2097152 })
    rw [hk, hid0]
    decide
  · refine ⟨chain_of { jc := 2, kc := 1, ic := 2097153, jr := 2097152, ir := 2097152 }
      r.global_comm c1 c2 c3 c4 { uid := s1.comms.length, n_threads := 1 }
      1 0 2097152 2097151 2097151 s1.n_nodes, ?_, ?_⟩
    · unfold chains_of
      rw [List.mem_filterMap]
      exact ⟨_, List.getElem?_mem hslot, rfl⟩
    · rw [chain_nodes_of_chain]
      refine ⟨_, List.mem_cons_of_mem _ (List.mem_cons_of_mem _ (List.mem_cons_self _ _)),
        hslot, rfl, hk, hid, ?_⟩
      show ¬ (0 ≤ kc_comm_id { jc := 2, kc := 1, ic := 2097153, jr := 2097152, ir := 2097152 }
          2097152 2097151 2097151 ∧
        kc_comm_id { jc := 2, kc := 1, ic := 2097153, jr := 2097152, ir := 2097152 }
          2097152 2097151 2097151
          < kc_nt { jc := 2, kc := 1, ic := 2097153, jr := 2097152, ir := 2097152 })
      rw [hk, hid]
      decide
  · intro t ht
    obtain ⟨d0, d1, d2, d3, d4, d5, a, b, c, d, e, n, hx⟩ :=
      chains_of_paths_mem true wrap_env opid_t.BLIS_GEMM side_t.BLIS_LEFT r hr3 t ht
    rw [hw] at hx
    rw [hx, chain_nodes_of_chain]
    refine ⟨_, List.mem_cons_of_mem _ (List.mem_cons_of_mem _ (List.mem_cons_self _ _)),
      rfl, hk, ?_⟩
    show ¬ (0 ≤ kc_comm_id { jc := 2, kc := 1, ic := 2097153, jr := 2097152, ir := 2097152 }
        c d e ∧
      kc_comm_id { jc := 2, kc := 1, ic := 2097153, jr := 2097152, ir := 2097152 } c d e
        < kc_nt { jc := 2, kc := 1, ic := 2097153, jr := 2097152, ir := 2097152 })
    rw [hk]
    intro hcon
    exact absurd (lt_of_le_of_lt hcon.1 hcon.2) (by decide)

/-- C19, amended.  Work assignment is in range at every node where nothing
overflows.  With all five effective factors `w` at least 1 and at most
`INT_MAX`, and their product `N` below `2^61`, an array is returned, it holds `N`
chains, and every struct of every chain has `0 ≤ work_id < n_way`.  The loop body
with loop indices `a, b, c, d, e` stores at `global_comm_id` a chain of seven
structs, root first: the jc and kc loop structs, the packing struct of B, the ic
loop struct, the packing struct of A, and the jr and ir loop structs; a loop
struct has the effective factor of its level as `n_way` and the loop index of its
level as `work_id`; a packing struct has `n_way = kc_nt`, resp. `ic_nt`, and the
id `kc_comm_id`, resp. `ic_comm_id`, as `work_id`.  For loop indices within the
loop ranges the slot `global_comm_id` of the returned array holds that chain, and
every chain of the array is the chain of such loop indices.  A packing struct has
the size of its outer communicator as `n_way` and its outer id as `work_id`; and
over all chains, the work ids of the packing structs with that outer communicator
are `0, 1, .., n_way-1`, each once. -/
theorem work_ids_in_range (multithreading : Bool) (bli_env_read_nway : String → dim_t)
    (l3_op : opid_t) (side : side_t) (w : nways_t)
    (hw : w = nways_eff l3_op side (nways_in multithreading bli_env_read_nway))
    (hno : no_overflow w) :
    ∃ r : paths_t,
      bli_l3_thrinfo_create_paths multithreading bli_env_read_nway l3_op side = Except.ok r ∧
      (chains_of r.paths).length = (global_num_threads w).toNat ∧
      (∀ t ∈ chains_of r.paths, ∀ nd ∈ chain_nodes t,
        0 ≤ nd.work_id ∧ nd.work_id < nd.n_way) ∧
      (∀ (gc jc kc ic jr : thrcomm_t) (a b c d e : dim_t) (s : build_t),
        ∃ t : thrinfo_t,
          (path_body w gc jc kc ic jr a b c d e s).stores
            = s.stores ++ [(global_comm_id w a b c d e, t)] ∧
          (chain_nodes t).map (fun nd => (nd.free_comms, nd.n_way, nd.work_id))
            = [(true, w.jc, a), (true, w.kc, b), (false, kc_nt w, kc_comm_id w c d e),
               (true, w.ic, c), (false, ic_nt w, ic_comm_id w d e),
               (true, w.jr, d), (true, w.ir, e)]) ∧
      (∀ a b c d e : dim_t, in_ranges w a b c d e →
        (0 ≤ global_comm_id w a b c d e ∧ global_comm_id w a b c d e < global_num_threads w) ∧
        kc_comm_id w c d e = c * ic_nt w + d * jr_nt w + e ∧
        ic_comm_id w d e = d * jr_nt w + e ∧
        ∃ t : thrinfo_t,
          r.paths[(global_comm_id w a b c d e).toNat]? = some (some t) ∧
          (chain_nodes t).map (fun nd => (nd.free_comms, nd.n_way, nd.work_id))
            = [(true, w.jc, a), (true, w.kc, b), (false, kc_nt w, kc_comm_id w c d e),
               (true, w.ic, c), (false, ic_nt w, ic_comm_id w d e),
               (true, w.jr, d), (true, w.ir, e)]) ∧
      (∀ t ∈ chains_of r.paths, ∃ a b c d e : dim_t, in_ranges w a b c d e ∧
        r.paths[(global_comm_id w a b c d e).toNat]? = some (some t)) ∧
      (kc_nt w = w.ic * w.jr * w.ir ∧ ic_nt w = w.jr * w.ir) ∧
      (∀ t ∈ chains_of r.paths, ∀ nd ∈ chain_nodes t, nd.free_comms = false →
        nd.ocomm ∈ r.final.comms ∧ nd.n_way = nd.ocomm.n_threads ∧
        nd.work_id = nd.ocomm_id ∧ (nd.n_way = kc_nt w ∨ nd.n_way = ic_nt w) ∧
        (chains_of r.paths).flatMap (fun t2 => packm_work_ids t2 nd.ocomm)
          = (List.range nd.n_way.toNat).map Int.ofNat) := by
  obtain ⟨r, hr, hpaths, hlen, _, hok, _, hnew, _, hin, hidx, _, _⟩ := returned_levels w hno
  have hpos := no_overflow_pos w hno
  obtain ⟨eN, e4, e3, e2⟩ := nt_exact w hno
  have hr3 : bli_l3_thrinfo_create_paths multithreading bli_env_read_nway l3_op side
      = Except.ok r := by
    unfold bli_l3_thrinfo_create_paths
    rw [← hw]
    exact hr
  have hch : chains_of r.paths = r.final.stores.map Prod.snd := by
    rw [hpaths, chains_of_stores]
  have hN : 1 ≤ global_num_threads w := by
    rw [eN]
    exact global_num_threads_pos w hpos
  have hcast : (((global_num_threads w).toNat : Nat) : Int) = global_num_threads w :=
    Int.toNat_of_nonneg (le_trans Int.one_nonneg hN)
  have hnew2 : ∀ cm ∈ r.final.comms, ∃ lv : Nat, cm.n_threads = ideal_level_nt w lv ∧
      refs_for cm r.final.stores
        = (List.range cm.n_threads.toNat).map (fun x : Nat => (lv, (x : Int))) := by
    intro cm hcm
    obtain ⟨lv, h1, h2⟩ := hnew cm hcm
    exact ⟨lv, by rw [← level_nt_exact w hno lv]; exact h1, h2⟩
  have hsum : ∀ (gc jc kc ic jr ir : thrcomm_t) (a b c d e : dim_t) (n : Nat),
      (chain_nodes (chain_of w gc jc kc ic jr ir a b c d e n)).map
          (fun nd => (nd.free_comms, nd.n_way, nd.work_id))
        = [(true, w.jc, a), (true, w.kc, b), (false, kc_nt w, kc_comm_id w c d e),
           (true, w.ic, c), (false, ic_nt w, ic_comm_id w d e),
           (true, w.jr, d), (true, w.ir, e)] := by
    intro gc jc kc ic jr ir a b c d e n
    rw [chain_nodes_of_chain]
    rfl
  refine ⟨r, hr3, ?_, ?_, ?_, ?_, ?_, ?_, ?_⟩
  · rw [hch, List.length_map, hlen]
  · intro t ht
    rw [hch, List.mem_map] at ht
    obtain ⟨st, hst, hst2⟩ := ht
    subst hst2
    obtain ⟨gc, jc, kc, ic, jr, ir, a, b, c, d, e, n, hx, hin2, _⟩ := hok st hst
    have hx2 : st.2 = ideal_chain_of w gc jc kc ic jr ir a b c d e n := by rw [hx]
    rw [hx2]
    exact node_range_chain_of w gc jc kc ic jr ir a b c d e n hin2
  · intro gc jc kc ic jr a b c d e s
    refine ⟨chain_of w gc jc kc ic jr { uid := s.comms.length, n_threads := ir_nt w }
      a b c d e s.n_nodes, ?_, hsum gc jc kc ic jr _ a b c d e s.n_nodes⟩
    rw [path_body_store]
  · intro a b c d e hab
    obtain ⟨i1, i2, i3, i4, i5⟩ := ids_exact w hno a b c d e hab
    have hb := global_comm_id_bound w a b c d e hab
    rw [← i5, ← eN] at hb
    have hlt : (global_comm_id w a b c d e).toNat < r.final.stores.length := by
      rw [hlen]
      exact (Int.toNat_lt_toNat (lt_of_le_of_lt hb.1 hb.2)).mpr hb.2
    have hfst := store_index_at r.final _ hidx _ hlt
    rw [Int.toNat_of_nonneg hb.1] at hfst
    have hmem : r.final.stores[(global_comm_id w a b c d e).toNat] ∈ r.final.stores :=
      List.getElem_mem hlt
    obtain ⟨gc, jc, kc, ic, jr, ir, a2, b2, c2, d2, e2, n, hx, hin2, _⟩ := hok _ hmem
    have hx1 : (r.final.stores[(global_comm_id w a b c d e).toNat]).1
        = ideal_global_comm_id w a2 b2 c2 d2 e2 := by rw [hx]
    have hx2 : (r.final.stores[(global_comm_id w a b c d e).toNat]).2
        = ideal_chain_of w gc jc kc ic jr ir a2 b2 c2 d2 e2 n := by rw [hx]
    rw [hfst, i5] at hx1
    obtain ⟨ea, eb, ec, ed, ee⟩ :=
      global_comm_id_inj w a b c d e a2 b2 c2 d2 e2 hab hin2 hx1
    subst ea eb ec ed ee
    rw [← chain_of_exact w hno gc jc kc ic jr ir a b c d e hab n] at hx2
    refine ⟨hb, ?_, ?_, _, ?_, hsum gc jc kc ic jr ir a b c d e n⟩
    · rw [i3, e2]
      show (c * ideal_ic_nt w + (d * jr_nt w + (e * ir_nt w + 0)) : Int)
        = c * ideal_ic_nt w + d * jr_nt w + e
      unfold ir_nt
      ring
    · rw [i2]
      show (d * jr_nt w + (e * ir_nt w + 0) : Int) = d * jr_nt w + e
      unfold ir_nt
      ring
    · rw [hpaths, List.getElem?_map, List.getElem?_eq_getElem hlt, ← hx2]
      rfl
  · intro t ht
    rw [hch, List.mem_map] at ht
    obtain ⟨st, hst, hst2⟩ := ht
    subst hst2
    obtain ⟨k, hk, hkst⟩ := List.getElem_of_mem hst
    have hfst := store_index_at r.final _ hidx k hk
    obtain ⟨gc, jc, kc, ic, jr, ir, a, b, c, d, e, n, hx, hin2, _⟩ := hok st hst
    have hx1 : st.1 = ideal_global_comm_id w a b c d e := by rw [hx]
    refine ⟨a, b, c, d, e, hin2, ?_⟩
    rw [(ids_exact w hno a b c d e hin2).2.2.2.2, ← hx1, ← hkst, hfst, Int.toNat_ofNat,
      hpaths, List.getElem?_map, List.getElem?_eq_getElem hk]
    rfl
  · rw [e3, e2]
    exact ⟨rfl, rfl⟩
  · intro t ht nd hnd hfc
    rw [hch, List.mem_map] at ht
    obtain ⟨st, hst, hst2⟩ := ht
    subst hst2
    rw [hch]
    obtain ⟨gc, jc, kc, ic, jr, ir, a, b, c, d, e, n, hx, _, _, _, _, hkc, hic, _⟩ :=
      hok st hst
    have hx2 : st.2 = ideal_chain_of w gc jc kc ic jr ir a b c d e n := by rw [hx]
    have hkc_ref : ((2, kc, c * ideal_ic_nt w + (d * jr_nt w + (e * ir_nt w + 0))) :
        Nat × thrcomm_t × dim_t) ∈ level_refs st.2 := by
      rw [hx2, level_refs_chain_of]
      simp
    have hic_ref : ((3, ic, d * jr_nt w + (e * ir_nt w + 0)) :
        Nat × thrcomm_t × dim_t) ∈ level_refs st.2 := by
      rw [hx2, level_refs_chain_of]
      simp
    have gkc := pack_node_group w r.final.comms r.final.stores hok hin hnew2 st hst _ hkc_ref
      (Or.inl rfl)
    have gic := pack_node_group w r.final.comms r.final.stores hok hin hnew2 st hst _ hic_ref
      (Or.inr rfl)
    rw [hx2, chain_nodes_chain_of] at hnd
    simp only [List.mem_cons, List.mem_singleton, List.not_mem_nil, or_false] at hnd
    rcases hnd with h | h | h | h | h | h | h <;> subst h
    · cases hfc
    · cases hfc
    · refine ⟨gkc.1, hkc.symm, rfl, Or.inl e3.symm, ?_⟩
      show _ = (List.range (ideal_kc_nt w).toNat).map Int.ofNat
      rw [← hkc]
      exact gkc.2
    · cases hfc
    · refine ⟨gic.1, hic.symm, rfl, Or.inr e2.symm, ?_⟩
      show _ = (List.range (ideal_ic_nt w).toNat).map Int.ofNat
      rw [← hic]
      exact gic.2
    · cases hfc
    · cases hfc

theorem work_ids_in_range_witness :
    ({ jc := 2, kc := 1, ic := 3, jr := 2, ir := 1 } : nways_t)
      = nways_eff opid_t.BLIS_GEMM side_t.BLIS_LEFT (nways_in true sample_env) ∧
    no_overflow { jc := 2, kc := 1, ic := 3, jr := 2, ir := 1 } ∧
    ∃ r : paths_t,
      bli_l3_thrinfo_create_paths true sample_env opid_t.BLIS_GEMM side_t.BLIS_LEFT
        = Except.ok r ∧
      (chains_of r.paths).length = 12 ∧
      (∀ t ∈ chains_of r.paths, ∀ nd ∈ chain_nodes t,
        0 ≤ nd.work_id ∧ nd.work_id < nd.n_way) := by
  obtain ⟨r, h1, h2, h3, _⟩ :=
    work_ids_in_range true sample_env opid_t.BLIS_GEMM side_t.BLIS_LEFT
      { jc := 2, kc := 1, ic := 3, jr := 2, ir := 1 } (by decide) (by decide)
  exact ⟨by decide, by decide, r, h1, h2, h3⟩

end Blis
